import Mathlib

/-!
# Multipart upload sessions of the donut object store

A shallow embedding of `pkg/donut/multipart.go`.  The Go value `donut API` is the
record `API`; every operation takes the state and returns its result together with
the state it leaves behind.  Go maps are total functions into `Option`
(`none` = key absent, a `none` map = the nil map).  A Go runtime panic (write to a
nil map, method call through a nil `*data.Cache`, slice bound out of range) is the
result `Res.fault`.

Collaborators that are not part of the file (hash functions, base64, the XML
decoder, name validation, the persistence layer `CreateObject`) are the fields of
`Env`, so every theorem holds for all of them.
-/

namespace Donut

set_option linter.unusedVariables false

/-! ## Basic types -/

/-- A Go `[]byte`. -/
abbrev Bytes := List UInt8

/-- A `time.Time` value; only copied around, never inspected. -/
abbrev Time := Nat

/-- The error values returned by the multipart operations (the `iodine.New`
wrapper only attaches a stack trace and is transparent here).  `EOF` is `io.EOF`,
`other` stands for an error produced by a collaborator (reader, signature
verifier, persistence layer). -/
inductive Error where
  | BucketNameInvalid (Bucket : String)
  | ObjectNameInvalid (Object : String)
  | BucketNotFound (Bucket : String)
  | ObjectExists (Object : String)
  | ObjectNotFound (Object : String)
  | InvalidUploadID (UploadID : String)
  | InvalidDigest (Md5 : String)
  | BadDigest
  | IncompleteBody (Bucket Object : String)
  | InternalError
  | SignatureDoesNotMatch
  | MalformedXML
  | InvalidPartOrder
  | InvalidPart
  | InvalidArgument
  | EOF
  | other (msg : String)
  deriving DecidableEq, Repr

/-- Result of a call: a value with a nil error, a non-nil error, or a Go runtime
panic (`fault`), in which case the function does not return to its caller. -/
inductive Res (α : Type) where
  | ok (value : α)
  | err (e : Error)
  | fault
  deriving DecidableEq, Repr

/-- The request signature: `DoesSignatureMatch(hash) (bool, error)`. -/
structure Signature where
  DoesSignatureMatch : String → Except Error Bool

/-- An `io.Reader` that delivers a finite stream: the `Read` calls listed in
`reads` return their bytes with a nil error, the next `Read` returns `last`
together with the error `err` (`Error.EOF` at the regular end of the stream). -/
structure Reader where
  reads : List Bytes
  last : Bytes
  err : Error
  deriving DecidableEq, Repr

/-- All bytes the reader delivers. -/
def Reader.content (r : Reader) : Bytes := r.reads.flatten ++ r.last

/-- The reader after every `Read` call up to and including the failing one. -/
def Reader.drained (r : Reader) : Reader := { reads := [], last := [], err := r.err }

structure ObjectMetadata where
  Bucket : String
  Object : String
  Created : Time
  Md5 : String
  Size : Int
  deriving DecidableEq, Repr

structure MultiPartSession where
  uploadID : String
  initiated : Time
  totalParts : Int
  deriving DecidableEq, Repr

structure PartMetadata where
  PartNumber : Int
  LastModified : Time
  ETag : String
  Size : Int
  deriving DecidableEq, Repr

/-- One `<Part>` element of the completion manifest. -/
structure CompletePart where
  PartNumber : Int
  ETag : String
  deriving DecidableEq, Repr

/-! ## The part cache -/

/-- Modelled from the spec: `data.Cache` (package `pkg/donut/cache/data`) is not
among the listed sources.  The spec describes a key→bytes store keyed by part
number with `Append`, `Get` and `Delete`; every cache of this module is created by
`data.NewCache(0)`, i.e. without a size bound, so nothing is evicted and `Append`
always reports success. -/
structure Cache where
  items : Int → Option Bytes

/-- Modelled from the spec: `data.NewCache(0)`, the empty cache. -/
def NewCache : Cache := ⟨fun _ => none⟩

/-- Modelled from the spec: `Append(key, value)` appends `value` to the bytes held
under `key` (creating the entry when there is none) and reports success. -/
def Cache.Append (c : Cache) (key : Int) (value : Bytes) : Bool × Cache :=
  (true, ⟨fun k => if k = key then some ((c.items key).getD [] ++ value) else c.items k⟩)

/-- Modelled from the spec: `Get(key) → (bytes, found)`. -/
def Cache.Get (c : Cache) (key : Int) : Option Bytes := c.items key

/-- Modelled from the spec: `Delete(key)`. -/
def Cache.Delete (c : Cache) (key : Int) : Cache :=
  ⟨fun k => if k = key then none else c.items k⟩

/-! ## Engine state -/

/-- The per-bucket record kept in `donut.storedBuckets`. -/
structure storedBucket where
  objectMetadata : String → Option ObjectMetadata
  multiPartSession : String → Option MultiPartSession
  partMetadata : String → Option (Int → Option PartMetadata)

/-- The `donut API` value: the bucket table and one part cache per upload id. -/
structure API where
  storedBuckets : String → Option storedBucket
  multiPartObjects : String → Option Cache

/-- Collaborators of the multipart code that live outside `multipart.go`. -/
structure Env where
  IsValidBucket : String → Bool
  IsValidObjectName : String → Bool
  /-- The function `md5.Sum` (also what `md5.New` hashes incrementally). -/
  md5Sum : Bytes → Bytes
  /-- The function `sha256.Sum256`. -/
  sha256Sum : Bytes → Bytes
  /-- The function `sha512.Sum512`. -/
  sha512Sum : Bytes → Bytes
  /-- Encoder `base64.StdEncoding.EncodeToString`. -/
  base64StdEncode : Bytes → String
  /-- Decoder `base64.StdEncoding.DecodeString`, `none` on error. -/
  base64StdDecode : String → Option Bytes
  /-- Encoder `base64.URLEncoding.EncodeToString`. -/
  base64URLEncode : Bytes → String
  /-- Decimal rendering `strconv.FormatInt(·, 10)`. -/
  FormatInt : Int → String
  /-- Rendering `time.Time.String`. -/
  TimeString : Time → String
  /-- Conversion `[]byte(string)`. -/
  toBytes : String → Bytes
  /-- Decoder `xml.Unmarshal` into `CompleteMultipartUpload`: the `Part` list, or
  `none` when the document is malformed. -/
  xmlUnmarshal : Bytes → Option (List CompletePart)
  /-- The persistence layer: `donut.CreateObject(bucket, key, md5sum, size, data, nil, nil)`
  run on the current state. -/
  CreateObject : API → String → String → String → Int → Bytes → Res ObjectMetadata × API

/-! ## Library functions -/

/-- The digit table `"0123456789abcdef"` of `encoding/hex`. -/
def hexDigit (n : Nat) : Char := "0123456789abcdef".data.getD n '0'

/-- Go `hex.EncodeToString`. -/
def EncodeToString (src : Bytes) : String :=
  String.mk (src.flatMap fun b => [hexDigit (b.toNat / 16), hexDigit (b.toNat % 16)])

/-- Go `fromHexChar`: the value of a hexadecimal digit of either case. -/
def fromHexChar (c : Char) : Option Nat :=
  if '0' ≤ c ∧ c ≤ '9' then some (c.toNat - '0'.toNat)
  else if 'a' ≤ c ∧ c ≤ 'f' then some (c.toNat - 'a'.toNat + 10)
  else if 'A' ≤ c ∧ c ≤ 'F' then some (c.toNat - 'A'.toNat + 10)
  else none

/-- Go `hex.Decode` on the characters of the source: `none` for a character that
is no hex digit or for an odd length. -/
def decodeChars : List Char → Option Bytes
  | [] => some []
  | [_] => none
  | p :: q :: rest =>
    match fromHexChar p, fromHexChar q with
    | some a, some b =>
      match decodeChars rest with
      | some out => some (UInt8.ofNat (a * 16 + b) :: out)
      | none => none
    | _, _ => none

/-- Go `hex.DecodeString`, `none` on error. -/
def DecodeString (s : String) : Option Bytes := decodeChars s.data

/-- Go `strings.Trim(s, cutset)`: drop the leading and trailing characters that
occur in `cutset`. -/
def Trim (s cutset : String) : String :=
  String.mk (((s.data.dropWhile fun c => decide (c ∈ cutset.data)).reverse.dropWhile
    fun c => decide (c ∈ cutset.data)).reverse)

/-- Go `unicode.IsSpace`. -/
def isSpace (c : Char) : Bool :=
  let n := c.toNat
  (9 ≤ n && n ≤ 13) || n = 0x20 || n = 0x85 || n = 0xA0 || n = 0x1680 ||
  (0x2000 ≤ n && n ≤ 0x200a) || n = 0x2028 || n = 0x2029 || n = 0x202f ||
  n = 0x205f || n = 0x3000

/-- Go `strings.TrimSpace`. -/
def TrimSpace (s : String) : String :=
  String.mk (((s.data.dropWhile isSpace).reverse.dropWhile isSpace).reverse)

/-- Go `sort.IsSorted` for a slice with the given `Less`: no element is `Less`
than its predecessor. -/
def IsSorted {α : Type} (less : α → α → Bool) : List α → Bool
  | [] => true
  | [_] => true
  | a :: b :: rest => !(less b a) && IsSorted less (b :: rest)

/-- Modelled from the spec: the method `Less` of the sortable type `completedParts` is
declared outside the listed sources; its one use is the ordering check
`sort.IsSorted(completedParts(parts.Part))`.  By the spec that check passes exactly
the manifests whose part-number sequence is strictly increasing, out-of-order and
duplicate entries being rejected: an entry counts as less than another one when its
part number is not greater. -/
def completedParts_Less (a b : CompletePart) : Bool := decide (a.PartNumber ≤ b.PartNumber)

/-- Modelled from the spec: `isMD5SumEqual` is declared outside the listed sources.
A supplied expected digest "must match the computed one": both arguments are hex
digests, and the result is nil exactly when both are non-blank and decode to the
same bytes. -/
def isMD5SumEqual (expectedMD5Sum actualMD5Sum : String) : Option Error :=
  if TrimSpace expectedMD5Sum ≠ "" ∧ TrimSpace actualMD5Sum ≠ "" then
    match DecodeString expectedMD5Sum, DecodeString actualMD5Sum with
    | some e, some a => if e = a then none else some Error.BadDigest
    | _, _ => some Error.InvalidArgument
  else some Error.InvalidArgument

/-- The hex SHA-256 of the empty payload, used to verify requests without a body. -/
def emptySHA256 : String :=
  "e3b0c44298fc1c149afbf4c8996fb92427ae41e4649b934ca495991b7852b855"

/-- The block `if signature != nil { ok, err := signature.DoesSignatureMatch(hash) ... }`:
the error it returns, `none` when the request passes. -/
def checkSignature (signature : Option Signature) (hash : String) : Option Error :=
  match signature with
  | none => none
  | some sig =>
    match sig.DoesSignatureMatch hash with
    | .error e => some e
    | .ok false => some Error.SignatureDoesNotMatch
    | .ok true => none

/-- The session stored under `key`, or the zero value when the map has none
(`storedBucket.multiPartSession[key]`). -/
def sessionAt (b : storedBucket) (key : String) : MultiPartSession :=
  (b.multiPartSession key).getD { uploadID := "", initiated := 0, totalParts := 0 }

/-- Go `m[k] = v` on a map. -/
def mapSet {κ ν : Type} [DecidableEq κ] (m : κ → Option ν) (k : κ) (v : ν) : κ → Option ν :=
  fun x => if x = k then some v else m x

/-- Go `delete(m, k)`. -/
def mapDelete {κ ν : Type} [DecidableEq κ] (m : κ → Option ν) (k : κ) : κ → Option ν :=
  fun x => if x = k then none else m x

/-! ## Session creation and abort -/

/-- `NewMultipartUpload`: initiate a new multipart session.  `rand63` is the value of
`rand.Int63()`, `idTime` and `initiated` are the two readings of `time.Now()`. -/
def NewMultipartUpload (env : Env) (donut : API) (bucket key contentType : String)
    (signature : Option Signature) (rand63 : Int) (idTime initiated : Time) :
    Res String × API :=
  match checkSignature signature emptySHA256 with
  | some e => (.err e, donut)
  | none =>
  if !env.IsValidBucket bucket then (.err (.BucketNameInvalid bucket), donut) else
  if !env.IsValidObjectName key then (.err (.ObjectNameInvalid key), donut) else
  match donut.storedBuckets bucket with
  | none => (.err (.BucketNotFound bucket), donut)
  | some storedBucket =>
  let objectKey := bucket ++ "/" ++ key
  if (storedBucket.objectMetadata objectKey).isSome then (.err (.ObjectExists key), donut) else
  let id := env.toBytes (env.FormatInt rand63 ++ bucket ++ key ++ env.TimeString idTime)
  let encoded := env.base64URLEncode (env.sha512Sum id)
  -- the slice expression `[:47]` panics on a shorter string
  if encoded.length < 47 then (.fault, donut) else
  let uploadID := String.mk (encoded.data.take 47)
  let storedBucket1 : Donut.storedBucket :=
    { storedBucket with
      multiPartSession := mapSet storedBucket.multiPartSession key
        { uploadID := uploadID, initiated := initiated, totalParts := 0 }
      partMetadata := mapSet storedBucket.partMetadata key (fun _ => none) }
  (.ok uploadID,
    { storedBuckets := mapSet donut.storedBuckets bucket storedBucket1
      multiPartObjects := mapSet donut.multiPartObjects uploadID NewCache })

/-- The loop `for i := 1; i <= totalParts; i++ { cache.Delete(i) }`. -/
def deleteParts (c : Cache) (totalParts : Int) : Cache :=
  (List.range totalParts.toNat).foldl (fun (c : Cache) (i : Nat) => c.Delete ((i : Int) + 1)) c

/-- `cleanupMultipartSession`: invoked during an abort or complete to clean the
session up from memory.  `none` is a runtime panic: the bucket is not stored, or
the loop body runs and `donut.multiPartObjects[uploadID]` is nil. -/
def cleanupMultipartSession (donut : API) (bucket key uploadID : String) : Option API :=
  match donut.storedBuckets bucket with
  | none => none
  | some storedBucket =>
    let totalParts := (sessionAt storedBucket key).totalParts
    let storedBucket1 : Donut.storedBucket :=
      { storedBucket with
        multiPartSession := mapDelete storedBucket.multiPartSession key
        partMetadata := mapDelete storedBucket.partMetadata key }
    if totalParts < 1 then
      some { storedBuckets := mapSet donut.storedBuckets bucket storedBucket1
             multiPartObjects := donut.multiPartObjects }
    else
      match donut.multiPartObjects uploadID with
      | none => none
      | some cache =>
        some { storedBuckets := mapSet donut.storedBuckets bucket storedBucket1
               multiPartObjects := mapSet donut.multiPartObjects uploadID
                 (deleteParts cache totalParts) }

/-- `AbortMultipartUpload`: abort an incomplete multipart session. -/
def AbortMultipartUpload (env : Env) (donut : API) (bucket key uploadID : String)
    (signature : Option Signature) : Res Unit × API :=
  match checkSignature signature emptySHA256 with
  | some e => (.err e, donut)
  | none =>
  if !env.IsValidBucket bucket then (.err (.BucketNameInvalid bucket), donut) else
  match donut.storedBuckets bucket with
  | none => (.err (.BucketNotFound bucket), donut)
  | some storedBucket =>
  if (sessionAt storedBucket key).uploadID ≠ uploadID then
    (.err (.InvalidUploadID uploadID), donut)
  else
    match cleanupMultipartSession donut bucket key uploadID with
    | none => (.fault, donut)
    | some donut1 => (.ok (), donut1)

/-! ## Part ingestion -/

/-- Lines 155-162 of `createObjectPart`: a non-blank `expectedMD5Sum` is decoded
from base64 and re-encoded as hex; `none` when it is not valid base64. -/
def expectedHex (env : Env) (expectedMD5Sum : String) : Option String :=
  if TrimSpace expectedMD5Sum ≠ "" then
    match env.base64StdDecode (TrimSpace expectedMD5Sum) with
    | none => none
    | some expectedMD5SumBytes => some (EncodeToString expectedMD5SumBytes)
  else some expectedMD5Sum

/-- The variables the read loop of `createObjectPart` updates: the bytes written
to the two hash states, the part cache and `totalLength`. -/
structure ReadState where
  hashed : Bytes
  cache : Cache
  totalLength : Int

/-- One iteration of the read loop on the bytes `buf[0:length]` of one `Read`:
the flag is the result of `Append`. -/
def readStep (partID : Int) (buf : Bytes) (st : ReadState) : Bool × ReadState :=
  ((st.cache.Append partID buf).1,
    { hashed := st.hashed ++ buf
      cache := (st.cache.Append partID buf).2
      totalLength := st.totalLength + (buf.length : Int) })

/-- The loop `for err == nil { length, err = data.Read(byteBuffer) ... }`: returns
whether every `Append` succeeded, the loop variables and the reader left behind. -/
def readLoop (partID : Int) (err : Error) :
    List Bytes → Bytes → ReadState → Bool × ReadState × Reader
  | [], last, st =>
    ((readStep partID last st).1, (readStep partID last st).2, ⟨[], [], err⟩)
  | c :: cs, last, st =>
    if (readStep partID c st).1 then readLoop partID err cs last (readStep partID c st).2
    else (false, (readStep partID c st).2, ⟨cs, last, err⟩)

/-- The reader after exactly one `Read` call. -/
def Reader.afterRead (r : Reader) : Reader :=
  match r.reads with
  | [] => r.drained
  | _ :: cs => { r with reads := cs }

/-- `createObjectPart`: the internal function called by `CreateObjectPart`.  `now` is
the reading of `time.Now().UTC()`; the third component is the reader as the call
leaves it.  The local `contentType` is normalised by the source but never used. -/
def createObjectPart (env : Env) (donut : API) (bucket key uploadID : String) (partID : Int)
    (contentType expectedMD5Sum : String) (size : Int) (data : Reader)
    (signature : Option Signature) (now : Time) : Res String × API × Reader :=
  if !env.IsValidBucket bucket then (.err (.BucketNameInvalid bucket), donut, data) else
  if !env.IsValidObjectName key then (.err (.ObjectNameInvalid key), donut, data) else
  match donut.storedBuckets bucket with
  | none => (.err (.BucketNotFound bucket), donut, data)
  | some strBucket =>
  -- Verify upload id
  if (sessionAt strBucket key).uploadID ≠ uploadID then
    (.err (.InvalidUploadID uploadID), donut, data)
  else
  let parts := strBucket.partMetadata key
  match parts.bind (fun m => m partID) with
  | some part => (.ok part.ETag, donut, data)
  | none =>
  match expectedHex env expectedMD5Sum with
  | none => (.err (.InvalidDigest expectedMD5Sum), donut, data)
  | some expectedMD5Sum1 =>
  match donut.multiPartObjects uploadID with
  | none => (.fault, donut, data.afterRead)
  | some cache =>
  let loop := readLoop partID data.err data.reads data.last
    { hashed := [], cache := cache, totalLength := 0 }
  let st := loop.2.1
  let data1 := loop.2.2
  let donut1 : API :=
    { storedBuckets := donut.storedBuckets
      multiPartObjects := mapSet donut.multiPartObjects uploadID st.cache }
  if !loop.1 then (.err .InternalError, donut1, data1) else
  if st.totalLength ≠ size then
    (.err (.IncompleteBody bucket key),
      { storedBuckets := donut.storedBuckets
        multiPartObjects := mapSet donut.multiPartObjects uploadID (st.cache.Delete partID) },
      data1)
  else
  if data.err ≠ .EOF then (.err data.err, donut1, data1) else
  let md5Sum := EncodeToString (env.md5Sum st.hashed)
  -- Verify if the written object is equal to what is expected
  if TrimSpace expectedMD5Sum1 ≠ "" ∧
      (isMD5SumEqual (TrimSpace expectedMD5Sum1) md5Sum).isSome then
    (.err .BadDigest, donut1, data1)
  else
  match checkSignature signature (EncodeToString (env.sha256Sum st.hashed)) with
  | some e => (.err e, donut1, data1)
  | none =>
  match parts with
  | none => (.fault, donut1, data1)  -- assignment to an entry in a nil map
  | some parts =>
    let newPart : PartMetadata :=
      { PartNumber := partID, LastModified := now, ETag := md5Sum, Size := st.totalLength }
    let multiPartSession := sessionAt strBucket key
    let strBucket1 : Donut.storedBucket :=
      { strBucket with
        partMetadata := mapSet strBucket.partMetadata key (mapSet parts partID newPart)
        multiPartSession := mapSet strBucket.multiPartSession key
          { multiPartSession with totalParts := multiPartSession.totalParts + 1 } }
    (.ok md5Sum,
      { storedBuckets := mapSet donut.storedBuckets bucket strBucket1
        multiPartObjects := donut1.multiPartObjects }, data1)

/-- `CreateObjectPart`: create a part in a multipart session; it takes the lock and
calls `createObjectPart` with an empty content type. -/
def CreateObjectPart (env : Env) (donut : API) (bucket key uploadID : String) (partID : Int)
    (contentType expectedMD5Sum : String) (size : Int) (data : Reader)
    (signature : Option Signature) (now : Time) : Res String × API × Reader :=
  createObjectPart env donut bucket key uploadID partID "" expectedMD5Sum size data signature now

/-! ## Completion -/

/-- What `CompleteMultipartUpload` does that is visible from outside, in program
order: operations on `donut.lock`, fetches from the part cache, and the call of
the persistence layer with its arguments. -/
inductive Event where
  | Lock
  | Unlock
  | Get (uploadID : String) (partNumber : Int)
  | CreateObject (bucket key expectedMD5Sum : String) (size : Int) (data : Bytes)
  deriving DecidableEq, Repr

/-- Go `ioutil.ReadAll`: all bytes up to `io.EOF`, or the error of the reader. -/
def ReadAll (data : Reader) : Except Error Bytes :=
  if data.err = .EOF then .ok data.content else .error data.err

/-- The loop `for i := 0; i < len(parts.Part); i++` of `CompleteMultipartUpload` on
the remaining manifest entries, with the running `size` and `fullObject`: the
final values (or the error of the entry that stops the loop) and the cache fetches
made. -/
def assembleParts (env : Env) (cache : Option Cache) (uploadID : String) :
    List CompletePart → Int → Bytes → Res (Int × Bytes) × List Event
  | [], size, fullObject => (.ok (size, fullObject), [])
  | part :: rest, size, fullObject =>
    match cache with
    | none => (.fault, [.Get uploadID part.PartNumber])
    | some c =>
      match c.Get part.PartNumber with
      | none => (.err .InvalidPart, [.Get uploadID part.PartNumber])
      | some object =>
        -- complete multi part request header md5sum per part is hex encoded
        match DecodeString (Trim part.ETag "\"") with
        | none => (.err (.InvalidDigest part.ETag), [.Get uploadID part.PartNumber])
        | some recvMD5Bytes =>
          if recvMD5Bytes ≠ env.md5Sum object then
            (.err .BadDigest, [.Get uploadID part.PartNumber])
          else
            ((assembleParts env cache uploadID rest (size + (object.length : Int))
                (fullObject ++ object)).1,
              .Get uploadID part.PartNumber ::
                (assembleParts env cache uploadID rest (size + (object.length : Int))
                  (fullObject ++ object)).2)

/-- What a `CompleteMultipartUpload` call leaves behind: its result, the state, and
the trace of its lock operations, cache fetches and persistence-layer calls. -/
structure Completion where
  result : Res ObjectMetadata
  donut : API
  events : List Event

/-- Lines 315-331 of `CompleteMultipartUpload`, entered with the lock held, the cache
fetches `gets` made so far and the assembled `size` and `fullObject`: digest of the
payload, unlock, `CreateObject`, and on success the session cleanup under the lock. -/
def persistObject (env : Env) (donut : API) (bucket key uploadID : String)
    (gets : List Event) (size : Int) (fullObject : Bytes) : Completion :=
  -- this is needed for final verification inside CreateObject, do not convert this to hex
  let md5sum := env.base64StdEncode (env.md5Sum fullObject)
  let call := Event.CreateObject bucket key md5sum size fullObject
  match env.CreateObject donut bucket key md5sum size fullObject with
  | (.fault, donut1) => ⟨.fault, donut1, .Lock :: gets ++ [.Unlock, call]⟩
  | (.err e, donut1) =>
    -- No need to call internal cleanup functions here, caller will call AbortMultipartUpload()
    ⟨.err e, donut1, .Lock :: gets ++ [.Unlock, call]⟩
  | (.ok objectMetadata, donut1) =>
    match cleanupMultipartSession donut1 bucket key uploadID with
    | none => ⟨.fault, donut1, .Lock :: gets ++ [.Unlock, call, .Lock]⟩
    | some donut2 =>
      ⟨.ok objectMetadata, donut2, .Lock :: gets ++ [.Unlock, call, .Lock, .Unlock]⟩

/-- `CompleteMultipartUpload`: complete a multipart upload and persist the data
(lines 238-313; the tail of the function is `persistObject`). -/
def CompleteMultipartUpload (env : Env) (donut : API) (bucket key uploadID : String)
    (data : Reader) (signature : Option Signature) : Completion :=
  if !env.IsValidBucket bucket then
    ⟨.err (.BucketNameInvalid bucket), donut, [.Lock, .Unlock]⟩ else
  if !env.IsValidObjectName key then
    ⟨.err (.ObjectNameInvalid key), donut, [.Lock, .Unlock]⟩ else
  match donut.storedBuckets bucket with
  | none => ⟨.err (.BucketNotFound bucket), donut, [.Lock, .Unlock]⟩
  | some storedBucket =>
  -- Verify upload id
  if (sessionAt storedBucket key).uploadID ≠ uploadID then
    ⟨.err (.InvalidUploadID uploadID), donut, [.Lock, .Unlock]⟩ else
  match ReadAll data with
  | .error e => ⟨.err e, donut, [.Lock, .Unlock]⟩
  | .ok partBytes =>
  match checkSignature signature (EncodeToString (env.sha256Sum partBytes)) with
  | some e => ⟨.err e, donut, [.Lock, .Unlock]⟩
  | none =>
  match env.xmlUnmarshal partBytes with
  | none => ⟨.err .MalformedXML, donut, [.Lock, .Unlock]⟩
  | some parts =>
  if !IsSorted completedParts_Less parts then
    ⟨.err .InvalidPartOrder, donut, [.Lock, .Unlock]⟩ else
  match assembleParts env (donut.multiPartObjects uploadID) uploadID parts 0 [] with
  | (.fault, gets) => ⟨.fault, donut, .Lock :: gets⟩
  | (.err e, gets) => ⟨.err e, donut, .Lock :: gets ++ [.Unlock]⟩
  | (.ok (size, fullObject), gets) =>
    persistObject env donut bucket key uploadID gets size fullObject

/-! ## A concrete environment for evaluating the model -/

/-- A stand-in for the hash functions on concrete inputs: the length of the
input and the sum of its bytes. -/
def demoSum (b : Bytes) : Bytes :=
  [UInt8.ofNat b.length, UInt8.ofNat (b.map UInt8.toNat).sum]

/-- A stand-in manifest decoder on concrete inputs: three bytes per entry, the part
number followed by the two digest bytes whose hex form is the ETag. -/
def demoUnmarshal : Bytes → Option (List CompletePart)
  | [] => some []
  | n :: a :: b :: rest =>
    match demoUnmarshal rest with
    | some ps => some ({ PartNumber := (n.toNat : Int), ETag := EncodeToString [a, b] } :: ps)
    | none => none
  | _ => none

/-- A stand-in persistence layer on concrete inputs: it records the metadata of the
new object under `bucket/key` and touches nothing else. -/
def demoCreateObject (donut : API) (bucket key expectedMD5Sum : String) (size : Int)
    (_data : Bytes) : Res ObjectMetadata × API :=
  match donut.storedBuckets bucket with
  | none => (.err (.BucketNotFound bucket), donut)
  | some b =>
    let objectMetadata : ObjectMetadata :=
      { Bucket := bucket, Object := key, Created := 0, Md5 := expectedMD5Sum, Size := size }
    (.ok objectMetadata,
      { storedBuckets := mapSet donut.storedBuckets bucket
          { b with objectMetadata := mapSet b.objectMetadata (bucket ++ "/" ++ key) objectMetadata }
        multiPartObjects := donut.multiPartObjects })

/-- A concrete environment for evaluating the operations on explicit inputs. -/
def demoEnv : Env where
  IsValidBucket := fun s => decide (s ≠ "")
  IsValidObjectName := fun s => decide (s ≠ "")
  md5Sum := demoSum
  sha256Sum := demoSum
  sha512Sum := demoSum
  base64StdEncode := EncodeToString
  base64StdDecode := DecodeString
  base64URLEncode := fun b => "upload-0000000000000000000000000000000000000000-" ++ EncodeToString b
  FormatInt := fun _ => "0"
  TimeString := fun _ => "t"
  toBytes := fun s => s.data.map fun c => UInt8.ofNat c.toNat
  xmlUnmarshal := demoUnmarshal
  CreateObject := demoCreateObject

/-- The environment `demoEnv` with a persistence layer that always fails and leaves
the state alone. -/
def demoEnvFailing : Env :=
  { demoEnv with CreateObject := fun donut _ _ _ _ _ => (.err (.other "write failed"), donut) }

/-- The upload id `demoEnv` hands out. -/
def demoID : String := "upload-0000000000000000000000000000000000000000"

/-- A store with the single empty bucket `"bucket"`. -/
def emptyStore : API where
  storedBuckets := fun b =>
    if b = "bucket" then
      some { objectMetadata := fun _ => none, multiPartSession := fun _ => none,
             partMetadata := fun _ => none }
    else none
  multiPartObjects := fun _ => none

/-- A reader that delivers `bytes` in one `Read` and then reports `io.EOF`. -/
def readerOf (bytes : Bytes) : Reader := { reads := [bytes], last := [], err := .EOF }

/-- The store after initiating an upload for `bucket/key` in `emptyStore`. -/
def demoSession : API :=
  (NewMultipartUpload demoEnv emptyStore "bucket" "key" "" none 0 0 0).2

/-- The store after ingesting, without digest header and signature, the listed
`(partNumber, bytes)` pairs in order into the session of `demoSession`. -/
def demoIngest : List (Int × Bytes) → API
  | [] => demoSession
  | (n, bytes) :: rest =>
    (createObjectPart demoEnv (demoIngest rest) "bucket" "key" demoID n "" ""
      (bytes.length : Int) (readerOf bytes) none 0).2.1

/-! ## Observations on the state -/

/-- The session entry stored for `bucket`/`key`, if any. -/
def sessionOf (donut : API) (bucket key : String) : Option MultiPartSession :=
  (donut.storedBuckets bucket).bind fun b => b.multiPartSession key

/-- The part-record table stored for `bucket`/`key`, if any. -/
def partTable (donut : API) (bucket key : String) : Option (Int → Option PartMetadata) :=
  (donut.storedBuckets bucket).bind fun b => b.partMetadata key

/-- The record of part `n` stored for `bucket`/`key`, if any. -/
def partRecord (donut : API) (bucket key : String) (n : Int) : Option PartMetadata :=
  (partTable donut bucket key).bind fun m => m n

/-- The bytes cached for part `n` of the upload `uploadID`, if any. -/
def cachedPart (donut : API) (uploadID : String) (n : Int) : Option Bytes :=
  (donut.multiPartObjects uploadID).bind fun c => c.Get n

/-! ## The per-entry check of the completion manifest, in the words of the claims -/

/-- The error a manifest entry earns against the cache of the session:
`InvalidPart` when its part number is not cached, `InvalidDigest` when its ETag,
stripped of surrounding double quotes, is not hex, `BadDigest` when the decoded
digest differs from the MD5 of the cached bytes; `none` when the entry is verified. -/
def entryError (env : Env) (c : Cache) (p : CompletePart) : Option Error :=
  match c.Get p.PartNumber with
  | none => some .InvalidPart
  | some bytes =>
    match DecodeString (Trim p.ETag "\"") with
    | none => some (.InvalidDigest p.ETag)
    | some digest => if digest = env.md5Sum bytes then none else some .BadDigest

/-- The bytes cached under the part number of a manifest entry (empty when absent). -/
def entryBytes (c : Cache) (p : CompletePart) : Bytes := (c.Get p.PartNumber).getD []

/-- Whether an event is a call of the persistence layer. -/
def Event.isCreateObject : Event → Bool
  | .CreateObject _ _ _ _ _ => true
  | _ => false

/-- A cache holding the parts 1:"aaa", 2:"bbb", 3:"ccc". -/
def demoCache : Cache :=
  ⟨fun n =>
    if n = 1 then some [97, 97, 97] else if n = 2 then some [98, 98, 98]
    else if n = 3 then some [99, 99, 99] else none⟩

/-- A store whose bucket `"bucket"` holds one session for `"key"` with upload id
`demoID`, three recorded parts, and the cached parts 1:"aaa", 2:"bbb", 3:"ccc". -/
def demoStore : API where
  storedBuckets := fun b =>
    if b = "bucket" then
      some { objectMetadata := fun _ => none
             multiPartSession := fun k =>
               if k = "key" then some { uploadID := demoID, initiated := 0, totalParts := 3 }
               else none
             partMetadata := fun k =>
               if k = "key" then
                 some fun n =>
                   if n = 1 then some { PartNumber := 1, LastModified := 0, ETag := "0323", Size := 3 }
                   else if n = 2 then
                     some { PartNumber := 2, LastModified := 0, ETag := "0326", Size := 3 }
                   else if n = 3 then
                     some { PartNumber := 3, LastModified := 0, ETag := "0329", Size := 3 }
                   else none
               else none }
    else none
  multiPartObjects := fun u => if u = demoID then some demoCache else none

/-- A signature whose verifier reports a mismatch for every digest. -/
def rejectingSignature : Signature := ⟨fun _ => .ok false⟩

/-- A first attempt to ingest part 1 of the fresh session `demoSession`: two bytes
"xx" with declared size 2, under a signature that does not match. -/
def rejectedAttempt : Res String × API × Reader :=
  createObjectPart demoEnv demoSession "bucket" "key" demoID 1 "" "" 2
    (readerOf [120, 120]) (some rejectingSignature) 0

/-- The second attempt for part 1 after `rejectedAttempt`: the bytes "abc" with
declared size 3, no digest header and no signature. -/
def retriedAttempt : Res String × API × Reader :=
  createObjectPart demoEnv rejectedAttempt.2.1 "bucket" "key" demoID 1 "" "" 3
    (readerOf [97, 98, 99]) none 0

/-- The store after a session was initiated in `emptyStore` and only part 5, with
content "abc", was ingested. -/
def onlyPartFive : API := demoIngest [(5, [97, 98, 99])]

/-- The result of aborting the session of `onlyPartFive`. -/
def abortedOnlyPartFive : Res Unit × API :=
  AbortMultipartUpload demoEnv onlyPartFive "bucket" "key" demoID none

/-- Two states agree on the multipart bookkeeping: the same buckets are stored, with
the same session entries and part-record tables, and the part caches are the same. -/
def sameSessions (a b : API) : Prop :=
  a.multiPartObjects = b.multiPartObjects ∧
  ∀ bucket, (a.storedBuckets bucket).map (fun s => (s.multiPartSession, s.partMetadata)) =
    (b.storedBuckets bucket).map (fun s => (s.multiPartSession, s.partMetadata))

/-! ## Listing uploads and parts -/

/-- One entry of an upload listing. -/
structure UploadMetadata where
  Key : String
  UploadID : String
  Initiated : Time
  deriving DecidableEq, Repr

/-- The fields of `BucketMultipartResourcesMetadata` that `ListMultipartUploads` reads
or writes (the type is declared outside the listed sources; its other fields are
carried along untouched). -/
structure BucketMultipartResourcesMetadata where
  KeyMarker : String
  UploadIDMarker : String
  NextKeyMarker : String
  NextUploadIDMarker : String
  MaxUploads : Int
  IsTruncated : Bool
  Upload : List UploadMetadata
  Prefix : String
  deriving DecidableEq, Repr

/-- The fields of `ObjectResourcesMetadata` that `ListObjectParts` reads or writes
(the type is declared outside the listed sources). -/
structure ObjectResourcesMetadata where
  Bucket : String
  Key : String
  UploadID : String
  PartNumberMarker : Int
  NextPartNumberMarker : Int
  MaxParts : Int
  IsTruncated : Bool
  Part : List PartMetadata
  deriving DecidableEq, Repr

/-- Go `strings.HasPrefix`. -/
def HasPrefix (s pre : String) : Bool := pre.data.isPrefixOf s.data

/-- Go `a < b` on strings: the lexicographic order of their characters. -/
def strLess (a b : String) : Bool := decide (a.data < b.data)

/-- The method `byKey.Less`: `a[i].Key < a[j].Key`. -/
def byKey_Less (a b : UploadMetadata) : Bool := strLess a.Key b.Key

/-- The method `partNumber.Less`: `a[i].PartNumber < a[j].PartNumber`. -/
def partNumber_Less (a b : PartMetadata) : Bool := decide (a.PartNumber < b.PartNumber)

/-- Go `sort.Sort` with the given `Less`: the elements in ascending order.  The
slices sorted here hold pairwise different keys, for which the result of
`sort.Sort` is determined; an element is placed before the first one that is not
`Less` than it. -/
def sort_Sort {α : Type} (less : α → α → Bool) (l : List α) : List α :=
  l.insertionSort (fun a b => less b a = false)

/-- The `range` loop of `ListMultipartUploads` over the keys still to come, in the
order in which the session table is enumerated, with the `uploads` collected so
far.  A string that is no key of the table yields no iteration. -/
def listUploads (resources : BucketMultipartResourcesMetadata)
    (multiPartSession : String → Option MultiPartSession) :
    List String → List UploadMetadata → BucketMultipartResourcesMetadata
  | [], uploads => { resources with Upload := sort_Sort byKey_Less uploads }
  | key :: rest, uploads =>
    match multiPartSession key with
    | none => listUploads resources multiPartSession rest uploads
    | some session =>
      if HasPrefix key resources.Prefix then
        if (uploads.length : Int) > resources.MaxUploads then
          { resources with
            Upload := sort_Sort byKey_Less uploads
            NextKeyMarker := key
            NextUploadIDMarker := session.uploadID
            IsTruncated := true }
        else
          let upload : UploadMetadata :=
            { Key := key, UploadID := session.uploadID, Initiated := session.initiated }
          -- uploadIDMarker is ignored if KeyMarker is empty
          if resources.KeyMarker ≠ "" ∧ resources.UploadIDMarker = "" then
            if strLess resources.KeyMarker key then
              listUploads resources multiPartSession rest (uploads ++ [upload])
            else listUploads resources multiPartSession rest uploads
          else if resources.KeyMarker ≠ "" ∧ resources.UploadIDMarker ≠ "" then
            if strLess resources.UploadIDMarker session.uploadID then
              if !strLess key resources.KeyMarker then
                listUploads resources multiPartSession rest (uploads ++ [upload])
              else listUploads resources multiPartSession rest uploads
            else listUploads resources multiPartSession rest uploads
          else listUploads resources multiPartSession rest (uploads ++ [upload])
      else listUploads resources multiPartSession rest uploads

/-- `ListMultipartUploads`: list incomplete multipart sessions for a given bucket.
`order` is the order in which `range` enumerates the keys of the session table. -/
def ListMultipartUploads (env : Env) (donut : API) (bucket : String)
    (resources : BucketMultipartResourcesMetadata) (signature : Option Signature)
    (order : List String) : Res BucketMultipartResourcesMetadata :=
  match checkSignature signature emptySHA256 with
  | some e => .err e
  | none =>
  match donut.storedBuckets bucket with
  | none => .err (.BucketNotFound bucket)
  | some storedBucket => .ok (listUploads resources storedBucket.multiPartSession order [])

/-- The loop `for i := startPartNumber; i <= totalParts; i++` of `ListObjectParts`
with `remaining` iterations to go, the loop variable `i` and the `parts` collected
so far. -/
def listParts (resources : ObjectResourcesMetadata) (storedParts : Int → Option PartMetadata) :
    Nat → Int → List PartMetadata → Res ObjectResourcesMetadata
  | 0, _, parts => .ok { resources with Part := sort_Sort partNumber_Less parts }
  | remaining + 1, i, parts =>
    if (parts.length : Int) > resources.MaxParts then
      .ok { resources with
            IsTruncated := true
            Part := sort_Sort partNumber_Less parts
            NextPartNumberMarker := i }
    else
      match storedParts i with
      | none => .err .InvalidPart
      | some part => listParts resources storedParts remaining (i + 1) (parts ++ [part])

/-- `ListObjectParts`: list parts from an incomplete multipart session for a given
object. -/
def ListObjectParts (env : Env) (donut : API) (bucket key : String)
    (resources : ObjectResourcesMetadata) (signature : Option Signature) :
    Res ObjectResourcesMetadata :=
  match checkSignature signature emptySHA256 with
  | some e => .err e
  | none =>
  match donut.storedBuckets bucket with
  | none => .err (.BucketNotFound bucket)
  | some storedBucket =>
  match storedBucket.multiPartSession key with
  | none => .err (.ObjectNotFound key)
  | some session =>
  if session.uploadID ≠ resources.UploadID then .err (.InvalidUploadID resources.UploadID)
  else
  -- a nil `storedParts` map has no entry for any number
  let storedParts : Int → Option PartMetadata :=
    fun i => (storedBucket.partMetadata key).bind fun m => m i
  let objectResourcesMetadata := { resources with Bucket := bucket, Key := key }
  let startPartNumber : Int :=
    if objectResourcesMetadata.PartNumberMarker = 0 then 1
    else objectResourcesMetadata.PartNumberMarker
  listParts objectResourcesMetadata storedParts
    (session.totalParts - startPartNumber + 1).toNat startPartNumber []

/-- The preconditions of `NewMultipartUpload` in the order in which the claims list
them: the error of the first check that fails (verifier error, signature mismatch,
bucket name, object name, bucket existence, finalized object under `bucket/key`),
`none` when all pass. -/
def firstFailedCheck (env : Env) (donut : API) (bucket key : String)
    (signature : Option Signature) : Option Error :=
  let storeChecks : Option Error :=
    if env.IsValidBucket bucket = false then some (.BucketNameInvalid bucket)
    else if env.IsValidObjectName key = false then some (.ObjectNameInvalid key)
    else
      match donut.storedBuckets bucket with
      | none => some (.BucketNotFound bucket)
      | some sb =>
        if (sb.objectMetadata (bucket ++ "/" ++ key)).isSome then some (.ObjectExists key)
        else none
  match signature with
  | none => storeChecks
  | some sig =>
    match sig.DoesSignatureMatch emptySHA256 with
    | .error e => some e
    | .ok false => some .SignatureDoesNotMatch
    | .ok true => storeChecks

/-- The environment `demoEnv` with an upload-id encoder that hands out another id. -/
def demoEnvSecond : Env :=
  { demoEnv with
    base64URLEncode := fun b =>
      "second-0000000000000000000000000000000000000000-" ++ EncodeToString b }

/-- The upload id `demoEnvSecond` hands out. -/
def secondID : String := "second-0000000000000000000000000000000000000000"

/-- The keys `obj0 .. obj11` in lexicographic order. -/
def twelveKeys : List String :=
  ["obj0", "obj1", "obj10", "obj11", "obj2", "obj3", "obj4", "obj5", "obj6", "obj7", "obj8",
   "obj9"]

/-- A store whose bucket `"bucket"` holds twelve sessions, one for each of the keys
`obj0 .. obj11`, the session of key `k` having upload id `id-k`. -/
def twelveUploads : API where
  storedBuckets := fun b =>
    if b = "bucket" then
      some { objectMetadata := fun _ => none
             multiPartSession := fun k =>
               if k ∈ twelveKeys then
                 some { uploadID := "id-" ++ k, initiated := 0, totalParts := 0 }
               else none
             partMetadata := fun k => if k ∈ twelveKeys then some (fun _ => none) else none }
    else none
  multiPartObjects := fun _ => none

/-- A listing request without prefix and markers for at most five uploads. -/
def firstFive : BucketMultipartResourcesMetadata :=
  { KeyMarker := "", UploadIDMarker := "", NextKeyMarker := "", NextUploadIDMarker := "",
    MaxUploads := 5, IsTruncated := false, Upload := [], Prefix := "" }

/-- The upload entry of key `k` in `twelveUploads`. -/
def uploadOf (k : String) : UploadMetadata :=
  { Key := k, UploadID := "id-" ++ k, Initiated := 0 }

/-- The marker rule in the words of the claims: with an empty key marker there is
no restriction (the upload-id marker is ignored); with only a key marker the key
must be greater than it; with both markers the upload id must be greater than the
upload-id marker and the key not less than the key marker. -/
def markerRule (resources : BucketMultipartResourcesMetadata) (key uploadID : String) : Bool :=
  if resources.KeyMarker = "" then true
  else if resources.UploadIDMarker = "" then strLess resources.KeyMarker key
  else strLess resources.UploadIDMarker uploadID && !strLess key resources.KeyMarker

/-- The listing entry of the session stored under `key`, when the key has the
prefix and satisfies the marker rule. -/
def listedEntry (resources : BucketMultipartResourcesMetadata)
    (multiPartSession : String → Option MultiPartSession) (key : String) :
    Option UploadMetadata :=
  match multiPartSession key with
  | none => none
  | some session =>
    if HasPrefix key resources.Prefix && markerRule resources key session.uploadID then
      some { Key := key, UploadID := session.uploadID, Initiated := session.initiated }
    else none

/-- A listing request without prefix and markers for at most twenty uploads. -/
def firstTwenty : BucketMultipartResourcesMetadata :=
  { KeyMarker := "", UploadIDMarker := "", NextKeyMarker := "", NextUploadIDMarker := "",
    MaxUploads := 20, IsTruncated := false, Upload := [], Prefix := "" }

/-- The records stored under the `count` consecutive part numbers `first`,
`first + 1`, ..., in this order (a number without record contributes nothing). -/
def recordsFrom (storedParts : Int → Option PartMetadata) : Int → Nat → List PartMetadata
  | _, 0 => []
  | first, count + 1 =>
    (match storedParts first with
      | some part => [part]
      | none => []) ++ recordsFrom storedParts (first + 1) count

/-- The part number a listing starts from: 1 for the marker 0, else the marker. -/
def startPartNumber (marker : Int) : Int := if marker = 0 then 1 else marker

/-- Following the continuation markers of `ListObjectParts` from `marker` on: the
parts of all pages in the order of their arrival, up to the first page that is not
marked truncated.  `none` when `pages` calls did not reach such a page. -/
def listAllParts (env : Env) (donut : API) (bucket key : String)
    (resources : ObjectResourcesMetadata) (signature : Option Signature) :
    Nat → Int → Option (Res (List PartMetadata))
  | 0, _ => none
  | pages + 1, marker =>
    match ListObjectParts env donut bucket key { resources with PartNumberMarker := marker }
        signature with
    | .ok page =>
      if page.IsTruncated then
        match listAllParts env donut bucket key resources signature pages
            page.NextPartNumberMarker with
        | some (.ok rest) => some (.ok (page.Part ++ rest))
        | other => other
      else some (.ok page.Part)
    | .err e => some (.err e)
    | .fault => some .fault

/-- A request for the parts of the session in `demoStore`. -/
def partsRequest (marker maxParts : Int) : ObjectResourcesMetadata :=
  { Bucket := "", Key := "", UploadID := demoID, PartNumberMarker := marker,
    NextPartNumberMarker := 0, MaxParts := maxParts, IsTruncated := false, Part := [] }

/-- The session of `bucket`/`key` has the upload id `uploadID` and `totalParts = n`,
its recorded part numbers are exactly `1..n`, and the record stored under a number
carries that number. -/
def contiguousParts (donut : API) (bucket key uploadID : String) (n : Int) : Prop :=
  (∃ sess, sessionOf donut bucket key = some sess ∧ sess.uploadID = uploadID ∧
    sess.totalParts = n) ∧
  ∀ i, ((partRecord donut bucket key i).isSome = true ↔ 1 ≤ i ∧ i ≤ n) ∧
    ∀ p, partRecord donut bucket key i = some p → p.PartNumber = i

/-- A store whose session for `bucket/key` counts two parts, recorded under the
numbers 1 and 3: number 2 was skipped. -/
def gapStore : API where
  storedBuckets := fun b =>
    if b = "bucket" then
      some { objectMetadata := fun _ => none
             multiPartSession := fun k =>
               if k = "key" then some { uploadID := demoID, initiated := 0, totalParts := 2 }
               else none
             partMetadata := fun k =>
               if k = "key" then
                 some fun n =>
                   if n = 1 then some { PartNumber := 1, LastModified := 0, ETag := "0323", Size := 3 }
                   else if n = 3 then
                     some { PartNumber := 3, LastModified := 0, ETag := "0329", Size := 3 }
                   else none
               else none }
    else none
  multiPartObjects := fun u => if u = demoID then some demoCache else none

/-- Two states hold the same session tables and part-record tables: the same buckets
are stored, each with the same session entries (upload id, initiation time,
`totalParts`) and the same part records. -/
def sameTables (a b : API) : Prop :=
  ∀ bucket, (a.storedBuckets bucket).map (fun s => (s.multiPartSession, s.partMetadata)) =
    (b.storedBuckets bucket).map (fun s => (s.multiPartSession, s.partMetadata))

/-! ## The lock as a flag -/

/-- One operation on `donut.lock`, the lock modelled as a held/not-held flag: `Lock`
needs the lock free and takes it, `Unlock` needs it held and frees it (`none`: the
goroutine would block on its own `Lock`, or `Unlock` of an unlocked mutex), any other
event leaves the flag as it is. -/
def lockStep (held : Bool) : Event → Option Bool
  | .Lock => if held then none else some true
  | .Unlock => if held then some false else none
  | _ => some held

/-- The flag after the events of a trace, started with the flag `held`. -/
def lockAfter : Bool → List Event → Option Bool
  | held, [] => some held
  | held, e :: rest => (lockStep held e).bind fun h => lockAfter h rest

/-! ## Reachable states and their invariants -/

/-- A state in which no multipart upload was initiated yet: no bucket has a session
entry or a part-record table, and there is no part cache. -/
def noSessions (donut : API) : Prop :=
  (∀ bucket sb, donut.storedBuckets bucket = some sb →
    ∀ key, sb.multiPartSession key = none ∧ sb.partMetadata key = none) ∧
  ∀ uploadID, donut.multiPartObjects uploadID = none

/-- The states reached from a state without sessions by calls of `NewMultipartUpload`,
`CreateObjectPart`, `AbortMultipartUpload` and `CompleteMultipartUpload` with any
arguments; the state a call leaves behind counts whatever its result. -/
inductive Reachable (env : Env) : API → Prop
  | start (donut : API) : noSessions donut → Reachable env donut
  | newUpload (donut : API) (bucket key contentType : String)
      (signature : Option Signature) (rand63 : Int) (idTime initiated : Time) :
      Reachable env donut →
      Reachable env
        (NewMultipartUpload env donut bucket key contentType signature rand63 idTime
          initiated).2
  | part (donut : API) (bucket key uploadID : String) (partID : Int)
      (contentType expectedMD5Sum : String) (size : Int) (data : Reader)
      (signature : Option Signature) (now : Time) :
      Reachable env donut →
      Reachable env
        (CreateObjectPart env donut bucket key uploadID partID contentType expectedMD5Sum
          size data signature now).2.1
  | abort (donut : API) (bucket key uploadID : String) (signature : Option Signature) :
      Reachable env donut →
      Reachable env (AbortMultipartUpload env donut bucket key uploadID signature).2
  | complete (donut : API) (bucket key uploadID : String) (data : Reader)
      (signature : Option Signature) :
      Reachable env donut →
      Reachable env (CompleteMultipartUpload env donut bucket key uploadID data signature).donut

/-- The part-record table `parts` holds exactly `totalParts` records, each part number
counted once. -/
def recordsCounted (parts : Int → Option PartMetadata) (totalParts : Int) : Prop :=
  ∃ S : Finset Int, (∀ n, n ∈ S ↔ (parts n).isSome = true) ∧ (S.card : Int) = totalParts

/-- In one bucket: a key has a part-record table if and only if it has a session entry,
and the `totalParts` of every session is the number of part records of its key. -/
def bucketAgrees (multiPartSession : String → Option MultiPartSession)
    (partMetadata : String → Option (Int → Option PartMetadata)) : Prop :=
  ∀ key, ((partMetadata key).isSome = true ↔ (multiPartSession key).isSome = true) ∧
    ∀ sess parts, multiPartSession key = some sess → partMetadata key = some parts →
      recordsCounted parts sess.totalParts

/-- The session table and the part-record tables agree in every bucket. -/
def tablesAgree (donut : API) : Prop :=
  ∀ bucket sb, donut.storedBuckets bucket = some sb →
    bucketAgrees sb.multiPartSession sb.partMetadata

/-- For every active session and every part number with a part record, the cache of
the session holds bytes for that part number whose hex MD5 is the ETag of the record
and whose length is its Size. -/
def cacheAgrees (env : Env) (donut : API) : Prop :=
  ∀ bucket key sess n record, sessionOf donut bucket key = some sess →
    partRecord donut bucket key n = some record →
    ∃ bytes, cachedPart donut sess.uploadID n = some bytes ∧
      EncodeToString (env.md5Sum bytes) = record.ETag ∧ (bytes.length : Int) = record.Size

/-- The retry of part 1 after a failed first attempt `first` on `demoSession`: the
bytes "abc" with declared size 3, no digest header and no signature. -/
def retryAfter (first : Res String × API × Reader) : Res String × API × Reader :=
  CreateObjectPart demoEnv first.2.1 "bucket" "key" demoID 1 "" "" 3
    (readerOf [97, 98, 99]) none 0

/-- A first attempt for part 1 of `demoSession` whose bytes "xx" do not have the
digest announced in the header. -/
def badDigestAttempt : Res String × API × Reader :=
  CreateObjectPart demoEnv demoSession "bucket" "key" demoID 1 "" "0000" 2
    (readerOf [120, 120]) none 0

/-- A first attempt for part 1 of `demoSession` under a signature that does not match. -/
def badSignatureAttempt : Res String × API × Reader :=
  CreateObjectPart demoEnv demoSession "bucket" "key" demoID 1 "" "" 2
    (readerOf [120, 120]) (some rejectingSignature) 0

/-- A first attempt for part 1 of `demoSession` whose stream delivers the declared two
bytes and then fails with an error other than `io.EOF`. -/
def readErrorAttempt : Res String × API × Reader :=
  CreateObjectPart demoEnv demoSession "bucket" "key" demoID 1 "" "" 2
    { reads := [[120, 120]], last := [], err := .other "connection reset" } none 0

/-! # Theorems -/

/-! ## Hex encoding -/

theorem fromHexChar_hexDigit (n : Nat) (h : n < 16) : fromHexChar (hexDigit n) = some n := by
  interval_cases n <;> decide

theorem hexDigit_not_quote (n : Nat) (h : n < 16) : hexDigit n ≠ '"' := by
  interval_cases n <;> decide

theorem hexDigit_not_space (n : Nat) (h : n < 16) : isSpace (hexDigit n) = false := by
  interval_cases n <;> decide

theorem byte_of_nibbles (b : UInt8) : UInt8.ofNat (b.toNat / 16 * 16 + b.toNat % 16) = b := by
  rw [Nat.div_add_mod']
  cases b with
  | mk v =>
    apply UInt8.ext
    simp [UInt8.ofNat, UInt8.toNat, Fin.ofNat]

theorem byte_hi_lt (b : UInt8) : b.toNat / 16 < 16 := by
  have h : b.toNat < 256 := b.val.isLt
  omega

theorem decodeChars_encode (src : Bytes) :
    decodeChars (src.flatMap fun b => [hexDigit (b.toNat / 16), hexDigit (b.toNat % 16)])
      = some src := by
  induction src with
  | nil => rfl
  | cons b rest ih =>
    have hstep : ((b :: rest).flatMap
        (fun b : UInt8 => [hexDigit (b.toNat / 16), hexDigit (b.toNat % 16)])) =
        hexDigit (b.toNat / 16) :: hexDigit (b.toNat % 16) ::
          rest.flatMap (fun b => [hexDigit (b.toNat / 16), hexDigit (b.toNat % 16)]) := by
      simp [List.flatMap_cons]
    rw [hstep]
    simp only [decodeChars]
    rw [fromHexChar_hexDigit _ (byte_hi_lt b), fromHexChar_hexDigit _ (Nat.mod_lt _ (by decide))]
    simp only [ih, byte_of_nibbles]

/-- Decoding what `hex.EncodeToString` produced gives the bytes back. -/
theorem DecodeString_EncodeToString (src : Bytes) :
    DecodeString (EncodeToString src) = some src := by
  simp only [DecodeString, EncodeToString]
  exact decodeChars_encode src

theorem hex_chars (src : Bytes) (c : Char) (hc : c ∈ (EncodeToString src).data) :
    c ≠ '"' ∧ isSpace c = false := by
  simp only [EncodeToString, List.mem_flatMap, List.mem_cons, List.mem_singleton,
    List.not_mem_nil, or_false] at hc
  obtain ⟨b, -, h | h⟩ := hc
  · subst h
    exact ⟨hexDigit_not_quote _ (byte_hi_lt b), hexDigit_not_space _ (byte_hi_lt b)⟩
  · subst h
    exact ⟨hexDigit_not_quote _ (Nat.mod_lt _ (by decide)),
      hexDigit_not_space _ (Nat.mod_lt _ (by decide))⟩

theorem dropWhile_of_all_false {α : Type} (p : α → Bool) (l : List α)
    (h : ∀ c ∈ l, p c = false) : l.dropWhile p = l := by
  cases l with
  | nil => rfl
  | cons a t => simp [List.dropWhile, h a (List.mem_cons_self a t)]

theorem trimBoth_of_all_false {α : Type} (p : α → Bool) (l : List α)
    (h : ∀ c ∈ l, p c = false) : ((l.dropWhile p).reverse.dropWhile p).reverse = l := by
  rw [dropWhile_of_all_false p l h, dropWhile_of_all_false p l.reverse, List.reverse_reverse]
  intro c hc
  exact h c (List.mem_reverse.mp hc)

/-- Stripping double quotes leaves a hex digest as it is. -/
theorem Trim_EncodeToString (src : Bytes) :
    Trim (EncodeToString src) "\"" = EncodeToString src := by
  unfold Trim
  rw [trimBoth_of_all_false]
  intro c hc
  have := (hex_chars src c hc).1
  simp [this]

/-- Trimming white space leaves a hex digest as it is. -/
theorem TrimSpace_EncodeToString (src : Bytes) :
    TrimSpace (EncodeToString src) = EncodeToString src := by
  unfold TrimSpace
  rw [trimBoth_of_all_false]
  intro c hc
  exact (hex_chars src c hc).2

/-! ## The assembly loop -/

theorem sessionOf_some {donut : API} {bucket key : String} {sess : MultiPartSession}
    (h : sessionOf donut bucket key = some sess) :
    ∃ sb, donut.storedBuckets bucket = some sb ∧ sb.multiPartSession key = some sess ∧
      sessionAt sb key = sess := by
  unfold sessionOf at h
  cases hb : donut.storedBuckets bucket with
  | none => simp [hb] at h
  | some sb =>
    simp only [hb, Option.some_bind] at h
    exact ⟨sb, rfl, h, by simp [sessionAt, h]⟩

theorem assembleParts_events (env : Env) (cache : Option Cache) (uploadID : String) :
    ∀ (parts : List CompletePart) (size : Int) (fullObject : Bytes),
      ∀ e ∈ (assembleParts env cache uploadID parts size fullObject).2,
        ∃ n, e = Event.Get uploadID n := by
  intro parts
  induction parts with
  | nil => intro size fullObject e he; simp [assembleParts] at he
  | cons p rest ih =>
    intro size fullObject e he
    unfold assembleParts at he
    split at he
    · simp at he; exact ⟨_, he⟩
    · split at he
      · simp at he; exact ⟨_, he⟩
      · split at he
        · simp at he; exact ⟨_, he⟩
        · split at he
          · simp at he; exact ⟨_, he⟩
          · simp only [List.mem_cons] at he
            rcases he with he | he
            · exact ⟨_, he⟩
            · exact ih _ _ e he

theorem assembleParts_verified (env : Env) (c : Cache) (uploadID : String) :
    ∀ (parts : List CompletePart) (size : Int) (fullObject : Bytes),
      (∀ p ∈ parts, entryError env c p = none) →
      assembleParts env (some c) uploadID parts size fullObject =
        (.ok (size + (parts.map fun p => ((entryBytes c p).length : Int)).sum,
              fullObject ++ (parts.map (entryBytes c)).flatten),
          parts.map fun p => Event.Get uploadID p.PartNumber) := by
  intro parts
  induction parts with
  | nil => intro size fullObject _; simp [assembleParts]
  | cons p rest ih =>
    intro size fullObject h
    have hp := h p (List.mem_cons_self p rest)
    have hrest : ∀ q ∈ rest, entryError env c q = none :=
      fun q hq => h q (List.mem_cons_of_mem p hq)
    unfold entryError at hp
    unfold assembleParts
    cases hget : c.Get p.PartNumber with
    | none => simp [hget] at hp
    | some object =>
      simp only [hget] at hp ⊢
      cases hdec : DecodeString (Trim p.ETag "\"") with
      | none => simp [hdec] at hp
      | some digest =>
        simp only [hdec] at hp ⊢
        by_cases hd : digest = env.md5Sum object
        · simp only [hd, ne_eq, not_true_eq_false, if_false]
          rw [ih _ _ hrest]
          simp [entryBytes, hget, add_assoc]
        · simp [hd] at hp

theorem assembleParts_rejected (env : Env) (c : Cache) (uploadID : String) :
    ∀ (before : List CompletePart) (p : CompletePart) (after : List CompletePart)
      (e : Error) (size : Int) (fullObject : Bytes),
      (∀ q ∈ before, entryError env c q = none) → entryError env c p = some e →
      assembleParts env (some c) uploadID (before ++ p :: after) size fullObject =
        (.err e, (before ++ [p]).map fun q => Event.Get uploadID q.PartNumber) := by
  intro before
  induction before with
  | nil =>
    intro p after e size fullObject _ hp
    unfold entryError at hp
    simp only [List.nil_append]
    unfold assembleParts
    cases hget : c.Get p.PartNumber with
    | none =>
      simp only [hget, Option.some.injEq] at hp ⊢
      subst hp
      simp
    | some object =>
      simp only [hget] at hp ⊢
      cases hdec : DecodeString (Trim p.ETag "\"") with
      | none =>
        simp only [hdec, Option.some.injEq] at hp ⊢
        subst hp
        simp
      | some digest =>
        simp only [hdec] at hp ⊢
        by_cases hd : digest = env.md5Sum object
        · simp [hd] at hp
        · simp only [hd, if_false, Option.some.injEq] at hp
          subst hp
          simp [hd]
  | cons q rest ih =>
    intro p after e size fullObject h hp
    have hq := h q (List.mem_cons_self q rest)
    have hrest : ∀ r ∈ rest, entryError env c r = none :=
      fun r hr => h r (List.mem_cons_of_mem q hr)
    unfold entryError at hq
    simp only [List.cons_append]
    unfold assembleParts
    cases hget : c.Get q.PartNumber with
    | none => simp [hget] at hq
    | some object =>
      simp only [hget] at hq ⊢
      cases hdec : DecodeString (Trim q.ETag "\"") with
      | none => simp [hdec] at hq
      | some digest =>
        simp only [hdec] at hq ⊢
        by_cases hd : digest = env.md5Sum object
        · simp only [hd, ne_eq, not_true_eq_false, if_false]
          rw [ih p after e _ _ hrest hp]
          simp
        · simp [hd] at hq

/-! ## Completion: the checks before the assembly loop -/

theorem IsSorted_of_increasing :
    ∀ (parts : List CompletePart), (parts.map fun p => p.PartNumber).Pairwise (· < ·) →
      IsSorted completedParts_Less parts = true := by
  intro parts
  induction parts with
  | nil => intro _; rfl
  | cons a rest ih =>
    intro h
    cases rest with
    | nil => rfl
    | cons b rest2 =>
      simp only [List.map_cons, List.pairwise_cons] at h
      have hab : a.PartNumber < b.PartNumber := h.1 b.PartNumber (List.mem_cons_self _ _)
      have hrest := ih (by simpa [List.map_cons, List.pairwise_cons] using h.2)
      simp only [IsSorted, completedParts_Less, hrest, Bool.and_true, Bool.not_eq_true',
        decide_eq_false_iff_not, not_le]
      exact hab

/-- Once the request has passed the checks that precede the manifest,
`CompleteMultipartUpload` is decided by the ordering check and the assembly loop. -/
theorem complete_past_checks (env : Env) (donut : API) (bucket key uploadID : String)
    (data : Reader) (signature : Option Signature) (sb : storedBucket)
    (parts : List CompletePart)
    (hvb : env.IsValidBucket bucket = true) (hvk : env.IsValidObjectName key = true)
    (hb : donut.storedBuckets bucket = some sb)
    (hid : (sessionAt sb key).uploadID = uploadID)
    (heof : data.err = .EOF)
    (hsig : checkSignature signature (EncodeToString (env.sha256Sum data.content)) = none)
    (hxml : env.xmlUnmarshal data.content = some parts) :
    (IsSorted completedParts_Less parts = false →
      CompleteMultipartUpload env donut bucket key uploadID data signature =
        ⟨.err .InvalidPartOrder, donut, [.Lock, .Unlock]⟩) ∧
    (IsSorted completedParts_Less parts = true →
      (∀ gets, assembleParts env (donut.multiPartObjects uploadID) uploadID parts 0 [] =
          (.fault, gets) →
        CompleteMultipartUpload env donut bucket key uploadID data signature =
          ⟨.fault, donut, .Lock :: gets⟩) ∧
      (∀ e gets, assembleParts env (donut.multiPartObjects uploadID) uploadID parts 0 [] =
          (.err e, gets) →
        CompleteMultipartUpload env donut bucket key uploadID data signature =
          ⟨.err e, donut, .Lock :: gets ++ [.Unlock]⟩) ∧
      (∀ size fullObject gets,
        assembleParts env (donut.multiPartObjects uploadID) uploadID parts 0 [] =
          (.ok (size, fullObject), gets) →
        CompleteMultipartUpload env donut bucket key uploadID data signature =
          persistObject env donut bucket key uploadID gets size fullObject)) := by
  refine ⟨?_, ?_⟩
  · intro hs
    unfold CompleteMultipartUpload
    simp [hvb, hvk, hb, hid, ReadAll, heof, hsig, hxml, hs]
  · intro hs
    refine ⟨?_, ?_, ?_⟩
    · intro gets ha
      unfold CompleteMultipartUpload
      simp [hvb, hvk, hb, hid, ReadAll, heof, hsig, hxml, hs, ha]
    · intro e gets ha
      unfold CompleteMultipartUpload
      simp [hvb, hvk, hb, hid, ReadAll, heof, hsig, hxml, hs, ha]
    · intro size fullObject gets ha
      unfold CompleteMultipartUpload
      simp [hvb, hvk, hb, hid, ReadAll, heof, hsig, hxml, hs, ha]

theorem persistObject_events (env : Env) (donut : API) (bucket key uploadID : String)
    (gets : List Event) (size : Int) (fullObject : Bytes) :
    ∃ tail, (persistObject env donut bucket key uploadID gets size fullObject).events =
      Event.Lock :: gets ++ Event.Unlock ::
        Event.CreateObject bucket key (env.base64StdEncode (env.md5Sum fullObject)) size
          fullObject :: tail ∧
      ∀ e ∈ tail, e = Event.Lock ∨ e = Event.Unlock := by
  unfold persistObject
  simp only
  split
  · exact ⟨[], by simp, by simp⟩
  · exact ⟨[], by simp, by simp⟩
  · split
    · exact ⟨[.Lock], by simp, by simp⟩
    · exact ⟨[.Lock, .Unlock], by simp, by simp⟩

/-! ## Completion: the claims -/

theorem entryError_of_etag (env : Env) (c : Cache) (p : CompletePart)
    (h : (c.Get p.PartNumber).map (fun b => EncodeToString (env.md5Sum b)) = some p.ETag) :
    entryError env c p = none := by
  unfold entryError
  cases hget : c.Get p.PartNumber with
  | none => simp [hget] at h
  | some bytes =>
    simp only [hget, Option.map_some', Option.some.injEq] at h
    simp [← h, Trim_EncodeToString, DecodeString_EncodeToString]

/-- C1: for a session whose cache holds the parts of a manifest that lists them in
strictly increasing order, each with the hex MD5 of its cached bytes as ETag,
`CompleteMultipartUpload` (on a request that passes the checks before the manifest)
fetches the parts in manifest order and calls `CreateObject` exactly once, with the
concatenation of the cached bytes in manifest order as payload, the sum of the part
lengths as size and base64(md5(payload)) as digest. -/
theorem complete_hands_over_concatenation (env : Env) (donut : API)
    (bucket key uploadID : String) (data : Reader) (signature : Option Signature)
    (sess : MultiPartSession) (c : Cache) (parts : List CompletePart)
    (hvb : env.IsValidBucket bucket = true) (hvk : env.IsValidObjectName key = true)
    (hsess : sessionOf donut bucket key = some sess) (hid : sess.uploadID = uploadID)
    (hc : donut.multiPartObjects uploadID = some c)
    (heof : data.err = .EOF)
    (hsig : checkSignature signature (EncodeToString (env.sha256Sum data.content)) = none)
    (hxml : env.xmlUnmarshal data.content = some parts)
    (hinc : (parts.map fun p => p.PartNumber).Pairwise (· < ·))
    (hetag : ∀ p ∈ parts,
      (c.Get p.PartNumber).map (fun b => EncodeToString (env.md5Sum b)) = some p.ETag) :
    ∃ tail, (CompleteMultipartUpload env donut bucket key uploadID data signature).events =
      Event.Lock :: (parts.map fun p => Event.Get uploadID p.PartNumber) ++
        Event.Unlock ::
        Event.CreateObject bucket key
          (env.base64StdEncode (env.md5Sum (parts.map (entryBytes c)).flatten))
          ((parts.map fun p => ((entryBytes c p).length : Int)).sum)
          (parts.map (entryBytes c)).flatten :: tail ∧
      ∀ e ∈ tail, e = Event.Lock ∨ e = Event.Unlock := by
  obtain ⟨sb, hb, -, hat⟩ := sessionOf_some hsess
  have hok : ∀ p ∈ parts, entryError env c p = none :=
    fun p hp => entryError_of_etag env c p (hetag p hp)
  have hpast := (complete_past_checks env donut bucket key uploadID data signature sb parts
    hvb hvk hb (by rw [hat]; exact hid) heof hsig hxml).2 (IsSorted_of_increasing parts hinc)
  have hasm := assembleParts_verified env c uploadID parts 0 [] hok
  rw [← hc] at hasm
  rw [hpast.2.2 _ _ _ hasm]
  obtain ⟨tail, h1, h2⟩ := persistObject_events env donut bucket key uploadID
    (parts.map fun p => Event.Get uploadID p.PartNumber)
    (0 + (parts.map fun p => ((entryBytes c p).length : Int)).sum)
    ([] ++ (parts.map (entryBytes c)).flatten)
  refine ⟨tail, ?_, h2⟩
  simpa using h1

/-- Witness of C1: parts 1:"aaa", 2:"bbb", 3:"ccc" are handed over as "aaabbbccc"
with size 9. -/
theorem complete_hands_over_concatenation_witness :
    ∃ tail, (CompleteMultipartUpload demoEnv demoStore "bucket" "key" demoID
        (readerOf [1, 3, 35, 2, 3, 38, 3, 3, 41]) none).events =
      Event.Lock :: [Event.Get demoID 1, Event.Get demoID 2, Event.Get demoID 3] ++
        Event.Unlock ::
        Event.CreateObject "bucket" "key" "0972" 9
          [97, 97, 97, 98, 98, 98, 99, 99, 99] :: tail ∧
      ∀ e ∈ tail, e = Event.Lock ∨ e = Event.Unlock :=
  complete_hands_over_concatenation demoEnv demoStore "bucket" "key" demoID
    (readerOf [1, 3, 35, 2, 3, 38, 3, 3, 41]) none
    { uploadID := demoID, initiated := 0, totalParts := 3 } demoCache
    [⟨1, "0323"⟩, ⟨2, "0326"⟩, ⟨3, "0329"⟩]
    (by decide) (by decide) (by decide) rfl rfl rfl rfl (by decide) (by decide) (by decide)


theorem IsSorted_iff_chain :
    ∀ (parts : List CompletePart), IsSorted completedParts_Less parts = true ↔
      (parts.map fun p => p.PartNumber).Chain' (· < ·) := by
  intro parts
  induction parts with
  | nil => simp [IsSorted]
  | cons a rest ih =>
    cases rest with
    | nil => simp [IsSorted]
    | cons b rest2 =>
      simp only [IsSorted, completedParts_Less, Bool.and_eq_true, Bool.not_eq_true',
        decide_eq_false_iff_not, not_le, List.map_cons, List.chain'_cons]
      rw [ih]
      simp [List.map_cons]

theorem IsSorted_cons_false {α : Type} (less : α → α → Bool) (x : α) (l : List α)
    (h : IsSorted less l = false) : IsSorted less (x :: l) = false := by
  cases l with
  | nil => simp [IsSorted] at h
  | cons y rest =>
    show (!(less y x) && IsSorted less (y :: rest)) = false
    rw [h, Bool.and_false]

theorem IsSorted_false_of_descent :
    ∀ (before : List CompletePart) (a b : CompletePart) (after : List CompletePart),
      b.PartNumber < a.PartNumber →
      IsSorted completedParts_Less (before ++ a :: b :: after) = false := by
  intro before
  induction before with
  | nil =>
    intro a b after h
    simp [IsSorted, completedParts_Less, le_of_lt h]
  | cons x rest ih =>
    intro a b after h
    exact IsSorted_cons_false _ x _ (ih a b after h)

theorem assembleParts_stopped_nonempty (env : Env) (cache : Option Cache) (uploadID : String)
    (parts : List CompletePart) (size : Int) (fullObject : Bytes)
    (h : ∀ v, (assembleParts env cache uploadID parts size fullObject).1 ≠ .ok v) :
    (assembleParts env cache uploadID parts size fullObject).2 ≠ [] := by
  cases parts with
  | nil => exact absurd rfl (h (size, fullObject))
  | cons p rest =>
    unfold assembleParts
    split
    · simp
    · split
      · simp
      · split
        · simp
        · split <;> simp

theorem not_createObject_of_get (uploadID : String) {gets : List Event}
    (h : ∀ e ∈ gets, ∃ n, e = Event.Get uploadID n) (tail : List Event)
    (htail : ∀ e ∈ tail, e.isCreateObject = false) :
    ∀ e ∈ Event.Lock :: gets ++ tail, e.isCreateObject = false := by
  intro e he
  simp only [List.cons_append, List.mem_cons, List.mem_append] at he
  rcases he with he | he | he
  · subst he; rfl
  · obtain ⟨n, hn⟩ := h e he
    subst hn; rfl
  · exact htail e he

/-- C4: on a request that passes the checks before the manifest (existing session with
matching upload id, body read, signature absent or verified, well-formed manifest),
`CompleteMultipartUpload` stops at the ordering check with `InvalidPartOrder`, before
any fetch or persistence call, exactly when the part-number sequence of the manifest
is not strictly increasing; in particular it does so, leaving the state as it was,
whenever some part number occurs twice in the manifest. -/
theorem complete_rejects_duplicate_part_numbers (env : Env) (donut : API)
    (bucket key uploadID : String) (data : Reader) (signature : Option Signature)
    (sess : MultiPartSession) (parts : List CompletePart)
    (hvb : env.IsValidBucket bucket = true) (hvk : env.IsValidObjectName key = true)
    (hsess : sessionOf donut bucket key = some sess) (hid : sess.uploadID = uploadID)
    (heof : data.err = .EOF)
    (hsig : checkSignature signature (EncodeToString (env.sha256Sum data.content)) = none)
    (hxml : env.xmlUnmarshal data.content = some parts) :
    (((CompleteMultipartUpload env donut bucket key uploadID data signature).result =
        .err .InvalidPartOrder ∧
      (CompleteMultipartUpload env donut bucket key uploadID data signature).events =
        [.Lock, .Unlock]) ↔
      ¬ (parts.map fun p => p.PartNumber).Chain' (· < ·)) ∧
    (¬ (parts.map fun p => p.PartNumber).Nodup →
      (CompleteMultipartUpload env donut bucket key uploadID data signature).result =
        .err .InvalidPartOrder ∧
      (CompleteMultipartUpload env donut bucket key uploadID data signature).events =
        [.Lock, .Unlock] ∧
      (CompleteMultipartUpload env donut bucket key uploadID data signature).donut =
        donut) := by
  obtain ⟨sb, hb, -, hat⟩ := sessionOf_some hsess
  have hpast := complete_past_checks env donut bucket key uploadID data signature sb parts
    hvb hvk hb (by rw [hat]; exact hid) heof hsig hxml
  refine ⟨?_, ?_⟩
  swap
  · intro hdup
    have hs : IsSorted completedParts_Less parts = false := by
      cases hq : IsSorted completedParts_Less parts with
      | false => rfl
      | true =>
        exfalso
        apply hdup
        have hchain := (IsSorted_iff_chain parts).mp hq
        exact (List.chain'_iff_pairwise.mp hchain).imp (fun h => ne_of_lt h)
    rw [hpast.1 hs]
    exact ⟨rfl, rfl, rfl⟩
  rw [← IsSorted_iff_chain]
  constructor
  · rintro ⟨-, hev⟩ hs
    have hp := hpast.2 hs
    have hget := assembleParts_events env (donut.multiPartObjects uploadID) uploadID parts 0 []
    rcases hres : assembleParts env (donut.multiPartObjects uploadID) uploadID parts 0 []
      with ⟨r, gets⟩
    rw [hres] at hget
    cases r with
    | fault =>
      rw [hp.1 gets hres] at hev
      simp only [List.cons.injEq, true_and] at hev
      obtain ⟨n, hn⟩ := hget Event.Unlock (by simp [hev])
      cases hn
    | err e =>
      rw [hp.2.1 e gets hres] at hev
      have hne := assembleParts_stopped_nonempty env (donut.multiPartObjects uploadID)
        uploadID parts 0 [] (by intro v; rw [hres]; simp)
      rw [hres] at hne
      cases gets with
      | nil => exact hne rfl
      | cons g rest =>
        simp only [List.cons_append, List.cons.injEq, true_and] at hev
        have := congrArg List.length hev.2
        simp at this
    | ok v =>
      obtain ⟨size, fullObject⟩ := v
      rw [hp.2.2 size fullObject gets hres] at hev
      obtain ⟨tail, h1, -⟩ := persistObject_events env donut bucket key uploadID gets size
        fullObject
      rw [h1] at hev
      have : Event.CreateObject bucket key (env.base64StdEncode (env.md5Sum fullObject)) size
          fullObject ∈ [Event.Lock, Event.Unlock] := by
        rw [← hev]; simp
      simp at this
  · intro hs
    have := hpast.1 (by simpa using hs)
    rw [this]
    exact ⟨rfl, rfl⟩

/-- Witness of C4: the manifest that lists part 1 twice (part numbers [1,1]) is stopped
at the ordering check although part 1 is cached with the digest the manifest gives. -/
theorem complete_rejects_duplicate_part_numbers_witness :
    ¬ (([⟨1, "0323"⟩, ⟨1, "0323"⟩] : List CompletePart).map fun p => p.PartNumber).Nodup ∧
    (CompleteMultipartUpload demoEnv demoStore "bucket" "key" demoID
      (readerOf [1, 3, 35, 1, 3, 35]) none).result = .err .InvalidPartOrder ∧
    (CompleteMultipartUpload demoEnv demoStore "bucket" "key" demoID
      (readerOf [1, 3, 35, 1, 3, 35]) none).events = [.Lock, .Unlock] ∧
    (CompleteMultipartUpload demoEnv demoStore "bucket" "key" demoID
      (readerOf [1, 3, 35, 1, 3, 35]) none).donut = demoStore :=
  ⟨by decide,
    (complete_rejects_duplicate_part_numbers demoEnv demoStore "bucket" "key" demoID
      (readerOf [1, 3, 35, 1, 3, 35]) none
      { uploadID := demoID, initiated := 0, totalParts := 3 }
      [⟨1, "0323"⟩, ⟨1, "0323"⟩]
      (by decide) (by decide) (by decide) rfl rfl rfl (by decide)).2 (by decide)⟩


/-- C5: on a request that passes the checks before the manifest, a manifest with two
adjacent entries whose part numbers decrease makes `CompleteMultipartUpload` fail
with `InvalidPartOrder` whatever the part caches hold and whatever the ETags are:
no part is fetched, the persistence layer is not called (the trace is just lock and
unlock) and the state is returned unchanged. -/
theorem complete_descending_manifest_rejected (env : Env) (donut : API)
    (caches : String → Option Cache)
    (bucket key uploadID : String) (data : Reader) (signature : Option Signature)
    (sess : MultiPartSession) (before after : List CompletePart) (a b : CompletePart)
    (hvb : env.IsValidBucket bucket = true) (hvk : env.IsValidObjectName key = true)
    (hsess : sessionOf donut bucket key = some sess) (hid : sess.uploadID = uploadID)
    (heof : data.err = .EOF)
    (hsig : checkSignature signature (EncodeToString (env.sha256Sum data.content)) = none)
    (hxml : env.xmlUnmarshal data.content = some (before ++ a :: b :: after))
    (hdesc : b.PartNumber < a.PartNumber) :
    CompleteMultipartUpload env
        { storedBuckets := donut.storedBuckets, multiPartObjects := caches }
        bucket key uploadID data signature =
      { result := .err .InvalidPartOrder
        donut := { storedBuckets := donut.storedBuckets, multiPartObjects := caches }
        events := [.Lock, .Unlock] } := by
  obtain ⟨sb, hb, -, hat⟩ := sessionOf_some hsess
  exact (complete_past_checks env
    { storedBuckets := donut.storedBuckets, multiPartObjects := caches }
    bucket key uploadID data signature sb (before ++ a :: b :: after)
    hvb hvk hb (by rw [hat]; exact hid) heof hsig hxml).1
    (IsSorted_false_of_descent before a b after hdesc)

/-- Witness of C5: the manifest [2,1], with ETags that match nothing, against a
session whose caches are all gone. -/
theorem complete_descending_manifest_rejected_witness :
    CompleteMultipartUpload demoEnv
        { storedBuckets := demoStore.storedBuckets, multiPartObjects := fun _ => none }
        "bucket" "key" demoID (readerOf [2, 0, 0, 1, 0, 0]) none =
      { result := .err .InvalidPartOrder
        donut := { storedBuckets := demoStore.storedBuckets, multiPartObjects := fun _ => none }
        events := [.Lock, .Unlock] } :=
  complete_descending_manifest_rejected demoEnv demoStore (fun _ => none)
    "bucket" "key" demoID (readerOf [2, 0, 0, 1, 0, 0]) none
    { uploadID := demoID, initiated := 0, totalParts := 3 }
    [] [] ⟨2, "0000"⟩ ⟨1, "0000"⟩
    (by decide) (by decide) (by decide) rfl rfl rfl (by decide) (by decide)


theorem entryError_none_iff (env : Env) (c : Cache) (p : CompletePart) :
    entryError env c p = none ↔
      ∃ bytes, c.Get p.PartNumber = some bytes ∧
        DecodeString (Trim p.ETag "\"") = some (env.md5Sum bytes) := by
  unfold entryError
  cases hget : c.Get p.PartNumber with
  | none => simp
  | some bytes =>
    cases hdec : DecodeString (Trim p.ETag "\"") with
    | none => simp
    | some digest =>
      by_cases hd : digest = env.md5Sum bytes
      · simp [hd]
      · simp [hd]

theorem exists_first_entryError (env : Env) (c : Cache) :
    ∀ (parts : List CompletePart), ¬ (∀ p ∈ parts, entryError env c p = none) →
      ∃ before p after e, parts = before ++ p :: after ∧
        (∀ q ∈ before, entryError env c q = none) ∧ entryError env c p = some e := by
  intro parts
  induction parts with
  | nil => intro h; exact absurd (by simp) h
  | cons x rest ih =>
    intro h
    cases hx : entryError env c x with
    | some e => exact ⟨[], x, rest, e, rfl, by simp, hx⟩
    | none =>
      have hrest : ¬ (∀ p ∈ rest, entryError env c p = none) := by
        intro hall
        apply h
        intro p hp
        rcases List.mem_cons.mp hp with rfl | hp
        · exact hx
        · exact hall p hp
      obtain ⟨before, p, after, e, hsplit, hbefore, hp⟩ := ih hrest
      refine ⟨x :: before, p, after, e, by simp [hsplit], ?_, hp⟩
      intro q hq
      rcases List.mem_cons.mp hq with rfl | hq
      · exact hx
      · exact hbefore q hq


/-- C6: on a request that passes the checks before the manifest, with a strictly
increasing manifest, `CompleteMultipartUpload` calls the persistence layer if and
only if every manifest entry's part number is present in the session's cache and
its ETag, stripped of surrounding double quotes, hex-decodes to the MD5 of the
cached bytes; otherwise the result is the error of the first offending entry in
manifest order (`entryError`: `InvalidPart`, `InvalidDigest` or `BadDigest`), the
state is unchanged and the persistence layer is not called. -/
theorem complete_persists_iff_all_verified (env : Env) (donut : API)
    (bucket key uploadID : String) (data : Reader) (signature : Option Signature)
    (sess : MultiPartSession) (c : Cache) (parts : List CompletePart)
    (hvb : env.IsValidBucket bucket = true) (hvk : env.IsValidObjectName key = true)
    (hsess : sessionOf donut bucket key = some sess) (hid : sess.uploadID = uploadID)
    (hc : donut.multiPartObjects uploadID = some c)
    (heof : data.err = .EOF)
    (hsig : checkSignature signature (EncodeToString (env.sha256Sum data.content)) = none)
    (hxml : env.xmlUnmarshal data.content = some parts)
    (hinc : (parts.map fun p => p.PartNumber).Pairwise (· < ·)) :
    ((∃ ev ∈ (CompleteMultipartUpload env donut bucket key uploadID data signature).events,
        ev.isCreateObject = true) ↔
      ∀ p ∈ parts, ∃ bytes, c.Get p.PartNumber = some bytes ∧
        DecodeString (Trim p.ETag "\"") = some (env.md5Sum bytes)) ∧
    (∀ before p after e, parts = before ++ p :: after →
      (∀ q ∈ before, entryError env c q = none) → entryError env c p = some e →
      (CompleteMultipartUpload env donut bucket key uploadID data signature).result = .err e ∧
      (CompleteMultipartUpload env donut bucket key uploadID data signature).donut = donut ∧
      ∀ ev ∈ (CompleteMultipartUpload env donut bucket key uploadID data signature).events,
        ev.isCreateObject = false) := by
  obtain ⟨sb, hb, -, hat⟩ := sessionOf_some hsess
  have hpast := (complete_past_checks env donut bucket key uploadID data signature sb parts
    hvb hvk hb (by rw [hat]; exact hid) heof hsig hxml).2 (IsSorted_of_increasing parts hinc)
  have hrej : ∀ before p after e, parts = before ++ p :: after →
      (∀ q ∈ before, entryError env c q = none) → entryError env c p = some e →
      (CompleteMultipartUpload env donut bucket key uploadID data signature).result = .err e ∧
      (CompleteMultipartUpload env donut bucket key uploadID data signature).donut = donut ∧
      ∀ ev ∈ (CompleteMultipartUpload env donut bucket key uploadID data signature).events,
        ev.isCreateObject = false := by
    intro before p after e hsplit hbefore hp
    have hasm := assembleParts_rejected env c uploadID before p after e 0 [] hbefore hp
    rw [← hc, ← hsplit] at hasm
    rw [hpast.2.1 _ _ hasm]
    refine ⟨rfl, rfl, ?_⟩
    apply not_createObject_of_get uploadID
    · intro ev hev
      obtain ⟨q, -, rfl⟩ := List.mem_map.mp hev
      exact ⟨_, rfl⟩
    · intro ev hev
      rw [List.mem_singleton.mp hev]
      rfl
  refine ⟨⟨?_, ?_⟩, hrej⟩
  · rintro ⟨ev, hev, hcall⟩ p hp
    by_contra hnot
    have hbad : ¬ (∀ p ∈ parts, entryError env c p = none) := by
      intro hall
      exact hnot ((entryError_none_iff env c p).mp (hall p hp))
    obtain ⟨before, q, after, e, hsplit, hbefore, hq⟩ := exists_first_entryError env c parts hbad
    have := (hrej before q after e hsplit hbefore hq).2.2 ev hev
    rw [this] at hcall
    exact Bool.false_ne_true hcall
  · intro hall
    have hok : ∀ p ∈ parts, entryError env c p = none :=
      fun p hp => (entryError_none_iff env c p).mpr (hall p hp)
    have hasm := assembleParts_verified env c uploadID parts 0 [] hok
    rw [← hc] at hasm
    rw [hpast.2.2 _ _ _ hasm]
    obtain ⟨tail, h1, -⟩ := persistObject_events env donut bucket key uploadID
      (parts.map fun p => Event.Get uploadID p.PartNumber)
      (0 + (parts.map fun p => ((entryBytes c p).length : Int)).sum)
      ([] ++ (parts.map (entryBytes c)).flatten)
    refine ⟨Event.CreateObject bucket key
      (env.base64StdEncode (env.md5Sum ([] ++ (parts.map (entryBytes c)).flatten)))
      (0 + (parts.map fun p => ((entryBytes c p).length : Int)).sum)
      ([] ++ (parts.map (entryBytes c)).flatten), ?_, rfl⟩
    rw [h1]
    simp

/-- Witness of C6: the entry for part 2 carries the digest of part 1, so the call
stops there with `BadDigest`. -/
theorem complete_persists_iff_all_verified_witness :
    ((∃ ev ∈ (CompleteMultipartUpload demoEnv demoStore "bucket" "key" demoID
          (readerOf [1, 3, 35, 2, 3, 35]) none).events, ev.isCreateObject = true) ↔
      ∀ p ∈ ([⟨1, "0323"⟩, ⟨2, "0323"⟩] : List CompletePart),
        ∃ bytes, demoCache.Get p.PartNumber = some bytes ∧
          DecodeString (Trim p.ETag "\"") = some (demoEnv.md5Sum bytes)) ∧
    (∀ before p after e, ([⟨1, "0323"⟩, ⟨2, "0323"⟩] : List CompletePart) =
        before ++ p :: after →
      (∀ q ∈ before, entryError demoEnv demoCache q = none) →
      entryError demoEnv demoCache p = some e →
      (CompleteMultipartUpload demoEnv demoStore "bucket" "key" demoID
          (readerOf [1, 3, 35, 2, 3, 35]) none).result = .err e ∧
      (CompleteMultipartUpload demoEnv demoStore "bucket" "key" demoID
          (readerOf [1, 3, 35, 2, 3, 35]) none).donut = demoStore ∧
      ∀ ev ∈ (CompleteMultipartUpload demoEnv demoStore "bucket" "key" demoID
          (readerOf [1, 3, 35, 2, 3, 35]) none).events, ev.isCreateObject = false) :=
  complete_persists_iff_all_verified demoEnv demoStore "bucket" "key" demoID
    (readerOf [1, 3, 35, 2, 3, 35]) none
    { uploadID := demoID, initiated := 0, totalParts := 3 } demoCache
    [⟨1, "0323"⟩, ⟨2, "0323"⟩]
    (by decide) (by decide) (by decide) rfl rfl rfl rfl (by decide) (by decide)


/-! ## Part ingestion -/

/-- The cache after appending `bytes` under `partID`. -/
theorem readLoop_spec (partID : Int) (err : Error) :
    ∀ (reads : List Bytes) (last : Bytes) (st : ReadState),
      readLoop partID err reads last st =
        (true,
          { hashed := st.hashed ++ (reads.flatten ++ last)
            cache := ⟨fun k => if k = partID then
              some ((st.cache.items partID).getD [] ++ (reads.flatten ++ last))
              else st.cache.items k⟩
            totalLength := st.totalLength + (((reads.flatten ++ last).length : Nat) : Int) },
          ⟨[], [], err⟩) := by
  intro reads
  induction reads with
  | nil =>
    intro last st
    simp [readLoop, readStep, Cache.Append]
  | cons c cs ih =>
    intro last st
    simp only [readLoop, readStep, Cache.Append, if_true]
    rw [ih]
    simp only [Prod.mk.injEq, true_and, and_true, ReadState.mk.injEq, Cache.mk.injEq,
      List.flatten_cons, List.append_assoc, List.length_append, Nat.cast_add, if_true,
      Option.getD_some]
    refine ⟨?_, by ring⟩
    funext k
    by_cases hk : k = partID <;> simp [hk]

theorem partRecord_none_iff {donut : API} {bucket key : String} {sb : storedBucket}
    (hb : donut.storedBuckets bucket = some sb) (n : Int) :
    partRecord donut bucket key n = (sb.partMetadata key).bind (fun m => m n) := by
  simp [partRecord, partTable, hb]

/-- C7: for an existing session with matching uploadID, a part number with no stored
record and a content stream whose total number of bytes differs from the declared
size (the digest header being blank or valid base64, so that the stream is read),
`createObjectPart` fails with `IncompleteBody`; afterwards the cache of the session
holds no entry for that part number and the bucket table, hence every part record,
is as before: no record was written. -/
theorem createObjectPart_size_mismatch (env : Env) (donut : API)
    (bucket key uploadID : String) (partID : Int) (contentType expectedMD5Sum : String)
    (size : Int) (data : Reader) (signature : Option Signature) (now : Time)
    (sess : MultiPartSession) (c : Cache)
    (hvb : env.IsValidBucket bucket = true) (hvk : env.IsValidObjectName key = true)
    (hsess : sessionOf donut bucket key = some sess) (hid : sess.uploadID = uploadID)
    (hrec : partRecord donut bucket key partID = none)
    (hc : donut.multiPartObjects uploadID = some c)
    (hdig : TrimSpace expectedMD5Sum = "" ∨
      (env.base64StdDecode (TrimSpace expectedMD5Sum)).isSome = true)
    (hsize : ((data.content.length : Nat) : Int) ≠ size) :
    (createObjectPart env donut bucket key uploadID partID contentType expectedMD5Sum size
        data signature now).1 = .err (.IncompleteBody bucket key) ∧
    cachedPart (createObjectPart env donut bucket key uploadID partID contentType
        expectedMD5Sum size data signature now).2.1 uploadID partID = none ∧
    partRecord (createObjectPart env donut bucket key uploadID partID contentType
        expectedMD5Sum size data signature now).2.1 bucket key partID = none ∧
    (createObjectPart env donut bucket key uploadID partID contentType
        expectedMD5Sum size data signature now).2.1.storedBuckets = donut.storedBuckets := by
  obtain ⟨sb, hb, -, hat⟩ := sessionOf_some hsess
  have hrec2 := hrec
  rw [partRecord_none_iff hb] at hrec2
  have hex : ∃ ex, expectedHex env expectedMD5Sum = some ex := by
    unfold expectedHex
    rcases hdig with h | h
    · simp [h]
    · by_cases hblank : TrimSpace expectedMD5Sum = ""
      · simp [hblank]
      · obtain ⟨b, hbytes⟩ := Option.isSome_iff_exists.mp h
        simp [hblank, hbytes]
  obtain ⟨ex, hex⟩ := hex
  have hcontent : data.reads.flatten ++ data.last = data.content := rfl
  have key1 : createObjectPart env donut bucket key uploadID partID contentType
      expectedMD5Sum size data signature now =
      (.err (.IncompleteBody bucket key),
        { storedBuckets := donut.storedBuckets
          multiPartObjects := mapSet donut.multiPartObjects uploadID
            (Cache.Delete ⟨fun k => if k = partID then
              some ((c.items partID).getD [] ++ data.content) else c.items k⟩ partID) },
        ⟨[], [], data.err⟩) := by
    unfold createObjectPart
    simp [hvb, hvk, hb, hat, hid, hrec2, hex, hc, readLoop_spec, hcontent, hsize]
  rw [key1]
  refine ⟨rfl, ?_, ?_, rfl⟩
  · simp [cachedPart, mapSet, Cache.Get, Cache.Delete]
  · simpa [partRecord, partTable] using hrec

/-- Witness of C7: four bytes sent for part 4 with a declared size of 3. -/
theorem createObjectPart_size_mismatch_witness :
    (createObjectPart demoEnv demoStore "bucket" "key" demoID 4 "" "" 3
        (readerOf [100, 100, 100, 100]) none 0).1 = .err (.IncompleteBody "bucket" "key") ∧
    cachedPart (createObjectPart demoEnv demoStore "bucket" "key" demoID 4 "" "" 3
        (readerOf [100, 100, 100, 100]) none 0).2.1 demoID 4 = none ∧
    partRecord (createObjectPart demoEnv demoStore "bucket" "key" demoID 4 "" "" 3
        (readerOf [100, 100, 100, 100]) none 0).2.1 "bucket" "key" 4 = none ∧
    (createObjectPart demoEnv demoStore "bucket" "key" demoID 4 "" "" 3
        (readerOf [100, 100, 100, 100]) none 0).2.1.storedBuckets = demoStore.storedBuckets :=
  createObjectPart_size_mismatch demoEnv demoStore "bucket" "key" demoID 4 "" "" 3
    (readerOf [100, 100, 100, 100]) none 0
    { uploadID := demoID, initiated := 0, totalParts := 3 } demoCache
    (by decide) (by decide) (by decide) rfl (by decide) rfl (Or.inl (by decide)) (by decide)


/-- A part number that already has a record: the stored ETag is returned, the
state and the reader are left as they are. -/
theorem createObjectPart_stored (env : Env) (donut : API) (bucket key uploadID : String)
    (partID : Int) (contentType expectedMD5Sum : String) (size : Int) (data : Reader)
    (signature : Option Signature) (now : Time) (sb : storedBucket) (record : PartMetadata)
    (hvb : env.IsValidBucket bucket = true) (hvk : env.IsValidObjectName key = true)
    (hb : donut.storedBuckets bucket = some sb)
    (hid : (sessionAt sb key).uploadID = uploadID)
    (hrec : (sb.partMetadata key).bind (fun m => m partID) = some record) :
    createObjectPart env donut bucket key uploadID partID contentType expectedMD5Sum size
      data signature now = (.ok record.ETag, donut, data) := by
  unfold createObjectPart
  simp [hvb, hvk, hb, hid, hrec]

/-- The successful path of `createObjectPart` for a part number without a record:
the whole stream is appended to the cache entry of the part, a record is written
and `totalParts` grows by one. -/
theorem createObjectPart_fresh (env : Env) (donut : API) (bucket key uploadID : String)
    (partID : Int) (contentType expectedMD5Sum : String) (size : Int) (data : Reader)
    (signature : Option Signature) (now : Time) (sb : storedBucket) (ex : String) (c : Cache)
    (parts : Int → Option PartMetadata)
    (hvb : env.IsValidBucket bucket = true) (hvk : env.IsValidObjectName key = true)
    (hb : donut.storedBuckets bucket = some sb)
    (hid : (sessionAt sb key).uploadID = uploadID)
    (hparts : sb.partMetadata key = some parts) (hrec : parts partID = none)
    (hex : expectedHex env expectedMD5Sum = some ex)
    (hc : donut.multiPartObjects uploadID = some c)
    (hsz : ((data.content.length : Nat) : Int) = size)
    (heof : data.err = .EOF)
    (hdg : ¬ (TrimSpace ex ≠ "" ∧
      (isMD5SumEqual (TrimSpace ex) (EncodeToString (env.md5Sum data.content))).isSome = true))
    (hsg : checkSignature signature (EncodeToString (env.sha256Sum data.content)) = none) :
    createObjectPart env donut bucket key uploadID partID contentType expectedMD5Sum size
      data signature now =
      (.ok (EncodeToString (env.md5Sum data.content)),
        { storedBuckets := mapSet donut.storedBuckets bucket
            { objectMetadata := sb.objectMetadata
              multiPartSession := mapSet sb.multiPartSession key
                { uploadID := (sessionAt sb key).uploadID
                  initiated := (sessionAt sb key).initiated
                  totalParts := (sessionAt sb key).totalParts + 1 }
              partMetadata := mapSet sb.partMetadata key
                (mapSet parts partID
                  { PartNumber := partID, LastModified := now,
                    ETag := EncodeToString (env.md5Sum data.content), Size := size }) }
          multiPartObjects := mapSet donut.multiPartObjects uploadID
            ⟨fun k => if k = partID then some ((c.items partID).getD [] ++ data.content)
              else c.items k⟩ },
        ⟨[], [], .EOF⟩) := by
  have hcontent : data.reads.flatten ++ data.last = data.content := rfl
  have hdg2 : TrimSpace ex ≠ "" →
      isMD5SumEqual (TrimSpace ex) (EncodeToString (env.md5Sum data.content)) = none := by
    intro hne
    by_contra hsome
    apply hdg
    refine ⟨hne, ?_⟩
    cases hq : isMD5SumEqual (TrimSpace ex) (EncodeToString (env.md5Sum data.content)) with
    | none => exact absurd hq hsome
    | some e => rfl
  unfold createObjectPart
  simp only [hvb, hvk, hb, hid, hparts, hrec, hex, hc, readLoop_spec, hcontent, heof, hsg,
    Option.some_bind, Bool.not_true, Bool.false_eq_true, if_false, ne_eq, not_true_eq_false,
    zero_add, List.nil_append, hsz]
  by_cases hne : TrimSpace ex = ""
  · simp [hne]
  · simp [hne, hdg2 hne]



/-- After a successful `createObjectPart` the part has a record whose ETag is the
returned digest, in a session with the given upload id. -/
theorem createObjectPart_ok_record (env : Env) (donut : API) (bucket key uploadID : String)
    (partID : Int) (contentType expectedMD5Sum : String) (size : Int) (data : Reader)
    (signature : Option Signature) (now : Time) (etag : String)
    (h : (createObjectPart env donut bucket key uploadID partID contentType expectedMD5Sum
      size data signature now).1 = .ok etag) :
    env.IsValidBucket bucket = true ∧ env.IsValidObjectName key = true ∧
    ∃ sb record, (createObjectPart env donut bucket key uploadID partID contentType
        expectedMD5Sum size data signature now).2.1.storedBuckets bucket = some sb ∧
      (sessionAt sb key).uploadID = uploadID ∧
      (sb.partMetadata key).bind (fun m => m partID) = some record ∧ record.ETag = etag := by
  have hcontent : data.reads.flatten ++ data.last = data.content := rfl
  by_cases hvb : env.IsValidBucket bucket = true
  swap
  · simp [createObjectPart, hvb] at h
  by_cases hvk : env.IsValidObjectName key = true
  swap
  · simp [createObjectPart, hvb, hvk] at h
  refine ⟨hvb, hvk, ?_⟩
  cases hb : donut.storedBuckets bucket with
  | none => simp [createObjectPart, hvb, hvk, hb] at h
  | some sb =>
    by_cases hid : (sessionAt sb key).uploadID = uploadID
    swap
    · simp [createObjectPart, hvb, hvk, hb, hid] at h
    cases hrec : (sb.partMetadata key).bind (fun m => m partID) with
    | some record =>
      rw [createObjectPart_stored env donut bucket key uploadID partID contentType
        expectedMD5Sum size data signature now sb record hvb hvk hb hid hrec] at h ⊢
      simp only [Res.ok.injEq] at h
      exact ⟨sb, record, hb, hid, hrec, h⟩
    | none =>
      cases hex : expectedHex env expectedMD5Sum with
      | none => simp [createObjectPart, hvb, hvk, hb, hid, hrec, hex] at h
      | some ex =>
        cases hc : donut.multiPartObjects uploadID with
        | none => simp [createObjectPart, hvb, hvk, hb, hid, hrec, hex, hc] at h
        | some c =>
          by_cases hsz : ((data.content.length : Nat) : Int) = size
          swap
          · simp [createObjectPart, hvb, hvk, hb, hid, hrec, hex, hc, readLoop_spec,
              hcontent, hsz] at h
          by_cases heof : data.err = .EOF
          swap
          · simp [createObjectPart, hvb, hvk, hb, hid, hrec, hex, hc, readLoop_spec,
              hcontent, hsz, heof] at h
          by_cases hdg : TrimSpace ex ≠ "" ∧
            (isMD5SumEqual (TrimSpace ex) (EncodeToString (env.md5Sum data.content))).isSome
              = true
          · have h1 := hdg.1
            have h2 := hdg.2
            simp [createObjectPart, hvb, hvk, hb, hid, hrec, hex, hc, readLoop_spec,
              hcontent, hsz, heof, h1, h2] at h
          cases hsg : checkSignature signature
              (EncodeToString (env.sha256Sum data.content)) with
          | some e =>
            have hdg2 : TrimSpace ex = "" ∨
                isMD5SumEqual (TrimSpace ex) (EncodeToString (env.md5Sum data.content))
                  = none := by
              by_cases hne : TrimSpace ex = ""
              · exact Or.inl hne
              · right
                cases hq : isMD5SumEqual (TrimSpace ex)
                    (EncodeToString (env.md5Sum data.content)) with
                | none => rfl
                | some e2 => exact absurd ⟨hne, by simp [hq]⟩ hdg
            rcases hdg2 with hd | hd
            · simp [createObjectPart, hvb, hvk, hb, hid, hrec, hex, hc, readLoop_spec,
                hcontent, hsz, heof, hd, hsg] at h
            · simp [createObjectPart, hvb, hvk, hb, hid, hrec, hex, hc, readLoop_spec,
                hcontent, hsz, heof, hd, hsg] at h
          | none =>
            cases hparts : sb.partMetadata key with
            | none =>
              have hdg2 : TrimSpace ex = "" ∨
                  isMD5SumEqual (TrimSpace ex) (EncodeToString (env.md5Sum data.content))
                    = none := by
                by_cases hne : TrimSpace ex = ""
                · exact Or.inl hne
                · right
                  cases hq : isMD5SumEqual (TrimSpace ex)
                      (EncodeToString (env.md5Sum data.content)) with
                  | none => rfl
                  | some e2 => exact absurd ⟨hne, by simp [hq]⟩ hdg
              rcases hdg2 with hd | hd
              · simp [createObjectPart, hvb, hvk, hb, hid, hrec, hex, hc, readLoop_spec,
                  hcontent, hsz, heof, hd, hsg, hparts] at h
              · simp [createObjectPart, hvb, hvk, hb, hid, hrec, hex, hc, readLoop_spec,
                  hcontent, hsz, heof, hd, hsg, hparts] at h
            | some parts =>
              have hrec2 : parts partID = none := by simpa [hparts] using hrec
              rw [createObjectPart_fresh env donut bucket key uploadID partID contentType
                expectedMD5Sum size data signature now sb ex c parts hvb hvk hb hid hparts
                hrec2 hex hc hsz heof hdg hsg] at h ⊢
              simp only [Res.ok.injEq] at h
              refine ⟨{ objectMetadata := sb.objectMetadata
                        multiPartSession := mapSet sb.multiPartSession key
                          { uploadID := (sessionAt sb key).uploadID
                            initiated := (sessionAt sb key).initiated
                            totalParts := (sessionAt sb key).totalParts + 1 }
                        partMetadata := mapSet sb.partMetadata key
                          (mapSet parts partID
                            { PartNumber := partID, LastModified := now,
                              ETag := EncodeToString (env.md5Sum data.content),
                              Size := size }) },
                { PartNumber := partID, LastModified := now,
                  ETag := EncodeToString (env.md5Sum data.content), Size := size },
                by simp [mapSet], ?_, ?_, h⟩
              · simp only [sessionAt, mapSet, if_true, Option.getD_some]
                exact hid
              · simp [mapSet]


/-- C3: in a session in which part `partID` already has a stored record, a further
`createObjectPart` call for that part, with any content, declared size, expected
digest and signature, returns the stored ETag, hands the reader back untouched and
returns the state (`totalParts`, all part records, the part caches) unchanged.  In
particular, after any successful ingestion of a part, ingesting the same part number
again returns the same digest and leaves the state, hence `totalParts`, as the first
call left it. -/
theorem createObjectPart_idempotent (env : Env) (donut : API) (bucket key uploadID : String)
    (partID : Int) (sess : MultiPartSession) (record : PartMetadata)
    (hvb : env.IsValidBucket bucket = true) (hvk : env.IsValidObjectName key = true)
    (hsess : sessionOf donut bucket key = some sess) (hid : sess.uploadID = uploadID)
    (hrec : partRecord donut bucket key partID = some record) :
    (∀ (contentType expectedMD5Sum : String) (size : Int) (data : Reader)
        (signature : Option Signature) (now : Time),
      createObjectPart env donut bucket key uploadID partID contentType expectedMD5Sum size
        data signature now = (.ok record.ETag, donut, data)) ∧
    (∀ (before : API) (contentType0 expectedMD5Sum0 : String) (size0 : Int) (data0 : Reader)
        (signature0 : Option Signature) (now0 : Time) (etag : String),
      (createObjectPart env before bucket key uploadID partID contentType0 expectedMD5Sum0
        size0 data0 signature0 now0).1 = .ok etag →
      ∀ (contentType expectedMD5Sum : String) (size : Int) (data : Reader)
        (signature : Option Signature) (now : Time),
      createObjectPart env
        (createObjectPart env before bucket key uploadID partID contentType0 expectedMD5Sum0
          size0 data0 signature0 now0).2.1
        bucket key uploadID partID contentType expectedMD5Sum size data signature now =
      (.ok etag,
        (createObjectPart env before bucket key uploadID partID contentType0 expectedMD5Sum0
          size0 data0 signature0 now0).2.1, data)) := by
  constructor
  · intro contentType expectedMD5Sum size data signature now
    obtain ⟨sb, hb, -, hat⟩ := sessionOf_some hsess
    rw [partRecord_none_iff hb] at hrec
    exact createObjectPart_stored env donut bucket key uploadID partID contentType
      expectedMD5Sum size data signature now sb record hvb hvk hb (by rw [hat]; exact hid) hrec
  · intro before contentType0 expectedMD5Sum0 size0 data0 signature0 now0 etag hfirst
      contentType expectedMD5Sum size data signature now
    obtain ⟨hvb1, hvk1, sb, record1, hb, hid1, hrec1, hetag⟩ :=
      createObjectPart_ok_record env before bucket key uploadID partID contentType0
        expectedMD5Sum0 size0 data0 signature0 now0 etag hfirst
    rw [createObjectPart_stored env _ bucket key uploadID partID contentType
      expectedMD5Sum size data signature now sb record1 hvb1 hvk1 hb hid1 hrec1, hetag]

/-- Witness of C3: part 1 of the session in `demoStore` is recorded with ETag "0323". -/
theorem createObjectPart_idempotent_witness :
    (∀ (contentType expectedMD5Sum : String) (size : Int) (data : Reader)
        (signature : Option Signature) (now : Time),
      createObjectPart demoEnv demoStore "bucket" "key" demoID 1 contentType expectedMD5Sum
        size data signature now = (.ok "0323", demoStore, data)) ∧
    (∀ (before : API) (contentType0 expectedMD5Sum0 : String) (size0 : Int) (data0 : Reader)
        (signature0 : Option Signature) (now0 : Time) (etag : String),
      (createObjectPart demoEnv before "bucket" "key" demoID 1 contentType0 expectedMD5Sum0
        size0 data0 signature0 now0).1 = .ok etag →
      ∀ (contentType expectedMD5Sum : String) (size : Int) (data : Reader)
        (signature : Option Signature) (now : Time),
      createObjectPart demoEnv
        (createObjectPart demoEnv before "bucket" "key" demoID 1 contentType0 expectedMD5Sum0
          size0 data0 signature0 now0).2.1
        "bucket" "key" demoID 1 contentType expectedMD5Sum size data signature now =
      (.ok etag,
        (createObjectPart demoEnv before "bucket" "key" demoID 1 contentType0 expectedMD5Sum0
          size0 data0 signature0 now0).2.1, data)) :=
  createObjectPart_idempotent demoEnv demoStore "bucket" "key" demoID 1
    { uploadID := demoID, initiated := 0, totalParts := 3 }
    { PartNumber := 1, LastModified := 0, ETag := "0323", Size := 3 }
    (by decide) (by decide) (by decide) rfl (by decide)


/-- C2 at its failing input: a first attempt for part 1 fails with
`SignatureDoesNotMatch` after the stream was read, writes no record, but leaves its
bytes "xx" in the cache; the retry with content "abc" succeeds, returns the hex MD5
of "abc" and records size 3, yet the cache entry of part 1 is "xxabc", not "abc". -/
theorem createObjectPart_appends_to_residue :
    rejectedAttempt.1 = .err .SignatureDoesNotMatch ∧
    partRecord rejectedAttempt.2.1 "bucket" "key" 1 = none ∧
    cachedPart rejectedAttempt.2.1 demoID 1 = some [120, 120] ∧
    retriedAttempt.1 = .ok (EncodeToString (demoEnv.md5Sum [97, 98, 99])) ∧
    partRecord retriedAttempt.2.1 "bucket" "key" 1 =
      some { PartNumber := 1, LastModified := 0,
             ETag := EncodeToString (demoEnv.md5Sum [97, 98, 99]), Size := 3 } ∧
    cachedPart retriedAttempt.2.1 demoID 1 = some [120, 120, 97, 98, 99] ∧
    cachedPart retriedAttempt.2.1 demoID 1 ≠ some [97, 98, 99] := by
  decide


theorem isMD5SumEqual_self (src : Bytes) (h : TrimSpace (EncodeToString src) ≠ "") :
    isMD5SumEqual (TrimSpace (EncodeToString src)) (EncodeToString src) = none := by
  have ht := TrimSpace_EncodeToString src
  rw [ht] at h ⊢
  unfold isMD5SumEqual
  simp [ht, h, DecodeString_EncodeToString]

/-- What a successful ingestion of a part without a record does (the part of C2 that
holds on every state): the hex MD5 of the content is returned, a record with that
ETag and the declared size is stored, `totalParts` grows by exactly one, every other
part record, session, part table and cache entry is unchanged, and the content is
appended to whatever the cache already held under that part number. -/
theorem createObjectPart_success (env : Env) (donut : API) (bucket key uploadID : String)
    (partID : Int) (contentType expectedMD5Sum : String) (size : Int) (data : Reader)
    (signature : Option Signature) (now : Time) (sess : MultiPartSession) (c : Cache)
    (parts : Int → Option PartMetadata)
    (hvb : env.IsValidBucket bucket = true) (hvk : env.IsValidObjectName key = true)
    (hsess : sessionOf donut bucket key = some sess) (hid : sess.uploadID = uploadID)
    (hparts : partTable donut bucket key = some parts) (hrec : parts partID = none)
    (hc : donut.multiPartObjects uploadID = some c)
    (hsz : ((data.content.length : Nat) : Int) = size) (heof : data.err = .EOF)
    (hdig : TrimSpace expectedMD5Sum = "" ∨
      env.base64StdDecode (TrimSpace expectedMD5Sum) = some (env.md5Sum data.content))
    (hsg : checkSignature signature (EncodeToString (env.sha256Sum data.content)) = none) :
    (createObjectPart env donut bucket key uploadID partID contentType expectedMD5Sum size
        data signature now).1 = .ok (EncodeToString (env.md5Sum data.content)) ∧
    partRecord (createObjectPart env donut bucket key uploadID partID contentType
        expectedMD5Sum size data signature now).2.1 bucket key partID =
      some { PartNumber := partID, LastModified := now,
             ETag := EncodeToString (env.md5Sum data.content), Size := size } ∧
    sessionOf (createObjectPart env donut bucket key uploadID partID contentType
        expectedMD5Sum size data signature now).2.1 bucket key =
      some { sess with totalParts := sess.totalParts + 1 } ∧
    cachedPart (createObjectPart env donut bucket key uploadID partID contentType
        expectedMD5Sum size data signature now).2.1 uploadID partID =
      some ((c.Get partID).getD [] ++ data.content) ∧
    (∀ n, n ≠ partID →
      partRecord (createObjectPart env donut bucket key uploadID partID contentType
        expectedMD5Sum size data signature now).2.1 bucket key n =
        partRecord donut bucket key n) ∧
    (∀ b k, ¬ (b = bucket ∧ k = key) →
      sessionOf (createObjectPart env donut bucket key uploadID partID contentType
        expectedMD5Sum size data signature now).2.1 b k = sessionOf donut b k ∧
      partTable (createObjectPart env donut bucket key uploadID partID contentType
        expectedMD5Sum size data signature now).2.1 b k = partTable donut b k) ∧
    (∀ u n, ¬ (u = uploadID ∧ n = partID) →
      cachedPart (createObjectPart env donut bucket key uploadID partID contentType
        expectedMD5Sum size data signature now).2.1 u n = cachedPart donut u n) := by
  obtain ⟨sb, hb, hsb, hat⟩ := sessionOf_some hsess
  have hparts2 : sb.partMetadata key = some parts := by
    simpa [partTable, hb] using hparts
  have hex : ∃ ex, expectedHex env expectedMD5Sum = some ex ∧
      ¬ (TrimSpace ex ≠ "" ∧
        (isMD5SumEqual (TrimSpace ex) (EncodeToString (env.md5Sum data.content))).isSome
          = true) := by
    unfold expectedHex
    by_cases hblank : TrimSpace expectedMD5Sum = ""
    · exact ⟨expectedMD5Sum, by simp [hblank], by simp [hblank]⟩
    · rcases hdig with h | h
      · exact absurd h hblank
      · refine ⟨EncodeToString (env.md5Sum data.content), by simp [hblank, h], ?_⟩
        rintro ⟨hne, hsome⟩
        rw [isMD5SumEqual_self _ hne] at hsome
        simp at hsome
  obtain ⟨ex, hex, hdg⟩ := hex
  rw [createObjectPart_fresh env donut bucket key uploadID partID contentType
    expectedMD5Sum size data signature now sb ex c parts hvb hvk hb (by rw [hat]; exact hid)
    hparts2 hrec hex hc hsz heof hdg hsg]
  refine ⟨rfl, ?_, ?_, ?_, ?_, ?_, ?_⟩
  · simp [partRecord, partTable, mapSet]
  · simp [sessionOf, mapSet, hat]
  · simp [cachedPart, mapSet, Cache.Get]
  · intro n hn
    simp [partRecord, partTable, mapSet, hn, hb, hparts2]
  · intro b k hbk
    by_cases hbb : b = bucket
    · subst hbb
      have hk : k ≠ key := fun hk => hbk ⟨rfl, hk⟩
      simp [sessionOf, partTable, mapSet, hk, hb]
    · simp [sessionOf, partTable, mapSet, hbb]
  · intro u n hun
    by_cases hu : u = uploadID
    · subst hu
      have hn : n ≠ partID := fun hn => hun ⟨rfl, hn⟩
      simp [cachedPart, mapSet, Cache.Get, hn, hc]
    · simp [cachedPart, mapSet, hu]


/-! ## Abort -/

theorem Cache.Delete_items (c : Cache) (k n : Int) :
    (c.Delete k).items n = if n = k then none else c.items n := rfl

theorem deleteRange_items (c : Cache) (n : Int) :
    ∀ m : Nat,
      ((List.range m).foldl (fun (c : Cache) (i : Nat) => c.Delete ((i : Int) + 1)) c).items n =
        if 1 ≤ n ∧ n ≤ (m : Int) then none else c.items n := by
  intro m
  induction m with
  | zero =>
    rw [if_neg (by push_cast; omega)]
    rfl
  | succ m ih =>
    rw [List.range_succ, List.foldl_append]
    simp only [List.foldl_cons, List.foldl_nil]
    rw [Cache.Delete_items, ih]
    by_cases hn : n = (m : Int) + 1
    · rw [if_pos hn, if_pos (by push_cast; omega)]
    · rw [if_neg hn]
      by_cases h1 : 1 ≤ n ∧ n ≤ (m : Int)
      · rw [if_pos h1, if_pos (by push_cast; omega)]
      · rw [if_neg h1, if_neg (by push_cast; omega)]

/-- The cleanup loop deletes the cache entries numbered `1..totalParts` and no other. -/
theorem deleteParts_items (c : Cache) (totalParts n : Int) :
    (deleteParts c totalParts).items n =
      if 1 ≤ n ∧ n ≤ totalParts then none else c.items n := by
  unfold deleteParts
  rw [deleteRange_items]
  by_cases h : 1 ≤ n ∧ n ≤ totalParts
  · rw [if_pos h, if_pos (by omega)]
  · rw [if_neg h, if_neg (by omega)]

/-- C8 at its failing input: a session is initiated, only part 5 ("abc") is ingested
successfully (so `totalParts` is 1), and the upload is aborted successfully.  The
session is gone, but the cache that belonged to the upload id still holds the bytes
of part 5: the cleanup loop deletes the numbers `1..totalParts` only. -/
theorem abort_leaves_part_five_cached :
    sessionOf onlyPartFive "bucket" "key" =
      some { uploadID := demoID, initiated := 0, totalParts := 1 } ∧
    cachedPart onlyPartFive demoID 5 = some [97, 98, 99] ∧
    abortedOnlyPartFive.1 = .ok () ∧
    sessionOf abortedOnlyPartFive.2 "bucket" "key" = none ∧
    cachedPart abortedOnlyPartFive.2 demoID 5 = some [97, 98, 99] := by
  decide


/-- An upload id handed out by `NewMultipartUpload` has 47 characters, and the call
succeeds only for a valid bucket name and a valid object name. -/
theorem NewMultipartUpload_ok (env : Env) (donut : API) (bucket key contentType : String)
    (signature : Option Signature) (rand63 : Int) (idTime initiated : Time)
    (uploadID : String)
    (h : (NewMultipartUpload env donut bucket key contentType signature rand63 idTime
      initiated).1 = .ok uploadID) :
    uploadID.length = 47 ∧ env.IsValidBucket bucket = true ∧
      env.IsValidObjectName key = true := by
  cases hsg : checkSignature signature emptySHA256 with
  | some e => simp [NewMultipartUpload, hsg] at h
  | none =>
    by_cases hvb : env.IsValidBucket bucket = true
    swap
    · simp [NewMultipartUpload, hsg, hvb] at h
    by_cases hvk : env.IsValidObjectName key = true
    swap
    · simp [NewMultipartUpload, hsg, hvb, hvk] at h
    refine ⟨?_, hvb, hvk⟩
    cases hb : donut.storedBuckets bucket with
    | none => simp [NewMultipartUpload, hsg, hvb, hvk, hb] at h
    | some sb =>
      cases hobj : sb.objectMetadata (bucket ++ "/" ++ key) with
      | some o => simp [NewMultipartUpload, hsg, hvb, hvk, hb, hobj] at h
      | none =>
        by_cases hlen : (env.base64URLEncode (env.sha512Sum (env.toBytes
            (env.FormatInt rand63 ++ bucket ++ key ++ env.TimeString idTime)))).length < 47
        · simp [NewMultipartUpload, hsg, hvb, hvk, hb, hobj, hlen] at h
        · simp only [NewMultipartUpload, hsg, hvb, hvk, hb, hobj, hlen, Bool.not_true,
            Bool.false_eq_true, if_false, Option.isSome_none, Res.ok.injEq] at h
          rw [← h]
          show (List.take 47 (env.base64URLEncode (env.sha512Sum (env.toBytes
            (env.FormatInt rand63 ++ bucket ++ key ++ env.TimeString idTime)))).data).length
              = 47
          rw [List.length_take]
          have hlen2 : ¬ ((env.base64URLEncode (env.sha512Sum (env.toBytes
            (env.FormatInt rand63 ++ bucket ++ key ++ env.TimeString idTime)))).data.length
              < 47) := hlen
          omega

/-- What `cleanupMultipartSession` leaves behind when it does not panic: the bucket
without session entry and part table for the key, and the cache of the upload id
without the entries numbered `1..totalParts`; everything else is untouched. -/
theorem cleanup_some (donut donut1 : API) (bucket key uploadID : String)
    (h : cleanupMultipartSession donut bucket key uploadID = some donut1) :
    ∃ sb, donut.storedBuckets bucket = some sb ∧
      donut1.storedBuckets = mapSet donut.storedBuckets bucket
        { objectMetadata := sb.objectMetadata
          multiPartSession := mapDelete sb.multiPartSession key
          partMetadata := mapDelete sb.partMetadata key } ∧
      ∀ u n, cachedPart donut1 u n =
        if u = uploadID ∧ 1 ≤ n ∧ n ≤ (sessionAt sb key).totalParts then none
        else cachedPart donut u n := by
  cases hb : donut.storedBuckets bucket with
  | none => simp [cleanupMultipartSession, hb] at h
  | some sb =>
    refine ⟨sb, rfl, ?_⟩
    by_cases htp : (sessionAt sb key).totalParts < 1
    · simp only [cleanupMultipartSession, hb, htp, if_true, Option.some.injEq] at h
      subst h
      refine ⟨rfl, ?_⟩
      intro u n
      rw [if_neg (by omega)]
      rfl
    · cases hc : donut.multiPartObjects uploadID with
      | none => simp [cleanupMultipartSession, hb, htp, hc] at h
      | some c =>
        simp only [cleanupMultipartSession, hb, htp, hc, if_false, Option.some.injEq] at h
        subst h
        refine ⟨rfl, ?_⟩
        intro u n
        by_cases hu : u = uploadID
        · subst hu
          simp only [cachedPart, mapSet, if_true, Option.some_bind, Cache.Get, hc,
            deleteParts_items, true_and]
        · simp [cachedPart, mapSet, hu]

/-- A successful `AbortMultipartUpload` is a session cleanup on a valid, stored
bucket. -/
theorem Abort_ok (env : Env) (donut : API) (bucket key uploadID : String)
    (signature : Option Signature)
    (h : (AbortMultipartUpload env donut bucket key uploadID signature).1 = .ok ()) :
    env.IsValidBucket bucket = true ∧
      cleanupMultipartSession donut bucket key uploadID =
        some (AbortMultipartUpload env donut bucket key uploadID signature).2 := by
  cases hsg : checkSignature signature emptySHA256 with
  | some e => simp [AbortMultipartUpload, hsg] at h
  | none =>
    by_cases hvb : env.IsValidBucket bucket = true
    swap
    · simp [AbortMultipartUpload, hsg, hvb] at h
    refine ⟨hvb, ?_⟩
    cases hb : donut.storedBuckets bucket with
    | none => simp [AbortMultipartUpload, hsg, hvb, hb] at h
    | some sb =>
      by_cases hid : (sessionAt sb key).uploadID = uploadID
      swap
      · simp [AbortMultipartUpload, hsg, hvb, hb, hid] at h
      cases hcl : cleanupMultipartSession donut bucket key uploadID with
      | none => simp [AbortMultipartUpload, hsg, hvb, hb, hid, hcl] at h
      | some d1 => simp [AbortMultipartUpload, hsg, hvb, hb, hid, hcl]


/-- C9: for an upload id handed out by `NewMultipartUpload` for this bucket and key
(hence non-empty, and the key is a valid object name), after a successful
`AbortMultipartUpload` the session entry and the part-record table of the key are
gone, and every later `CreateObjectPart`, `AbortMultipartUpload` (signature absent
or verified) or `CompleteMultipartUpload` with the old upload id fails with
`InvalidUploadID` and returns the state unchanged, so this stays so until
`NewMultipartUpload` changes the state. -/
theorem abort_invalidates_uploadID (env : Env) (donut : API) (bucket key uploadID : String)
    (signature : Option Signature)
    (hnew : ∃ (before : API) (contentType : String) (sig : Option Signature) (rand63 : Int)
      (idTime initiated : Time),
      (NewMultipartUpload env before bucket key contentType sig rand63 idTime initiated).1 =
        .ok uploadID)
    (habort : (AbortMultipartUpload env donut bucket key uploadID signature).1 = .ok ()) :
    sessionOf (AbortMultipartUpload env donut bucket key uploadID signature).2 bucket key
      = none ∧
    partTable (AbortMultipartUpload env donut bucket key uploadID signature).2 bucket key
      = none ∧
    (∀ (partID : Int) (contentType expectedMD5Sum : String) (size : Int) (data : Reader)
        (sig : Option Signature) (now : Time),
      CreateObjectPart env (AbortMultipartUpload env donut bucket key uploadID signature).2
        bucket key uploadID partID contentType expectedMD5Sum size data sig now =
      (.err (.InvalidUploadID uploadID),
        (AbortMultipartUpload env donut bucket key uploadID signature).2, data)) ∧
    (∀ (sig : Option Signature), checkSignature sig emptySHA256 = none →
      AbortMultipartUpload env (AbortMultipartUpload env donut bucket key uploadID signature).2
        bucket key uploadID sig =
      (.err (.InvalidUploadID uploadID),
        (AbortMultipartUpload env donut bucket key uploadID signature).2)) ∧
    (∀ (data : Reader) (sig : Option Signature),
      CompleteMultipartUpload env
        (AbortMultipartUpload env donut bucket key uploadID signature).2
        bucket key uploadID data sig =
      { result := .err (.InvalidUploadID uploadID)
        donut := (AbortMultipartUpload env donut bucket key uploadID signature).2
        events := [.Lock, .Unlock] }) := by
  obtain ⟨before, contentType, sig0, rand63, idTime, initiated, hnew⟩ := hnew
  obtain ⟨hlen, -, hvk⟩ := NewMultipartUpload_ok env before bucket key contentType sig0
    rand63 idTime initiated uploadID hnew
  have hne : ¬ ("" = uploadID) := by
    intro he
    rw [← he] at hlen
    simp at hlen
  obtain ⟨hvb, hcl⟩ := Abort_ok env donut bucket key uploadID signature habort
  obtain ⟨sb, hb, hsb, -⟩ := cleanup_some donut _ bucket key uploadID hcl
  generalize (AbortMultipartUpload env donut bucket key uploadID signature).2 = d1 at hsb ⊢
  have hb1 : d1.storedBuckets bucket = some
      { objectMetadata := sb.objectMetadata
        multiPartSession := mapDelete sb.multiPartSession key
        partMetadata := mapDelete sb.partMetadata key } := by
    rw [hsb]; simp [mapSet]
  refine ⟨?_, ?_, ?_, ?_, ?_⟩
  · simp [sessionOf, hb1, mapDelete]
  · simp [partTable, hb1, mapDelete]
  · intro partID contentType expectedMD5Sum size data sig now
    unfold CreateObjectPart createObjectPart
    simp [hvb, hvk, hb1, sessionAt, mapDelete, hne]
  · intro sig hsig
    unfold AbortMultipartUpload
    simp [hsig, hvb, hb1, sessionAt, mapDelete, hne]
  · intro data sig
    unfold CompleteMultipartUpload
    simp [hvb, hvk, hb1, sessionAt, mapDelete, hne]

/-- Witness of C9: the session of `demoStore` is aborted. -/
theorem abort_invalidates_uploadID_witness :
    sessionOf (AbortMultipartUpload demoEnv demoStore "bucket" "key" demoID none).2
      "bucket" "key" = none ∧
    partTable (AbortMultipartUpload demoEnv demoStore "bucket" "key" demoID none).2
      "bucket" "key" = none ∧
    (∀ (partID : Int) (contentType expectedMD5Sum : String) (size : Int) (data : Reader)
        (sig : Option Signature) (now : Time),
      CreateObjectPart demoEnv
        (AbortMultipartUpload demoEnv demoStore "bucket" "key" demoID none).2
        "bucket" "key" demoID partID contentType expectedMD5Sum size data sig now =
      (.err (.InvalidUploadID demoID),
        (AbortMultipartUpload demoEnv demoStore "bucket" "key" demoID none).2, data)) ∧
    (∀ (sig : Option Signature), checkSignature sig emptySHA256 = none →
      AbortMultipartUpload demoEnv
        (AbortMultipartUpload demoEnv demoStore "bucket" "key" demoID none).2
        "bucket" "key" demoID sig =
      (.err (.InvalidUploadID demoID),
        (AbortMultipartUpload demoEnv demoStore "bucket" "key" demoID none).2)) ∧
    (∀ (data : Reader) (sig : Option Signature),
      CompleteMultipartUpload demoEnv
        (AbortMultipartUpload demoEnv demoStore "bucket" "key" demoID none).2
        "bucket" "key" demoID data sig =
      { result := .err (.InvalidUploadID demoID)
        donut := (AbortMultipartUpload demoEnv demoStore "bucket" "key" demoID none).2
        events := [.Lock, .Unlock] }) :=
  abort_invalidates_uploadID demoEnv demoStore "bucket" "key" demoID none
    ⟨emptyStore, "", none, 0, 0, 0, by decide⟩ (by decide)


/-! ## Completion: the persistence step -/

theorem cleanup_isSome (donut : API) (bucket key uploadID : String) (sb : storedBucket)
    (hb : donut.storedBuckets bucket = some sb)
    (hc : (donut.multiPartObjects uploadID).isSome = true) :
    ∃ d2, cleanupMultipartSession donut bucket key uploadID = some d2 := by
  obtain ⟨c, hc⟩ := Option.isSome_iff_exists.mp hc
  by_cases htp : (sessionAt sb key).totalParts < 1
  · simp only [cleanupMultipartSession, hb, htp, if_true]
    exact ⟨_, rfl⟩
  · simp only [cleanupMultipartSession, hb, htp, hc, if_false]
    exact ⟨_, rfl⟩

/-- A persistence call in the trace of `CompleteMultipartUpload` means that the call
went through `persistObject` with the arguments recorded in the trace, on a stored
bucket. -/
theorem complete_reaches_persist (env : Env) (donut : API) (bucket key uploadID : String)
    (data : Reader) (signature : Option Signature) (md5sum : String) (size : Int)
    (payload : Bytes)
    (hreach : Event.CreateObject bucket key md5sum size payload ∈
      (CompleteMultipartUpload env donut bucket key uploadID data signature).events) :
    (∃ sb, donut.storedBuckets bucket = some sb) ∧
    md5sum = env.base64StdEncode (env.md5Sum payload) ∧
    ∃ gets, CompleteMultipartUpload env donut bucket key uploadID data signature =
      persistObject env donut bucket key uploadID gets size payload := by
  have hcontent : data.reads.flatten ++ data.last = data.content := rfl
  by_cases hvb : env.IsValidBucket bucket = true
  swap
  · simp [CompleteMultipartUpload, hvb] at hreach
  by_cases hvk : env.IsValidObjectName key = true
  swap
  · simp [CompleteMultipartUpload, hvb, hvk] at hreach
  cases hb : donut.storedBuckets bucket with
  | none => simp [CompleteMultipartUpload, hvb, hvk, hb] at hreach
  | some sb =>
    refine ⟨⟨sb, rfl⟩, ?_⟩
    by_cases hid : (sessionAt sb key).uploadID = uploadID
    swap
    · simp [CompleteMultipartUpload, hvb, hvk, hb, hid] at hreach
    by_cases heof : data.err = .EOF
    swap
    · simp [CompleteMultipartUpload, hvb, hvk, hb, hid, ReadAll, heof] at hreach
    cases hsig : checkSignature signature (EncodeToString (env.sha256Sum data.content)) with
    | some e =>
      simp [CompleteMultipartUpload, hvb, hvk, hb, hid, ReadAll, heof, hsig] at hreach
    | none =>
      cases hxml : env.xmlUnmarshal data.content with
      | none =>
        simp [CompleteMultipartUpload, hvb, hvk, hb, hid, ReadAll, heof, hsig, hxml] at hreach
      | some parts =>
        have hpast := complete_past_checks env donut bucket key uploadID data signature sb
          parts hvb hvk hb hid heof hsig hxml
        cases hs : IsSorted completedParts_Less parts with
        | false =>
          rw [hpast.1 hs] at hreach
          simp at hreach
        | true =>
          have hp := hpast.2 hs
          have hget := assembleParts_events env (donut.multiPartObjects uploadID) uploadID
            parts 0 []
          rcases hres : assembleParts env (donut.multiPartObjects uploadID) uploadID parts 0 []
            with ⟨r, gets⟩
          rw [hres] at hget
          cases r with
          | fault =>
            rw [hp.1 gets hres] at hreach
            have := not_createObject_of_get uploadID hget []
              (by simp) _ (by simpa using Or.inr hreach)
            simp [Event.isCreateObject] at this
          | err e =>
            rw [hp.2.1 e gets hres] at hreach
            have := not_createObject_of_get uploadID hget [Event.Unlock]
              (by intro ev hev; rw [List.mem_singleton.mp hev]; rfl) _ hreach
            simp [Event.isCreateObject] at this
          | ok v =>
            obtain ⟨size1, full⟩ := v
            rw [hp.2.2 size1 full gets hres] at hreach ⊢
            obtain ⟨tail, h1, h2⟩ := persistObject_events env donut bucket key uploadID gets
              size1 full
            rw [h1] at hreach
            simp only [List.cons_append, List.mem_cons, List.mem_append] at hreach
            rcases hreach with h | h | h | h | h
            · cases h
            · obtain ⟨n, hn⟩ := hget _ h
              cases hn
            · cases h
            · simp only [Event.CreateObject.injEq, true_and] at h
              obtain ⟨hm, hsz, hpl⟩ := h
              subst hsz hpl
              exact ⟨hm, gets, rfl⟩
            · rcases h2 _ h with h | h <;> cases h


/-- C10: take a `CompleteMultipartUpload` call on an existing session (its bucket
stored, its part cache present) that reaches the persistence layer, i.e. whose trace
holds a `CreateObject` call, and a `CreateObject` that leaves the multipart
bookkeeping alone.  If `CreateObject` succeeds, the metadata it returned is the result
and the session entry and part-record table of the key are removed.  If it fails,
its error is the result, the state is exactly the one `CreateObject` left, and every
session entry (with its `totalParts`), part record and cached part is as before the
call. -/
theorem complete_after_persist (env : Env) (donut : API) (bucket key uploadID : String)
    (data : Reader) (signature : Option Signature) (md5sum : String) (size : Int)
    (payload : Bytes)
    (hreach : Event.CreateObject bucket key md5sum size payload ∈
      (CompleteMultipartUpload env donut bucket key uploadID data signature).events)
    (hc : (donut.multiPartObjects uploadID).isSome = true)
    (hframe : sameSessions (env.CreateObject donut bucket key md5sum size payload).2 donut) :
    (∀ objectMetadata,
      (env.CreateObject donut bucket key md5sum size payload).1 = .ok objectMetadata →
      (CompleteMultipartUpload env donut bucket key uploadID data signature).result =
        .ok objectMetadata ∧
      sessionOf (CompleteMultipartUpload env donut bucket key uploadID data signature).donut
        bucket key = none ∧
      partTable (CompleteMultipartUpload env donut bucket key uploadID data signature).donut
        bucket key = none) ∧
    (∀ e, (env.CreateObject donut bucket key md5sum size payload).1 = .err e →
      (CompleteMultipartUpload env donut bucket key uploadID data signature).result = .err e ∧
      (CompleteMultipartUpload env donut bucket key uploadID data signature).donut =
        (env.CreateObject donut bucket key md5sum size payload).2 ∧
      sameSessions
        (CompleteMultipartUpload env donut bucket key uploadID data signature).donut donut) := by
  obtain ⟨⟨sb, hb⟩, hm, gets, hpath⟩ := complete_reaches_persist env donut bucket key uploadID
    data signature md5sum size payload hreach
  rw [hpath]
  subst hm
  rcases hcall : env.CreateObject donut bucket key
    (env.base64StdEncode (env.md5Sum payload)) size payload with ⟨r, d1⟩
  rw [hcall] at hframe
  simp only at hframe
  constructor
  · intro objectMetadata hok
    simp only at hok
    subst hok
    have hb1 : ∃ sb1, d1.storedBuckets bucket = some sb1 := by
      have := hframe.2 bucket
      rw [hb] at this
      cases hd : d1.storedBuckets bucket with
      | none => simp [hd] at this
      | some sb1 => exact ⟨sb1, rfl⟩
    obtain ⟨sb1, hb1⟩ := hb1
    obtain ⟨d2, hd2⟩ := cleanup_isSome d1 bucket key uploadID sb1 hb1
      (by rw [hframe.1]; exact hc)
    obtain ⟨sb2, hb2, hst, -⟩ := cleanup_some d1 d2 bucket key uploadID hd2
    simp only [persistObject, hcall, hd2]
    refine ⟨trivial, ?_, ?_⟩
    · simp [sessionOf, hst, mapSet, mapDelete]
    · simp [partTable, hst, mapSet, mapDelete]
  · intro e herr
    simp only at herr
    subst herr
    simp only [persistObject, hcall]
    exact ⟨trivial, trivial, hframe⟩

/-- Witness of C10: the three parts of `demoStore` are completed against a persistence
layer that stores the object. -/
theorem complete_after_persist_witness :
    (∀ objectMetadata,
      (demoEnv.CreateObject demoStore "bucket" "key" "0972" 9
        [97, 97, 97, 98, 98, 98, 99, 99, 99]).1 = .ok objectMetadata →
      (CompleteMultipartUpload demoEnv demoStore "bucket" "key" demoID
        (readerOf [1, 3, 35, 2, 3, 38, 3, 3, 41]) none).result = .ok objectMetadata ∧
      sessionOf (CompleteMultipartUpload demoEnv demoStore "bucket" "key" demoID
        (readerOf [1, 3, 35, 2, 3, 38, 3, 3, 41]) none).donut "bucket" "key" = none ∧
      partTable (CompleteMultipartUpload demoEnv demoStore "bucket" "key" demoID
        (readerOf [1, 3, 35, 2, 3, 38, 3, 3, 41]) none).donut "bucket" "key" = none) ∧
    (∀ e, (demoEnv.CreateObject demoStore "bucket" "key" "0972" 9
        [97, 97, 97, 98, 98, 98, 99, 99, 99]).1 = .err e →
      (CompleteMultipartUpload demoEnv demoStore "bucket" "key" demoID
        (readerOf [1, 3, 35, 2, 3, 38, 3, 3, 41]) none).result = .err e ∧
      (CompleteMultipartUpload demoEnv demoStore "bucket" "key" demoID
        (readerOf [1, 3, 35, 2, 3, 38, 3, 3, 41]) none).donut =
        (demoEnv.CreateObject demoStore "bucket" "key" "0972" 9
          [97, 97, 97, 98, 98, 98, 99, 99, 99]).2 ∧
      sameSessions
        (CompleteMultipartUpload demoEnv demoStore "bucket" "key" demoID
          (readerOf [1, 3, 35, 2, 3, 38, 3, 3, 41]) none).donut demoStore) :=
  complete_after_persist demoEnv demoStore "bucket" "key" demoID
    (readerOf [1, 3, 35, 2, 3, 38, 3, 3, 41]) none "0972" 9
    [97, 97, 97, 98, 98, 98, 99, 99, 99]
    (by decide) (by decide)
    ⟨rfl, fun bucket => by
      by_cases hbk : bucket = "bucket"
      · subst hbk; rfl
      · simp [demoEnv, demoCreateObject, demoStore, mapSet, hbk]⟩


/-- A failing persistence layer on a concrete input: the error of `CreateObject` is
returned, and the session, its three records and its cached parts are still there. -/
theorem complete_persist_failure_example :
    (CompleteMultipartUpload demoEnvFailing demoStore "bucket" "key" demoID
        (readerOf [1, 3, 35, 2, 3, 38, 3, 3, 41]) none).result =
      .err (.other "write failed") ∧
    sessionOf (CompleteMultipartUpload demoEnvFailing demoStore "bucket" "key" demoID
        (readerOf [1, 3, 35, 2, 3, 38, 3, 3, 41]) none).donut "bucket" "key" =
      some { uploadID := demoID, initiated := 0, totalParts := 3 } ∧
    cachedPart (CompleteMultipartUpload demoEnvFailing demoStore "bucket" "key" demoID
        (readerOf [1, 3, 35, 2, 3, 38, 3, 3, 41]) none).donut demoID 2 =
      some [98, 98, 98] := by
  decide




/-! ## Session creation -/

/-- The successful path of `NewMultipartUpload`. -/
theorem NewMultipartUpload_created (env : Env) (donut : API) (bucket key contentType : String)
    (signature : Option Signature) (rand63 : Int) (idTime initiated : Time)
    (sb : storedBucket)
    (hsg : checkSignature signature emptySHA256 = none)
    (hvb : env.IsValidBucket bucket = true) (hvk : env.IsValidObjectName key = true)
    (hb : donut.storedBuckets bucket = some sb)
    (hobj : sb.objectMetadata (bucket ++ "/" ++ key) = none)
    (henc : 47 ≤ (env.base64URLEncode (env.sha512Sum (env.toBytes
      (env.FormatInt rand63 ++ bucket ++ key ++ env.TimeString idTime)))).length) :
    NewMultipartUpload env donut bucket key contentType signature rand63 idTime initiated =
      (.ok (String.mk ((env.base64URLEncode (env.sha512Sum (env.toBytes
          (env.FormatInt rand63 ++ bucket ++ key ++ env.TimeString idTime)))).data.take 47)),
        { storedBuckets := mapSet donut.storedBuckets bucket
            { objectMetadata := sb.objectMetadata
              multiPartSession := mapSet sb.multiPartSession key
                { uploadID := String.mk ((env.base64URLEncode (env.sha512Sum (env.toBytes
                    (env.FormatInt rand63 ++ bucket ++ key ++ env.TimeString idTime)))).data.take
                      47)
                  initiated := initiated, totalParts := 0 }
              partMetadata := mapSet sb.partMetadata key (fun _ => none) }
          multiPartObjects := mapSet donut.multiPartObjects
            (String.mk ((env.base64URLEncode (env.sha512Sum (env.toBytes
              (env.FormatInt rand63 ++ bucket ++ key ++ env.TimeString idTime)))).data.take 47))
            NewCache }) := by
  have hlen : ¬ ((env.base64URLEncode (env.sha512Sum (env.toBytes
      (env.FormatInt rand63 ++ bucket ++ key ++ env.TimeString idTime)))).length < 47) := by
    omega
  simp only [NewMultipartUpload, hsg, hvb, hvk, hb, hobj, hlen, Bool.not_true,
    Bool.false_eq_true, if_false, Option.isSome_none]

theorem checkSignature_none_iff (signature : Option Signature) (hash : String) :
    checkSignature signature hash = none ↔
      (signature = none ∨ ∃ sig, signature = some sig ∧ sig.DoesSignatureMatch hash = .ok true) := by
  unfold checkSignature
  cases signature with
  | none => simp
  | some sig =>
    cases h : sig.DoesSignatureMatch hash with
    | error e => simp [h]
    | ok b => cases b <;> simp [h]

/-- A failing precondition of `NewMultipartUpload`: its error is returned and the
state is untouched. -/
theorem NewMultipartUpload_rejected (env : Env) (donut : API) (bucket key contentType : String)
    (signature : Option Signature) (rand63 : Int) (idTime initiated : Time) (e : Error)
    (h : firstFailedCheck env donut bucket key signature = some e) :
    NewMultipartUpload env donut bucket key contentType signature rand63 idTime initiated =
      (.err e, donut) := by
  have hstore : ∀ (hsg : checkSignature signature emptySHA256 = none)
      (hf : (if env.IsValidBucket bucket = false then some (Error.BucketNameInvalid bucket)
        else if env.IsValidObjectName key = false then some (Error.ObjectNameInvalid key)
        else
          match donut.storedBuckets bucket with
          | none => some (Error.BucketNotFound bucket)
          | some sb =>
            if (sb.objectMetadata (bucket ++ "/" ++ key)).isSome then
              some (Error.ObjectExists key)
            else none) = some e),
      NewMultipartUpload env donut bucket key contentType signature rand63 idTime initiated =
        (.err e, donut) := by
    intro hsg hf
    by_cases hvb : env.IsValidBucket bucket = true
    swap
    · simp only [Bool.not_eq_true] at hvb
      simp only [hvb, if_true, Option.some.injEq] at hf
      subst hf
      simp [NewMultipartUpload, hsg, hvb]
    by_cases hvk : env.IsValidObjectName key = true
    swap
    · simp only [Bool.not_eq_true] at hvk
      simp only [hvb, hvk, if_true, Option.some.injEq, Bool.true_eq_false, if_false] at hf
      subst hf
      simp [NewMultipartUpload, hsg, hvb, hvk]
    cases hb : donut.storedBuckets bucket with
    | none =>
      simp only [hvb, hvk, hb, Bool.true_eq_false, if_false, Option.some.injEq] at hf
      subst hf
      simp [NewMultipartUpload, hsg, hvb, hvk, hb]
    | some sb =>
      cases hobj : sb.objectMetadata (bucket ++ "/" ++ key) with
      | none => simp [hvb, hvk, hb, hobj] at hf
      | some o =>
        simp only [hvb, hvk, hb, hobj, Bool.true_eq_false, if_false, Option.isSome_some,
          if_true, Option.some.injEq] at hf
        subst hf
        simp [NewMultipartUpload, hsg, hvb, hvk, hb, hobj]
  unfold firstFailedCheck at h
  cases signature with
  | none => exact hstore rfl h
  | some sig =>
    cases hm : sig.DoesSignatureMatch emptySHA256 with
    | error e1 =>
      simp only [hm, Option.some.injEq] at h
      subst h
      simp [NewMultipartUpload, checkSignature, hm]
    | ok b =>
      cases b with
      | false =>
        simp only [hm, Option.some.injEq] at h
        subst h
        simp [NewMultipartUpload, checkSignature, hm]
      | true =>
        simp only [hm] at h
        exact hstore (by simp [checkSignature, hm]) h


theorem firstFailedCheck_none_iff (env : Env) (donut : API) (bucket key : String)
    (signature : Option Signature) :
    firstFailedCheck env donut bucket key signature = none ↔
      ((signature = none ∨
          ∃ sig, signature = some sig ∧ sig.DoesSignatureMatch emptySHA256 = .ok true) ∧
        env.IsValidBucket bucket = true ∧ env.IsValidObjectName key = true ∧
        ∃ sb, donut.storedBuckets bucket = some sb ∧
          sb.objectMetadata (bucket ++ "/" ++ key) = none) := by
  have hstore : ((if env.IsValidBucket bucket = false then some (Error.BucketNameInvalid bucket)
        else if env.IsValidObjectName key = false then some (Error.ObjectNameInvalid key)
        else
          match donut.storedBuckets bucket with
          | none => some (Error.BucketNotFound bucket)
          | some sb =>
            if (sb.objectMetadata (bucket ++ "/" ++ key)).isSome then
              some (Error.ObjectExists key)
            else none) = none) ↔
      (env.IsValidBucket bucket = true ∧ env.IsValidObjectName key = true ∧
        ∃ sb, donut.storedBuckets bucket = some sb ∧
          sb.objectMetadata (bucket ++ "/" ++ key) = none) := by
    cases hvb : env.IsValidBucket bucket with
    | false => simp
    | true =>
      cases hvk : env.IsValidObjectName key with
      | false => simp
      | true =>
        cases hb : donut.storedBuckets bucket with
        | none => simp
        | some sb =>
          cases hobj : sb.objectMetadata (bucket ++ "/" ++ key) with
          | none => simp [hobj]
          | some o => simp [hobj]
  unfold firstFailedCheck
  cases signature with
  | none => simpa using hstore
  | some sig =>
    cases hm : sig.DoesSignatureMatch emptySHA256 with
    | error e1 => simp [hm]
    | ok b =>
      cases b with
      | false => simp [hm]
      | true => simpa [hm] using hstore

/-- C11: provided the URL-safe base64 text of the SHA-512 digest has at least the 47
characters the upload id is cut from (it has 88), `NewMultipartUpload` succeeds if
and only if the signature, when present, verifies without error and matches, the
bucket name is valid, the object name is valid, the bucket exists and no finalized
object metadata exists under `bucket/key`; otherwise it returns the error of the
first failing check in that order (`firstFailedCheck`), no upload id, and the state
unchanged, so no session is created.  On success the session of the key has the
returned upload id, `totalParts = 0` and an empty part-record table. -/
theorem NewMultipartUpload_succeeds_iff (env : Env) (donut : API)
    (bucket key contentType : String) (signature : Option Signature) (rand63 : Int)
    (idTime initiated : Time)
    (henc : 47 ≤ (env.base64URLEncode (env.sha512Sum (env.toBytes
      (env.FormatInt rand63 ++ bucket ++ key ++ env.TimeString idTime)))).length) :
    ((∃ uploadID, (NewMultipartUpload env donut bucket key contentType signature rand63
        idTime initiated).1 = .ok uploadID) ↔
      ((signature = none ∨
          ∃ sig, signature = some sig ∧ sig.DoesSignatureMatch emptySHA256 = .ok true) ∧
        env.IsValidBucket bucket = true ∧ env.IsValidObjectName key = true ∧
        ∃ sb, donut.storedBuckets bucket = some sb ∧
          sb.objectMetadata (bucket ++ "/" ++ key) = none)) ∧
    (∀ e, firstFailedCheck env donut bucket key signature = some e →
      NewMultipartUpload env donut bucket key contentType signature rand63 idTime initiated =
        (.err e, donut)) ∧
    ((∀ uploadID, (NewMultipartUpload env donut bucket key contentType signature rand63
        idTime initiated).1 ≠ .ok uploadID) →
      ∃ e, firstFailedCheck env donut bucket key signature = some e) ∧
    (∀ uploadID, (NewMultipartUpload env donut bucket key contentType signature rand63
        idTime initiated).1 = .ok uploadID →
      sessionOf (NewMultipartUpload env donut bucket key contentType signature rand63
          idTime initiated).2 bucket key =
        some { uploadID := uploadID, initiated := initiated, totalParts := 0 } ∧
      partTable (NewMultipartUpload env donut bucket key contentType signature rand63
          idTime initiated).2 bucket key = some (fun _ => none)) := by
  have hrej := NewMultipartUpload_rejected env donut bucket key contentType signature rand63
    idTime initiated
  have hiff := firstFailedCheck_none_iff env donut bucket key signature
  have hpass : firstFailedCheck env donut bucket key signature = none →
      ∃ sb, donut.storedBuckets bucket = some sb ∧
        NewMultipartUpload env donut bucket key contentType signature rand63 idTime initiated =
        (.ok (String.mk ((env.base64URLEncode (env.sha512Sum (env.toBytes
            (env.FormatInt rand63 ++ bucket ++ key ++ env.TimeString idTime)))).data.take 47)),
          { storedBuckets := mapSet donut.storedBuckets bucket
              { objectMetadata := sb.objectMetadata
                multiPartSession := mapSet sb.multiPartSession key
                  { uploadID := String.mk ((env.base64URLEncode (env.sha512Sum (env.toBytes
                      (env.FormatInt rand63 ++ bucket ++ key ++
                        env.TimeString idTime)))).data.take 47)
                    initiated := initiated, totalParts := 0 }
                partMetadata := mapSet sb.partMetadata key (fun _ => none) }
            multiPartObjects := mapSet donut.multiPartObjects
              (String.mk ((env.base64URLEncode (env.sha512Sum (env.toBytes
                (env.FormatInt rand63 ++ bucket ++ key ++ env.TimeString idTime)))).data.take
                  47))
              NewCache }) := by
    intro hnone
    obtain ⟨hsig, hvb, hvk, sb, hb, hobj⟩ := hiff.mp hnone
    exact ⟨sb, hb, NewMultipartUpload_created env donut bucket key contentType signature
      rand63 idTime initiated sb ((checkSignature_none_iff _ _).mpr hsig) hvb hvk hb hobj henc⟩
  refine ⟨⟨?_, ?_⟩, hrej, ?_, ?_⟩
  · rintro ⟨uploadID, hok⟩
    cases hf : firstFailedCheck env donut bucket key signature with
    | none => exact hiff.mp hf
    | some e =>
      rw [hrej e hf] at hok
      cases hok
  · intro hc
    obtain ⟨sb, -, heq⟩ := hpass (hiff.mpr hc)
    exact ⟨_, by rw [heq]⟩
  · intro hno
    cases hf : firstFailedCheck env donut bucket key signature with
    | none =>
      obtain ⟨sb, -, heq⟩ := hpass hf
      exact absurd (by rw [heq]) (hno _)
    | some e => exact ⟨e, rfl⟩
  · intro uploadID hok
    cases hf : firstFailedCheck env donut bucket key signature with
    | some e =>
      rw [hrej e hf] at hok
      cases hok
    | none =>
      obtain ⟨sb, hb, heq⟩ := hpass hf
      rw [heq] at hok ⊢
      simp only [Res.ok.injEq] at hok
      subst hok
      constructor
      · simp [sessionOf, mapSet]
      · simp [partTable, mapSet]

/-- Witness of C11: a first upload for `bucket/key` in the empty store. -/
theorem NewMultipartUpload_succeeds_iff_witness :
    (NewMultipartUpload demoEnv emptyStore "bucket" "key" "" none 0 0 0).1 = .ok demoID ∧
    sessionOf (NewMultipartUpload demoEnv emptyStore "bucket" "key" "" none 0 0 0).2
        "bucket" "key" = some { uploadID := demoID, initiated := 0, totalParts := 0 } ∧
    partTable (NewMultipartUpload demoEnv emptyStore "bucket" "key" "" none 0 0 0).2
        "bucket" "key" = some (fun _ => none) :=
  ⟨by decide,
    (NewMultipartUpload_succeeds_iff demoEnv emptyStore "bucket" "key" "" none 0 0 0
      (by decide)).2.2.2 demoID (by decide)⟩


/-- C12: for a bucket/key that already has an active session (possibly with parts
ingested), a second `NewMultipartUpload` for the same key whose preconditions hold
(signature absent or verified, valid names, no finalized object under the key)
succeeds and returns an upload id `u2`; afterwards the one session entry of the key
has upload id `u2` and `totalParts = 0`, the key has no part record, and when `u2`
differs from the old upload id every `CreateObjectPart` with the old id fails with
`InvalidUploadID` and leaves the state unchanged. -/
theorem second_NewMultipartUpload_replaces_session (env : Env) (donut : API)
    (bucket key contentType : String) (signature : Option Signature) (rand63 : Int)
    (idTime initiated : Time) (old : MultiPartSession)
    (hsess : sessionOf donut bucket key = some old)
    (hvb : env.IsValidBucket bucket = true) (hvk : env.IsValidObjectName key = true)
    (hsg : checkSignature signature emptySHA256 = none)
    (hobj : ∀ sb, donut.storedBuckets bucket = some sb →
      sb.objectMetadata (bucket ++ "/" ++ key) = none)
    (henc : 47 ≤ (env.base64URLEncode (env.sha512Sum (env.toBytes
      (env.FormatInt rand63 ++ bucket ++ key ++ env.TimeString idTime)))).length) :
    ∃ u2, (NewMultipartUpload env donut bucket key contentType signature rand63 idTime
        initiated).1 = .ok u2 ∧
      sessionOf (NewMultipartUpload env donut bucket key contentType signature rand63 idTime
        initiated).2 bucket key =
          some { uploadID := u2, initiated := initiated, totalParts := 0 } ∧
      (∀ n, partRecord (NewMultipartUpload env donut bucket key contentType signature rand63
        idTime initiated).2 bucket key n = none) ∧
      (u2 ≠ old.uploadID →
        ∀ (partID : Int) (contentType1 expectedMD5Sum : String) (size : Int) (data : Reader)
          (sig : Option Signature) (now : Time),
        CreateObjectPart env
          (NewMultipartUpload env donut bucket key contentType signature rand63 idTime
            initiated).2
          bucket key old.uploadID partID contentType1 expectedMD5Sum size data sig now =
        (.err (.InvalidUploadID old.uploadID),
          (NewMultipartUpload env donut bucket key contentType signature rand63 idTime
            initiated).2, data)) := by
  obtain ⟨sb, hb, -, -⟩ := sessionOf_some hsess
  rw [NewMultipartUpload_created env donut bucket key contentType signature rand63 idTime
    initiated sb hsg hvb hvk hb (hobj sb hb) henc]
  refine ⟨_, rfl, ?_, ?_, ?_⟩
  · simp [sessionOf, mapSet]
  · intro n
    simp [partRecord, partTable, mapSet]
  · intro hne partID contentType1 expectedMD5Sum size data sig now
    unfold CreateObjectPart createObjectPart
    simp [hvb, hvk, mapSet, sessionAt, hne]

/-- Witness of C12: the session of `demoStore`, with its three parts, is replaced by
a session with another upload id. -/
theorem second_NewMultipartUpload_replaces_session_witness :
    ∃ u2, (NewMultipartUpload demoEnvSecond demoStore "bucket" "key" "" none 0 0 7).1 =
        .ok u2 ∧
      sessionOf (NewMultipartUpload demoEnvSecond demoStore "bucket" "key" "" none 0 0 7).2
        "bucket" "key" = some { uploadID := u2, initiated := 7, totalParts := 0 } ∧
      (∀ n, partRecord (NewMultipartUpload demoEnvSecond demoStore "bucket" "key" "" none
        0 0 7).2 "bucket" "key" n = none) ∧
      (u2 ≠ demoID →
        ∀ (partID : Int) (contentType1 expectedMD5Sum : String) (size : Int) (data : Reader)
          (sig : Option Signature) (now : Time),
        CreateObjectPart demoEnvSecond
          (NewMultipartUpload demoEnvSecond demoStore "bucket" "key" "" none 0 0 7).2
          "bucket" "key" demoID partID contentType1 expectedMD5Sum size data sig now =
        (.err (.InvalidUploadID demoID),
          (NewMultipartUpload demoEnvSecond demoStore "bucket" "key" "" none 0 0 7).2, data)) :=
  second_NewMultipartUpload_replaces_session demoEnvSecond demoStore "bucket" "key" "" none
    0 0 7 { uploadID := demoID, initiated := 0, totalParts := 3 }
    (by decide) (by decide) (by decide) rfl
    (fun sb hsb => by
      have : sb = { objectMetadata := fun _ => none
                    multiPartSession := fun k =>
                      if k = "key" then
                        some { uploadID := demoID, initiated := 0, totalParts := 3 }
                      else none
                    partMetadata := fun k =>
                      if k = "key" then
                        some fun n =>
                          if n = 1 then
                            some { PartNumber := 1, LastModified := 0, ETag := "0323", Size := 3 }
                          else if n = 2 then
                            some { PartNumber := 2, LastModified := 0, ETag := "0326", Size := 3 }
                          else if n = 3 then
                            some { PartNumber := 3, LastModified := 0, ETag := "0329", Size := 3 }
                          else none
                      else none } := by
        have h2 : demoStore.storedBuckets "bucket" = some _ := rfl
        rw [h2] at hsb
        exact (Option.some.inj hsb).symm
      rw [this])
    (by decide)


/-! ## Listing uploads -/

/-- C13 at its failing input: twelve sessions `obj0 .. obj11`, `MaxUploads = 5`, no
prefix and no markers.  When the session table is enumerated in lexicographic order
the page holds six uploads, `obj0, obj1, obj10, obj11, obj2, obj3`, and the markers
are those of `obj4`; when it is enumerated in the opposite order the page holds
`obj4 .. obj9` and the markers are those of `obj3`. -/
theorem ListMultipartUploads_page_follows_enumeration :
    ListMultipartUploads demoEnv twelveUploads "bucket" firstFive none twelveKeys =
      .ok { firstFive with
            IsTruncated := true, NextKeyMarker := "obj4", NextUploadIDMarker := "id-obj4"
            Upload := [uploadOf "obj0", uploadOf "obj1", uploadOf "obj10", uploadOf "obj11",
                       uploadOf "obj2", uploadOf "obj3"] } ∧
    ListMultipartUploads demoEnv twelveUploads "bucket" firstFive none twelveKeys.reverse =
      .ok { firstFive with
            IsTruncated := true, NextKeyMarker := "obj3", NextUploadIDMarker := "id-obj3"
            Upload := [uploadOf "obj4", uploadOf "obj5", uploadOf "obj6", uploadOf "obj7",
                       uploadOf "obj8", uploadOf "obj9"] } := by
  decide


theorem listUploads_cons_none (resources : BucketMultipartResourcesMetadata)
    (sessions : String → Option MultiPartSession) (key : String) (rest : List String)
    (uploads : List UploadMetadata) (h : sessions key = none) :
    listUploads resources sessions (key :: rest) uploads =
      listUploads resources sessions rest uploads := by
  simp only [listUploads, h]

theorem listUploads_cons_skip (resources : BucketMultipartResourcesMetadata)
    (sessions : String → Option MultiPartSession) (key : String) (rest : List String)
    (uploads : List UploadMetadata) (session : MultiPartSession)
    (h : sessions key = some session) (hp : HasPrefix key resources.Prefix = false) :
    listUploads resources sessions (key :: rest) uploads =
      listUploads resources sessions rest uploads := by
  simp [listUploads, h, hp]

theorem listUploads_cons_cut (resources : BucketMultipartResourcesMetadata)
    (sessions : String → Option MultiPartSession) (key : String) (rest : List String)
    (uploads : List UploadMetadata) (session : MultiPartSession)
    (h : sessions key = some session) (hp : HasPrefix key resources.Prefix = true)
    (hfull : (uploads.length : Int) > resources.MaxUploads) :
    listUploads resources sessions (key :: rest) uploads =
      { resources with
        Upload := sort_Sort byKey_Less uploads
        NextKeyMarker := key
        NextUploadIDMarker := session.uploadID
        IsTruncated := true } := by
  simp [listUploads, h, hp, hfull]

theorem listUploads_cons_take (resources : BucketMultipartResourcesMetadata)
    (sessions : String → Option MultiPartSession) (key : String) (rest : List String)
    (uploads : List UploadMetadata) (session : MultiPartSession)
    (h : sessions key = some session) (hp : HasPrefix key resources.Prefix = true)
    (hroom : ¬ (uploads.length : Int) > resources.MaxUploads) :
    listUploads resources sessions (key :: rest) uploads =
      listUploads resources sessions rest
        (uploads ++ if markerRule resources key session.uploadID then
          [{ Key := key, UploadID := session.uploadID, Initiated := session.initiated }]
          else []) := by
  unfold markerRule
  by_cases hk : resources.KeyMarker = ""
  · simp [listUploads, h, hp, hroom, hk]
  · by_cases hu : resources.UploadIDMarker = ""
    · by_cases h1 : strLess resources.KeyMarker key = true
      · simp [listUploads, h, hp, hroom, hk, hu, h1]
      · simp [listUploads, h, hp, hroom, hk, hu, h1]
    · by_cases h1 : strLess resources.UploadIDMarker session.uploadID = true
      · by_cases h2 : strLess key resources.KeyMarker = true
        · simp [listUploads, h, hp, hroom, hk, hu, h1, h2]
        · simp [listUploads, h, hp, hroom, hk, hu, h1, h2]
      · simp [listUploads, h, hp, hroom, hk, hu, h1]


theorem mem_sort_Sort {α : Type} (less : α → α → Bool) (l : List α) (a : α) :
    a ∈ sort_Sort less l ↔ a ∈ l :=
  (List.perm_insertionSort _ l).mem_iff

theorem listedEntry_take (resources : BucketMultipartResourcesMetadata)
    (sessions : String → Option MultiPartSession) (key : String) (session : MultiPartSession)
    (h : sessions key = some session) (hp : HasPrefix key resources.Prefix = true) :
    listedEntry resources sessions key =
      if markerRule resources key session.uploadID then
        some { Key := key, UploadID := session.uploadID, Initiated := session.initiated }
      else none := by
  simp [listedEntry, h, hp]

/-- Every upload in the result of the loop was collected from a session whose key
has the prefix and satisfies the marker rule. -/
theorem listUploads_sound (resources : BucketMultipartResourcesMetadata)
    (sessions : String → Option MultiPartSession) :
    ∀ (order : List String) (uploads : List UploadMetadata),
      (∀ u ∈ uploads, ∃ key, listedEntry resources sessions key = some u) →
      ∀ u ∈ (listUploads resources sessions order uploads).Upload,
        ∃ key, listedEntry resources sessions key = some u := by
  intro order
  induction order with
  | nil =>
    intro uploads h u hu
    simp only [listUploads] at hu
    exact h u ((mem_sort_Sort _ _ _).mp hu)
  | cons key rest ih =>
    intro uploads h u hu
    cases hs : sessions key with
    | none =>
      rw [listUploads_cons_none _ _ _ _ _ hs] at hu
      exact ih uploads h u hu
    | some session =>
      cases hp : HasPrefix key resources.Prefix with
      | false =>
        rw [listUploads_cons_skip _ _ _ _ _ session hs hp] at hu
        exact ih uploads h u hu
      | true =>
        by_cases hfull : (uploads.length : Int) > resources.MaxUploads
        · rw [listUploads_cons_cut _ _ _ _ _ session hs hp hfull] at hu
          exact h u ((mem_sort_Sort _ _ _).mp hu)
        · rw [listUploads_cons_take _ _ _ _ _ session hs hp hfull] at hu
          refine ih _ ?_ u hu
          intro v hv
          rcases List.mem_append.mp hv with hv | hv
          · exact h v hv
          · by_cases hm : markerRule resources key session.uploadID = true
            · simp only [hm, if_true, List.mem_singleton] at hv
              exact ⟨key, by rw [listedEntry_take _ _ _ session hs hp, hm, hv]; rfl⟩
            · simp [hm] at hv

/-- A result that is not marked truncated holds every session whose key has the
prefix and satisfies the marker rule, in ascending key order. -/
theorem listUploads_complete (resources : BucketMultipartResourcesMetadata)
    (sessions : String → Option MultiPartSession) :
    ∀ (order : List String) (uploads : List UploadMetadata),
      (listUploads resources sessions order uploads).IsTruncated = false →
      (listUploads resources sessions order uploads).Upload =
        sort_Sort byKey_Less (uploads ++ order.filterMap (listedEntry resources sessions)) := by
  intro order
  induction order with
  | nil =>
    intro uploads _
    simp [listUploads]
  | cons key rest ih =>
    intro uploads ht
    cases hs : sessions key with
    | none =>
      rw [listUploads_cons_none _ _ _ _ _ hs] at ht ⊢
      rw [ih uploads ht]
      simp [List.filterMap_cons, listedEntry, hs]
    | some session =>
      cases hp : HasPrefix key resources.Prefix with
      | false =>
        rw [listUploads_cons_skip _ _ _ _ _ session hs hp] at ht ⊢
        rw [ih uploads ht]
        simp [List.filterMap_cons, listedEntry, hs, hp]
      | true =>
        by_cases hfull : (uploads.length : Int) > resources.MaxUploads
        · rw [listUploads_cons_cut _ _ _ _ _ session hs hp hfull] at ht
          simp at ht
        · rw [listUploads_cons_take _ _ _ _ _ session hs hp hfull] at ht ⊢
          rw [ih _ ht]
          by_cases hm : markerRule resources key session.uploadID = true
          · simp [List.filterMap_cons, listedEntry_take _ _ _ session hs hp, hm]
          · simp [List.filterMap_cons, listedEntry_take _ _ _ session hs hp, hm]


theorem listedEntry_some (resources : BucketMultipartResourcesMetadata)
    (sessions : String → Option MultiPartSession) (key : String) (u : UploadMetadata)
    (h : listedEntry resources sessions key = some u) :
    ∃ session, sessions key = some session ∧
      u = { Key := key, UploadID := session.uploadID, Initiated := session.initiated } ∧
      HasPrefix key resources.Prefix = true ∧
      markerRule resources key session.uploadID = true := by
  unfold listedEntry at h
  cases hs : sessions key with
  | none => simp [hs] at h
  | some session =>
    simp only [hs] at h
    by_cases hq : (HasPrefix key resources.Prefix && markerRule resources key session.uploadID)
      = true
    · simp only [hq, if_true, Option.some.injEq] at h
      simp only [Bool.and_eq_true] at hq
      exact ⟨session, rfl, h.symm, hq.1, hq.2⟩
    · simp [hq] at h

/-- A request that is not itself marked truncated, on a table with no more qualifying
sessions than `MaxUploads`, is answered with a page that is not marked truncated. -/
theorem listUploads_untruncated (resources : BucketMultipartResourcesMetadata)
    (sessions : String → Option MultiPartSession) (hreq : resources.IsTruncated = false) :
    ∀ (order : List String) (uploads : List UploadMetadata),
      (((uploads ++ order.filterMap (listedEntry resources sessions)).length : Nat) : Int) ≤
        resources.MaxUploads →
      (listUploads resources sessions order uploads).IsTruncated = false := by
  intro order
  induction order with
  | nil =>
    intro uploads _
    simp [listUploads, hreq]
  | cons key rest ih =>
    intro uploads hlen
    cases hs : sessions key with
    | none =>
      rw [listUploads_cons_none _ _ _ _ _ hs]
      apply ih
      simpa [List.filterMap_cons, listedEntry, hs] using hlen
    | some session =>
      cases hp : HasPrefix key resources.Prefix with
      | false =>
        rw [listUploads_cons_skip _ _ _ _ _ session hs hp]
        apply ih
        simpa [List.filterMap_cons, listedEntry, hs, hp] using hlen
      | true =>
        have hroom : ¬ (uploads.length : Int) > resources.MaxUploads := by
          simp only [List.length_append, Nat.cast_add] at hlen
          omega
        rw [listUploads_cons_take _ _ _ _ _ session hs hp hroom]
        apply ih
        by_cases hm : markerRule resources key session.uploadID = true
        · simpa [List.filterMap_cons, listedEntry_take _ _ _ session hs hp, hm] using hlen
        · simpa [List.filterMap_cons, listedEntry_take _ _ _ session hs hp, hm] using hlen

/-- C14: with a signature that is absent or verified and a stored bucket,
`ListMultipartUploads` returns a page, for every prefix, marker pair and enumeration
order of the session table.  Every upload of the page is a session of that bucket whose
key has the prefix and satisfies the marker rule (`markerRule`), and carries that
session's key, upload id and initiation time.  When the enumeration lists every key of
the table once and the page is not marked truncated, every session that has the prefix
and satisfies the marker rule is returned exactly once.  And the page is not marked
truncated when the request is not and no more than `MaxUploads` enumerated sessions
qualify: it then holds the qualifying sessions, sorted by key. -/
theorem ListMultipartUploads_lists_qualifying_sessions (env : Env) (donut : API)
    (bucket : String) (resources : BucketMultipartResourcesMetadata)
    (signature : Option Signature) (order : List String) (sb : storedBucket)
    (hsg : checkSignature signature emptySHA256 = none)
    (hb : donut.storedBuckets bucket = some sb) :
    ∃ res, ListMultipartUploads env donut bucket resources signature order = .ok res ∧
    (∀ u ∈ res.Upload, ∃ session, sessionOf donut bucket u.Key = some session ∧
      u.UploadID = session.uploadID ∧ u.Initiated = session.initiated ∧
      HasPrefix u.Key resources.Prefix = true ∧
      markerRule resources u.Key session.uploadID = true) ∧
    (order.Nodup → (∀ k, k ∈ order ↔ (sessionOf donut bucket k).isSome = true) →
      res.IsTruncated = false →
      ∀ key session, sessionOf donut bucket key = some session →
        HasPrefix key resources.Prefix = true →
        markerRule resources key session.uploadID = true →
        res.Upload.count
          { Key := key, UploadID := session.uploadID, Initiated := session.initiated } = 1) ∧
    (resources.IsTruncated = false →
      (((order.filterMap (listedEntry resources (sessionOf donut bucket))).length : Nat) : Int)
        ≤ resources.MaxUploads →
      res.IsTruncated = false ∧
      res.Upload =
        sort_Sort byKey_Less (order.filterMap (listedEntry resources (sessionOf donut bucket))))
    := by
  have hso : ∀ k, sessionOf donut bucket k = sb.multiPartSession k := by
    intro k; simp [sessionOf, hb]
  have hfun : sessionOf donut bucket = sb.multiPartSession := funext hso
  refine ⟨listUploads resources sb.multiPartSession order [], ?_, ?_, ?_, ?_⟩
  · simp [ListMultipartUploads, hsg, hb]
  · intro u hu
    obtain ⟨key, hkey⟩ := listUploads_sound resources sb.multiPartSession order []
      (by simp) u hu
    obtain ⟨session, hs, hu2, hp, hm⟩ := listedEntry_some _ _ _ _ hkey
    subst hu2
    exact ⟨session, by rw [hso]; exact hs, rfl, rfl, hp, hm⟩
  · intro hnd hcover ht key session hs hp hm
    rw [listUploads_complete resources sb.multiPartSession order [] ht]
    unfold sort_Sort
    rw [(List.perm_insertionSort _ _).count_eq]
    simp only [List.nil_append]
    apply List.count_eq_one_of_mem
    · apply List.Nodup.filterMap _ hnd
      intro a a' b hba hba'
      obtain ⟨_, _, h1, _, _⟩ := listedEntry_some _ _ _ _ (Option.mem_def.mp hba)
      obtain ⟨_, _, h2, _, _⟩ := listedEntry_some _ _ _ _ (Option.mem_def.mp hba')
      have := congrArg UploadMetadata.Key (h1.symm.trans h2)
      simpa using this
    · rw [List.mem_filterMap]
      refine ⟨key, (hcover key).mpr (by rw [hs]; rfl), ?_⟩
      rw [hso] at hs
      rw [listedEntry_take _ _ _ session hs hp, hm]
      rfl
  · intro hreq hfew
    rw [hfun] at hfew ⊢
    have ht := listUploads_untruncated resources sb.multiPartSession hreq order []
      (by simpa using hfew)
    refine ⟨ht, ?_⟩
    rw [listUploads_complete resources sb.multiPartSession order [] ht]
    simp

theorem twelveUploads_sessions (k : String) :
    sessionOf twelveUploads "bucket" k =
      if k ∈ twelveKeys then some { uploadID := "id-" ++ k, initiated := 0, totalParts := 0 }
      else none := by
  simp [sessionOf, twelveUploads]

/-- Witness of C14: the twelve sessions of `twelveUploads`, enumerated in descending key
order, fit into one page of at most twenty uploads; the page is not marked truncated,
holds the twelve uploads in ascending key order, and each of them once. -/
theorem ListMultipartUploads_lists_qualifying_sessions_witness :
    ∃ res, ListMultipartUploads demoEnv twelveUploads "bucket" firstTwenty none
        twelveKeys.reverse = .ok res ∧
      res.IsTruncated = false ∧
      res.Upload = twelveKeys.map uploadOf ∧
      (∀ k ∈ twelveKeys, res.Upload.count (uploadOf k) = 1) ∧
      ∀ u ∈ res.Upload, ∃ session, sessionOf twelveUploads "bucket" u.Key = some session ∧
        u.UploadID = session.uploadID ∧ u.Initiated = session.initiated := by
  obtain ⟨res, hres, hsound, hcomplete, hpage⟩ :=
    ListMultipartUploads_lists_qualifying_sessions demoEnv twelveUploads "bucket"
      firstTwenty none twelveKeys.reverse
      { objectMetadata := fun _ => none
        multiPartSession := fun k =>
          if k ∈ twelveKeys then
            some { uploadID := "id-" ++ k, initiated := 0, totalParts := 0 }
          else none
        partMetadata := fun k => if k ∈ twelveKeys then some (fun _ => none) else none }
      rfl rfl
  obtain ⟨htrunc, hupload⟩ := hpage rfl (by decide)
  have hlist : res.Upload = twelveKeys.map uploadOf := by
    rw [hupload]
    decide
  refine ⟨res, hres, htrunc, hlist, ?_, ?_⟩
  · intro k hk
    have hs := twelveUploads_sessions k
    rw [if_pos hk] at hs
    exact hcomplete (by decide)
      (fun k2 => by
        rw [twelveUploads_sessions k2]
        by_cases h2 : k2 ∈ twelveKeys
        · simp [h2]
        · simp [h2])
      htrunc k _ hs (by simp [HasPrefix, firstTwenty]) (by simp [markerRule, firstTwenty])
  · intro u hu
    obtain ⟨session, h1, h2, h3, _, _⟩ := hsound u hu
    exact ⟨session, h1, h2, h3⟩


/-! ## Listing parts -/

/-- The loop of `ListObjectParts` when every number it visits has a record: with
room for `room` more parts before the cut test fires, it either appends all
`remaining` records, or appends `room` of them and cuts the page. -/
theorem listParts_run (resources : ObjectResourcesMetadata)
    (storedParts : Int → Option PartMetadata) :
    ∀ (remaining : Nat) (i : Int) (parts : List PartMetadata),
      (∀ d : Nat, d < remaining → (storedParts (i + d)).isSome = true) →
      listParts resources storedParts remaining i parts =
        if remaining ≤ (resources.MaxParts + 1 - (parts.length : Int)).toNat then
          .ok { resources with
                Part := sort_Sort partNumber_Less (parts ++ recordsFrom storedParts i remaining) }
        else
          .ok { resources with
                IsTruncated := true
                Part := sort_Sort partNumber_Less (parts ++ recordsFrom storedParts i
                  (resources.MaxParts + 1 - (parts.length : Int)).toNat)
                NextPartNumberMarker :=
                  i + ((resources.MaxParts + 1 - (parts.length : Int)).toNat : Int) } := by
  intro remaining
  induction remaining with
  | zero =>
    intro i parts _
    simp [listParts, recordsFrom]
  | succ r ih =>
    intro i parts hrec
    by_cases hfull : (parts.length : Int) > resources.MaxParts
    · have hroom : (resources.MaxParts + 1 - (parts.length : Int)).toNat = 0 := by omega
      simp [listParts, hfull, hroom, recordsFrom]
    · have h0 := hrec 0 (Nat.succ_pos r)
      simp only [Nat.cast_zero, add_zero] at h0
      obtain ⟨part, hpart⟩ := Option.isSome_iff_exists.mp h0
      have hrec' : ∀ d : Nat, d < r → (storedParts (i + 1 + d)).isSome = true := by
        intro d hd
        have := hrec (d + 1) (Nat.succ_lt_succ hd)
        have e : i + ((d + 1 : Nat) : Int) = i + 1 + (d : Int) := by push_cast; ring
        rwa [e] at this
      simp only [listParts, hfull, if_false, hpart]
      rw [ih (i + 1) (parts ++ [part]) hrec']
      have hlen : (((parts ++ [part]).length : Nat) : Int) = (parts.length : Int) + 1 := by
        simp
      rw [hlen]
      have hroom : (resources.MaxParts + 1 - (parts.length : Int)).toNat =
          (resources.MaxParts + 1 - ((parts.length : Int) + 1)).toNat + 1 := by omega
      rw [hroom]
      by_cases hle : r ≤ (resources.MaxParts + 1 - ((parts.length : Int) + 1)).toNat
      · rw [if_pos hle, if_pos (Nat.succ_le_succ hle)]
        simp only [recordsFrom, hpart, List.append_assoc, List.singleton_append]
      · rw [if_neg hle, if_neg (by omega)]
        have hnext : i + 1 + (((resources.MaxParts + 1 - ((parts.length : Int) + 1)).toNat : Nat)
            : Int) = i + (((resources.MaxParts + 1 - ((parts.length : Int) + 1)).toNat + 1 : Nat)
            : Int) := by
          push_cast
          ring
        rw [hnext]
        simp only [recordsFrom, hpart, List.append_assoc, List.singleton_append]


/-- C15 at its failing input: the session of `demoStore` has the parts 1, 2, 3.
With marker 0 and `MaxParts = 1` the page holds two parts (1 and 2) and the marker
of part 3; with `MaxParts = 2`, although three parts exist, the page holds all three
and is not marked truncated. -/
theorem ListObjectParts_page_exceeds_maxParts :
    ListObjectParts demoEnv demoStore "bucket" "key" (partsRequest 0 1) none =
      .ok { partsRequest 0 1 with
            Bucket := "bucket", Key := "key", IsTruncated := true, NextPartNumberMarker := 3
            Part := [{ PartNumber := 1, LastModified := 0, ETag := "0323", Size := 3 },
                     { PartNumber := 2, LastModified := 0, ETag := "0326", Size := 3 }] } ∧
    ListObjectParts demoEnv demoStore "bucket" "key" (partsRequest 0 2) none =
      .ok { partsRequest 0 2 with
            Bucket := "bucket", Key := "key", IsTruncated := false
            Part := [{ PartNumber := 1, LastModified := 0, ETag := "0323", Size := 3 },
                     { PartNumber := 2, LastModified := 0, ETag := "0326", Size := 3 },
                     { PartNumber := 3, LastModified := 0, ETag := "0329", Size := 3 }] } := by
  decide

/-- Once the request has passed the checks of `ListObjectParts`, the call is the
loop over the part numbers from the start number to `totalParts`. -/
theorem ListObjectParts_loop (env : Env) (donut : API) (bucket key : String)
    (resources : ObjectResourcesMetadata) (signature : Option Signature)
    (sess : MultiPartSession)
    (hsg : checkSignature signature emptySHA256 = none)
    (hsess : sessionOf donut bucket key = some sess)
    (hid : sess.uploadID = resources.UploadID) :
    ListObjectParts env donut bucket key resources signature =
      listParts { resources with Bucket := bucket, Key := key } (partRecord donut bucket key)
        (sess.totalParts - startPartNumber resources.PartNumberMarker + 1).toNat
        (startPartNumber resources.PartNumberMarker) [] := by
  obtain ⟨sb, hb, hs, -⟩ := sessionOf_some hsess
  have hpr : (fun i => (sb.partMetadata key).bind fun m => m i) = partRecord donut bucket key := by
    funext i
    simp [partRecord, partTable, hb]
  unfold ListObjectParts
  simp only [hsg, hb, hs, hid, ne_eq, not_true_eq_false, if_false, hpr, startPartNumber]


theorem recordsFrom_bounds (storedParts : Int → Option PartMetadata)
    (hnum : ∀ i p, storedParts i = some p → p.PartNumber = i) :
    ∀ (count : Nat) (first : Int), ∀ p ∈ recordsFrom storedParts first count,
      first ≤ p.PartNumber ∧ p.PartNumber < first + (count : Int) := by
  intro count
  induction count with
  | zero => intro first p hp; simp [recordsFrom] at hp
  | succ c ih =>
    intro first p hp
    simp only [recordsFrom, List.mem_append] at hp
    rcases hp with hp | hp
    · cases hs : storedParts first with
      | none => simp [hs] at hp
      | some q =>
        simp only [hs, List.mem_singleton] at hp
        subst hp
        have := hnum first p hs
        push_cast
        omega
    · have := ih (first + 1) p hp
      push_cast
      omega

/-- Records taken in the order of their numbers are already sorted. -/
theorem sort_recordsFrom (storedParts : Int → Option PartMetadata)
    (hnum : ∀ i p, storedParts i = some p → p.PartNumber = i) :
    ∀ (count : Nat) (first : Int),
      sort_Sort partNumber_Less (recordsFrom storedParts first count) =
        recordsFrom storedParts first count := by
  intro count first
  unfold sort_Sort
  apply List.Sorted.insertionSort_eq
  induction count generalizing first with
  | zero => simp [recordsFrom]
  | succ c ih =>
    simp only [recordsFrom]
    cases hs : storedParts first with
    | none => simpa using ih (first + 1)
    | some q =>
      simp only [List.singleton_append, List.sorted_cons]
      refine ⟨?_, ih (first + 1)⟩
      intro p hp
      have h1 := hnum first q hs
      have h2 := recordsFrom_bounds storedParts hnum c (first + 1) p hp
      simp only [partNumber_Less, decide_eq_false_iff_not, not_lt]
      omega

theorem recordsFrom_append (storedParts : Int → Option PartMetadata) :
    ∀ (a b : Nat) (first : Int),
      recordsFrom storedParts first a ++ recordsFrom storedParts (first + (a : Int)) b =
        recordsFrom storedParts first (a + b) := by
  intro a
  induction a with
  | zero => intro b first; simp [recordsFrom]
  | succ a ih =>
    intro b first
    have e : first + ((a + 1 : Nat) : Int) = first + 1 + (a : Int) := by push_cast; ring
    rw [e, Nat.add_right_comm a 1 b]
    simp only [recordsFrom, List.append_assoc]
    rw [ih b (first + 1)]

/-- The page `ListObjectParts` returns for a session with the parts `1..n` when the
listing starts at a number not below 1. -/
theorem ListObjectParts_page (env : Env) (donut : API) (bucket key : String)
    (resources : ObjectResourcesMetadata) (signature : Option Signature) (n : Int)
    (hsg : checkSignature signature emptySHA256 = none)
    (hparts : contiguousParts donut bucket key resources.UploadID n)
    (hstart : 1 ≤ startPartNumber resources.PartNumberMarker) :
    ListObjectParts env donut bucket key resources signature =
      if (n - startPartNumber resources.PartNumberMarker + 1).toNat ≤
          (resources.MaxParts + 1).toNat then
        .ok { resources with
              Bucket := bucket, Key := key
              Part := recordsFrom (partRecord donut bucket key)
                (startPartNumber resources.PartNumberMarker)
                (n - startPartNumber resources.PartNumberMarker + 1).toNat }
      else
        .ok { resources with
              Bucket := bucket, Key := key, IsTruncated := true
              Part := recordsFrom (partRecord donut bucket key)
                (startPartNumber resources.PartNumberMarker) (resources.MaxParts + 1).toNat
              NextPartNumberMarker := startPartNumber resources.PartNumberMarker +
                ((resources.MaxParts + 1).toNat : Int) } := by
  obtain ⟨⟨sess, hsess, hid, htp⟩, hrec⟩ := hparts
  have hnum : ∀ i p, partRecord donut bucket key i = some p → p.PartNumber = i :=
    fun i p h => (hrec i).2 p h
  rw [ListObjectParts_loop env donut bucket key resources signature sess hsg hsess hid, htp]
  rw [listParts_run]
  · simp only [List.length_nil, Nat.cast_zero, sub_zero, List.nil_append,
      sort_recordsFrom _ hnum]
  · intro d hd
    apply ((hrec _).1).mpr
    omega


theorem startPartNumber_of_nonneg (m : Int) (h : 0 ≤ m) : startPartNumber m = max m 1 := by
  unfold startPartNumber
  by_cases h0 : m = 0
  · simp [h0]
  · rw [if_neg h0, max_eq_left (by omega)]

/-- A negative marker: the loop starts below 1, where no record is stored. -/
theorem ListObjectParts_negative_marker (env : Env) (donut : API) (bucket key : String)
    (resources : ObjectResourcesMetadata) (signature : Option Signature) (n : Int)
    (hsg : checkSignature signature emptySHA256 = none)
    (hparts : contiguousParts donut bucket key resources.UploadID n)
    (hmax : 0 ≤ resources.MaxParts) (hneg : resources.PartNumberMarker < 0) :
    ListObjectParts env donut bucket key resources signature =
      if n < resources.PartNumberMarker then
        .ok { resources with Bucket := bucket, Key := key, Part := [] }
      else .err .InvalidPart := by
  obtain ⟨⟨sess, hsess, hid, htp⟩, hrec⟩ := hparts
  have hst : startPartNumber resources.PartNumberMarker = resources.PartNumberMarker := by
    unfold startPartNumber
    rw [if_neg (by omega)]
  rw [ListObjectParts_loop env donut bucket key resources signature sess hsg hsess hid, htp,
    hst]
  by_cases hlt : n < resources.PartNumberMarker
  · have h0 : (n - resources.PartNumberMarker + 1).toNat = 0 := by omega
    rw [h0, if_pos hlt]
    simp [listParts, sort_Sort]
  · obtain ⟨r, hr⟩ : ∃ r, (n - resources.PartNumberMarker + 1).toNat = r + 1 :=
      ⟨(n - resources.PartNumberMarker + 1).toNat - 1, by omega⟩
    have hnone : partRecord donut bucket key resources.PartNumberMarker = none := by
      cases hp : partRecord donut bucket key resources.PartNumberMarker with
      | none => rfl
      | some p =>
        have := ((hrec resources.PartNumberMarker).1).mp (by rw [hp]; rfl)
        omega
    rw [hr, if_neg hlt]
    have hroom : ¬ ((0 : Int) > resources.MaxParts) := by omega
    simp [listParts, hroom, hnone]

/-- Following the markers from a start number not below 1 collects the records of
all numbers from there to `n`, in ascending order, once `pages` suffices. -/
theorem listAllParts_from (env : Env) (donut : API) (bucket key : String)
    (resources : ObjectResourcesMetadata) (signature : Option Signature) (n : Int)
    (hsg : checkSignature signature emptySHA256 = none)
    (hparts : contiguousParts donut bucket key resources.UploadID n)
    (hmax : 0 ≤ resources.MaxParts) (hfresh : resources.IsTruncated = false) :
    ∀ (r : Nat) (marker : Int), 1 ≤ startPartNumber marker →
      (n - startPartNumber marker + 1).toNat = r →
      ∀ pages : Nat, r + 1 ≤ pages →
        listAllParts env donut bucket key resources signature pages marker =
          some (.ok (recordsFrom (partRecord donut bucket key) (startPartNumber marker) r)) := by
  intro r
  induction r using Nat.strong_induction_on with
  | _ r ih =>
    intro marker hstart hr pages hpages
    obtain ⟨f, rfl⟩ : ∃ f, pages = f + 1 := ⟨pages - 1, by omega⟩
    have hpage := ListObjectParts_page env donut bucket key
      { resources with PartNumberMarker := marker } signature n hsg hparts hstart
    simp only at hpage
    rw [hr] at hpage
    unfold listAllParts
    rw [hpage]
    by_cases hle : r ≤ (resources.MaxParts + 1).toNat
    · rw [if_pos hle]
      simp [hfresh]
    · rw [if_neg hle]
      simp only [if_true]
      have hroom : 1 ≤ (resources.MaxParts + 1).toNat := by omega
      have hnext : startPartNumber
          (startPartNumber marker + ((resources.MaxParts + 1).toNat : Int)) =
          startPartNumber marker + ((resources.MaxParts + 1).toNat : Int) := by
        unfold startPartNumber
        rw [if_neg]
        have := hstart
        unfold startPartNumber at this
        omega
      have hrest := ih (r - (resources.MaxParts + 1).toNat) (by omega)
        (startPartNumber marker + ((resources.MaxParts + 1).toNat : Int))
        (by rw [hnext]; omega) (by rw [hnext]; omega) f (by omega)
      rw [hrest, hnext]
      simp only
      rw [recordsFrom_append]
      congr 3
      omega


theorem recordsFrom_head (storedParts : Int → Option PartMetadata) (first : Int) (count : Nat)
    (hcount : 1 ≤ count) (p : PartMetadata) (hp : storedParts first = some p) :
    (recordsFrom storedParts first count).head? = some p := by
  obtain ⟨c, rfl⟩ : ∃ c, count = c + 1 := ⟨count - 1, by omega⟩
  simp [recordsFrom, hp]

/-- The numbers of the records of consecutive recorded part numbers. -/
theorem recordsFrom_numbers (storedParts : Int → Option PartMetadata)
    (hnum : ∀ i p, storedParts i = some p → p.PartNumber = i) :
    ∀ (count : Nat) (first : Int),
      (∀ d : Nat, d < count → (storedParts (first + d)).isSome = true) →
      (recordsFrom storedParts first count).map (fun p => p.PartNumber) =
        (List.range count).map (fun d : Nat => first + (d : Int)) := by
  intro count
  induction count with
  | zero => intro first _; simp [recordsFrom]
  | succ c ih =>
    intro first hrec
    have h0 := hrec 0 (Nat.succ_pos c)
    simp only [Nat.cast_zero, add_zero] at h0
    obtain ⟨p, hp⟩ := Option.isSome_iff_exists.mp h0
    have hrec' : ∀ d : Nat, d < c → (storedParts (first + 1 + d)).isSome = true := by
      intro d hd
      have := hrec (d + 1) (Nat.succ_lt_succ hd)
      have e : first + ((d + 1 : Nat) : Int) = first + 1 + (d : Int) := by push_cast; ring
      rwa [e] at this
    rw [List.range_succ_eq_map]
    simp only [recordsFrom, hp, List.singleton_append, List.map_cons, ih (first + 1) hrec',
      List.map_map, Nat.cast_zero, add_zero, hnum first p hp, List.cons.injEq, true_and]
    apply List.map_congr_left
    intro d _
    simp only [Function.comp_apply]
    push_cast
    ring


/-- C16: for a session whose recorded part numbers are exactly `1..n` (with
`totalParts = n`), a request with `MaxParts ≥ 0` that is not itself marked truncated,
and a signature that is absent or verified: if `ListObjectParts` with marker `m`
returns a truncated page with `NextPartNumberMarker = j`, then `max(m,1) < j ≤ n`, the
page consists exactly of the records numbered `max(m,1) .. j-1` in ascending order,
and the follow-up call with marker `j` returns a page whose first part is part `j`;
and whenever the first call returns a page, following the markers until a page that
is not truncated yields (for every number of allowed calls above `n`) exactly the
records numbered `max(m,1) .. n`, each once, in ascending order. -/
theorem ListObjectParts_markers_resume (env : Env) (donut : API) (bucket key : String)
    (resources : ObjectResourcesMetadata) (signature : Option Signature) (n : Int)
    (hsg : checkSignature signature emptySHA256 = none)
    (hparts : contiguousParts donut bucket key resources.UploadID n)
    (hmax : 0 ≤ resources.MaxParts) (hfresh : resources.IsTruncated = false) :
    (∀ page, ListObjectParts env donut bucket key resources signature = .ok page →
      page.IsTruncated = true →
      max resources.PartNumberMarker 1 < page.NextPartNumberMarker ∧
      page.NextPartNumberMarker ≤ n ∧
      page.Part = recordsFrom (partRecord donut bucket key) (max resources.PartNumberMarker 1)
        (page.NextPartNumberMarker - max resources.PartNumberMarker 1).toNat ∧
      page.Part.map (fun p => p.PartNumber) =
        (List.range (page.NextPartNumberMarker - max resources.PartNumberMarker 1).toNat).map
          (fun d : Nat => max resources.PartNumberMarker 1 + (d : Int)) ∧
      ∃ next part, ListObjectParts env donut bucket key
          { resources with PartNumberMarker := page.NextPartNumberMarker } signature =
            .ok next ∧
        partRecord donut bucket key page.NextPartNumberMarker = some part ∧
        next.Part.head? = some part) ∧
    (∀ page, ListObjectParts env donut bucket key resources signature = .ok page →
      ∀ pages : Nat, n.toNat + 1 ≤ pages →
        listAllParts env donut bucket key resources signature pages
            resources.PartNumberMarker =
          some (.ok (recordsFrom (partRecord donut bucket key)
            (max resources.PartNumberMarker 1)
            (n - max resources.PartNumberMarker 1 + 1).toNat)) ∧
        (recordsFrom (partRecord donut bucket key) (max resources.PartNumberMarker 1)
            (n - max resources.PartNumberMarker 1 + 1).toNat).map (fun p => p.PartNumber) =
          (List.range (n - max resources.PartNumberMarker 1 + 1).toNat).map
            (fun d : Nat => max resources.PartNumberMarker 1 + (d : Int))) := by
  have hrec := hparts.2
  have hnum : ∀ i p, partRecord donut bucket key i = some p → p.PartNumber = i :=
    fun i p h => (hrec i).2 p h
  have hsome : ∀ i, 1 ≤ i → i ≤ n → (partRecord donut bucket key i).isSome = true :=
    fun i h1 h2 => ((hrec i).1).mpr ⟨h1, h2⟩
  have hmaxge : 1 ≤ max resources.PartNumberMarker 1 := le_max_right _ _
  by_cases hneg : resources.PartNumberMarker < 0
  · -- a negative marker yields an error or an empty, non-truncated page
    have hcall := ListObjectParts_negative_marker env donut bucket key resources signature n
      hsg hparts hmax hneg
    constructor
    · intro page hpage htr
      rw [hcall] at hpage
      by_cases hlt : n < resources.PartNumberMarker
      · rw [if_pos hlt] at hpage
        simp only [Res.ok.injEq] at hpage
        rw [← hpage] at htr
        simp only at htr
        rw [hfresh] at htr
        cases htr
      · rw [if_neg hlt] at hpage
        cases hpage
    · intro page hpage pages hpages
      rw [hcall] at hpage
      by_cases hlt : n < resources.PartNumberMarker
      · have hcount : (n - max resources.PartNumberMarker 1 + 1).toNat = 0 := by omega
        obtain ⟨f, rfl⟩ : ∃ f, pages = f + 1 := ⟨pages - 1, by omega⟩
        rw [hcount]
        constructor
        · unfold listAllParts
          rw [hcall, if_pos hlt]
          simp [hfresh, recordsFrom]
        · simp [recordsFrom]
      · rw [if_neg hlt] at hpage
        cases hpage
  · have hm : 0 ≤ resources.PartNumberMarker := by omega
    have hst := startPartNumber_of_nonneg resources.PartNumberMarker hm
    have hcall := ListObjectParts_page env donut bucket key resources signature n hsg hparts
      (by rw [hst]; exact hmaxge)
    rw [hst] at hcall
    have hroom : 1 ≤ (resources.MaxParts + 1).toNat := by omega
    constructor
    · intro page hpage htr
      rw [hcall] at hpage
      by_cases hle : (n - max resources.PartNumberMarker 1 + 1).toNat ≤
          (resources.MaxParts + 1).toNat
      · rw [if_pos hle] at hpage
        simp only [Res.ok.injEq] at hpage
        rw [← hpage] at htr
        simp only at htr
        rw [hfresh] at htr
        cases htr
      · rw [if_neg hle] at hpage
        simp only [Res.ok.injEq] at hpage
        subst hpage
        simp only
        have hj : (max resources.PartNumberMarker 1 +
            ((resources.MaxParts + 1).toNat : Int) - max resources.PartNumberMarker 1).toNat =
            (resources.MaxParts + 1).toNat := by omega
        rw [hj]
        refine ⟨by omega, by omega, rfl, ?_, ?_⟩
        · apply recordsFrom_numbers _ hnum
          intro d hd
          apply hsome <;> omega
        · have hjne : startPartNumber (max resources.PartNumberMarker 1 +
              ((resources.MaxParts + 1).toNat : Int)) =
              max resources.PartNumberMarker 1 + ((resources.MaxParts + 1).toNat : Int) := by
            unfold startPartNumber
            rw [if_neg (by omega)]
          have hnext := ListObjectParts_page env donut bucket key
            { resources with PartNumberMarker := max resources.PartNumberMarker 1 +
                ((resources.MaxParts + 1).toNat : Int) } signature n hsg hparts
            (by simp only; rw [hjne]; omega)
          simp only at hnext
          rw [hjne] at hnext
          obtain ⟨part, hpart⟩ := Option.isSome_iff_exists.mp
            (hsome (max resources.PartNumberMarker 1 + ((resources.MaxParts + 1).toNat : Int))
              (by omega) (by omega))
          by_cases hle2 : (n - (max resources.PartNumberMarker 1 +
              ((resources.MaxParts + 1).toNat : Int)) + 1).toNat ≤ (resources.MaxParts + 1).toNat
          · rw [if_pos hle2] at hnext
            exact ⟨_, part, hnext, hpart, recordsFrom_head _ _ _ (by omega) part hpart⟩
          · rw [if_neg hle2] at hnext
            exact ⟨_, part, hnext, hpart, recordsFrom_head _ _ _ hroom part hpart⟩
    · intro page _ pages hpages
      constructor
      · have := listAllParts_from env donut bucket key resources signature n hsg hparts hmax
          hfresh (n - max resources.PartNumberMarker 1 + 1).toNat resources.PartNumberMarker
          (by rw [hst]; exact hmaxge) (by rw [hst]) pages (by omega)
        rw [this, hst]
      · apply recordsFrom_numbers _ hnum
        intro d hd
        apply hsome <;> omega


/-- The session of `demoStore` has exactly the parts 1, 2, 3. -/
theorem demoStore_contiguous : contiguousParts demoStore "bucket" "key" demoID 3 := by
  refine ⟨⟨{ uploadID := demoID, initiated := 0, totalParts := 3 }, by decide, rfl, rfl⟩, ?_⟩
  intro i
  have hrec : partRecord demoStore "bucket" "key" i =
      if i = 1 then some { PartNumber := 1, LastModified := 0, ETag := "0323", Size := 3 }
      else if i = 2 then some { PartNumber := 2, LastModified := 0, ETag := "0326", Size := 3 }
      else if i = 3 then some { PartNumber := 3, LastModified := 0, ETag := "0329", Size := 3 }
      else none := rfl
  rw [hrec]
  by_cases h1 : i = 1
  · subst h1; simp
  · by_cases h2 : i = 2
    · subst h2; simp
    · by_cases h3 : i = 3
      · subst h3; simp
      · simp only [h1, h2, h3, if_false, Option.isSome_none, Bool.false_eq_true, false_iff,
          not_and, not_le]
        constructor
        · intro h; omega
        · intro p hp; cases hp

/-- Witness of C16: the parts 1, 2, 3 of `demoStore` listed with `MaxParts = 1`
from marker 0; following the markers yields the three records in order. -/
theorem ListObjectParts_markers_resume_witness :
    listAllParts demoEnv demoStore "bucket" "key" (partsRequest 0 1) none 4 0 =
      some (.ok (recordsFrom (partRecord demoStore "bucket" "key") (max (0 : Int) 1)
        ((3 : Int) - max (0 : Int) 1 + 1).toNat)) ∧
    (recordsFrom (partRecord demoStore "bucket" "key") (max (0 : Int) 1)
        ((3 : Int) - max (0 : Int) 1 + 1).toNat).map (fun p => p.PartNumber) =
      (List.range ((3 : Int) - max (0 : Int) 1 + 1).toNat).map (fun d : Nat => max (0 : Int) 1 + (d : Int)) :=
  (ListObjectParts_markers_resume demoEnv demoStore "bucket" "key" (partsRequest 0 1) none 3
    rfl demoStore_contiguous (by decide) rfl).2 _ rfl 4 (by decide)


/-- The loop of `ListObjectParts` reaching a number without record before the page
is cut. -/
theorem listParts_gap (resources : ObjectResourcesMetadata)
    (storedParts : Int → Option PartMetadata) :
    ∀ (g remaining : Nat) (i : Int) (parts : List PartMetadata),
      g < remaining → storedParts (i + g) = none →
      (∀ d : Nat, d < g → (storedParts (i + d)).isSome = true) →
      (parts.length : Int) + g ≤ resources.MaxParts →
      listParts resources storedParts remaining i parts = .err .InvalidPart := by
  intro g
  induction g with
  | zero =>
    intro remaining i parts hg hnone _ hroom
    obtain ⟨r, rfl⟩ : ∃ r, remaining = r + 1 := ⟨remaining - 1, by omega⟩
    simp only [Nat.cast_zero, add_zero] at hnone hroom
    have hfull : ¬ ((parts.length : Int) > resources.MaxParts) := by omega
    simp [listParts, hfull, hnone]
  | succ g ih =>
    intro remaining i parts hg hnone hrec hroom
    obtain ⟨r, rfl⟩ : ∃ r, remaining = r + 1 := ⟨remaining - 1, by omega⟩
    have hfull : ¬ ((parts.length : Int) > resources.MaxParts) := by push_cast at hroom; omega
    have h0 := hrec 0 (Nat.succ_pos g)
    simp only [Nat.cast_zero, add_zero] at h0
    obtain ⟨part, hpart⟩ := Option.isSome_iff_exists.mp h0
    simp only [listParts, hfull, if_false, hpart]
    apply ih r (i + 1) (parts ++ [part]) (by omega)
    · have e : i + 1 + (g : Int) = i + ((g + 1 : Nat) : Int) := by push_cast; ring
      rw [e]; exact hnone
    · intro d hd
      have := hrec (d + 1) (Nat.succ_lt_succ hd)
      have e : i + ((d + 1 : Nat) : Int) = i + 1 + (d : Int) := by push_cast; ring
      rwa [e] at this
    · push_cast at hroom ⊢
      simp only [List.length_append, List.length_singleton, Nat.cast_add, Nat.cast_one]
      omega


/-- C19: on a request that passes the checks of `ListObjectParts` (signature absent
or verified, session present, upload id matching): whenever the loop reaches a
number `i` between the start number and `totalParts` that has no part record before
the page is cut (all numbers before it are recorded and `i - start ≤ MaxParts`), the
call returns `InvalidPart` and no listing.  In particular, when the session counts
as many parts as it has records but the recorded numbers are not exactly
`1..totalParts`, the call with marker 0 and `MaxParts ≥ totalParts` returns
`InvalidPart`. -/
theorem ListObjectParts_gap_is_InvalidPart (env : Env) (donut : API) (bucket key : String)
    (resources : ObjectResourcesMetadata) (signature : Option Signature)
    (sess : MultiPartSession)
    (hsg : checkSignature signature emptySHA256 = none)
    (hsess : sessionOf donut bucket key = some sess)
    (hid : sess.uploadID = resources.UploadID) :
    (∀ i, startPartNumber resources.PartNumberMarker ≤ i → i ≤ sess.totalParts →
      partRecord donut bucket key i = none →
      (∀ j, startPartNumber resources.PartNumberMarker ≤ j → j < i →
        (partRecord donut bucket key j).isSome = true) →
      i - startPartNumber resources.PartNumberMarker ≤ resources.MaxParts →
      ListObjectParts env donut bucket key resources signature = .err .InvalidPart) ∧
    (∀ S : Finset Int, (∀ i, i ∈ S ↔ (partRecord donut bucket key i).isSome = true) →
      (S.card : Int) = sess.totalParts → S ≠ Finset.Icc 1 sess.totalParts →
      resources.PartNumberMarker = 0 → sess.totalParts ≤ resources.MaxParts →
      ListObjectParts env donut bucket key resources signature = .err .InvalidPart) := by
  have hgen : ∀ i, startPartNumber resources.PartNumberMarker ≤ i → i ≤ sess.totalParts →
      partRecord donut bucket key i = none →
      (∀ j, startPartNumber resources.PartNumberMarker ≤ j → j < i →
        (partRecord donut bucket key j).isSome = true) →
      i - startPartNumber resources.PartNumberMarker ≤ resources.MaxParts →
      ListObjectParts env donut bucket key resources signature = .err .InvalidPart := by
    intro i hlo hhi hnone hbefore hroom
    rw [ListObjectParts_loop env donut bucket key resources signature sess hsg hsess hid]
    apply listParts_gap _ _ (i - startPartNumber resources.PartNumberMarker).toNat
    · omega
    · have e : startPartNumber resources.PartNumberMarker +
          (((i - startPartNumber resources.PartNumberMarker).toNat : Nat) : Int) = i := by omega
      rw [e]; exact hnone
    · intro d hd
      apply hbefore <;> omega
    · simp only [List.length_nil, Nat.cast_zero, zero_add]
      omega
  refine ⟨hgen, ?_⟩
  intro S hS hcard hne hmarker hmax
  have hstart : startPartNumber resources.PartNumberMarker = 1 := by
    simp [startPartNumber, hmarker]
  have hG : ((Finset.Icc 1 sess.totalParts).filter (fun i => i ∉ S)).Nonempty := by
    by_contra hempty
    rw [Finset.not_nonempty_iff_eq_empty, Finset.filter_eq_empty_iff] at hempty
    have hsub : Finset.Icc 1 sess.totalParts ⊆ S := by
      intro x hx
      have := hempty hx
      simpa using this
    have hc : S.card ≤ (Finset.Icc 1 sess.totalParts).card := by
      rw [Int.card_Icc]
      omega
    exact hne (Finset.eq_of_subset_of_card_le hsub hc).symm
  have hmem := Finset.min'_mem _ hG
  rw [Finset.mem_filter, Finset.mem_Icc] at hmem
  obtain ⟨⟨h1, h2⟩, hnot⟩ := hmem
  apply hgen _ (by rw [hstart]; exact h1) h2
  · cases hp : partRecord donut bucket key
        (((Finset.Icc 1 sess.totalParts).filter (fun i => i ∉ S)).min' hG) with
    | none => rfl
    | some p => exact absurd ((hS _).mpr (by rw [hp]; rfl)) hnot
  · intro j hj1 hj2
    rw [hstart] at hj1
    by_contra hjn
    have hjS : j ∉ S := fun h => hjn ((hS j).mp h)
    have hjG : j ∈ (Finset.Icc 1 sess.totalParts).filter (fun i => i ∉ S) := by
      rw [Finset.mem_filter, Finset.mem_Icc]
      exact ⟨⟨hj1, by omega⟩, hjS⟩
    have := Finset.min'_le _ j hjG
    omega
  · rw [hstart]
    omega

/-- Witness of C19: the session of `gapStore` counts two parts, recorded under 1
and 3; listing from marker 0 with `MaxParts = 2` returns `InvalidPart`. -/
theorem ListObjectParts_gap_is_InvalidPart_witness :
    ListObjectParts demoEnv gapStore "bucket" "key" (partsRequest 0 2) none =
      .err .InvalidPart :=
  (ListObjectParts_gap_is_InvalidPart demoEnv gapStore "bucket" "key" (partsRequest 0 2) none
    { uploadID := demoID, initiated := 0, totalParts := 2 } rfl (by decide) rfl).2
    {1, 3}
    (by
      intro i
      have hrec : partRecord gapStore "bucket" "key" i =
          if i = 1 then some { PartNumber := 1, LastModified := 0, ETag := "0323", Size := 3 }
          else if i = 3 then
            some { PartNumber := 3, LastModified := 0, ETag := "0329", Size := 3 }
          else none := rfl
      rw [hrec]
      by_cases h1 : i = 1
      · subst h1; simp
      · by_cases h3 : i = 3
        · subst h3; simp
        · simp [h1, h3])
    (by decide) (by decide) rfl (by decide)


/-! ## Calls for a key without a session -/

/-- C18 at its failing input: the bucket of `emptyStore` exists and `"key"` has no
session.  With the empty upload id `AbortMultipartUpload` returns without error, and
`CompleteMultipartUpload` with a well-formed manifest of zero parts calls the
persistence layer with an empty payload and returns the metadata of the object it
created. -/
theorem empty_uploadID_passes_without_session :
    sessionOf emptyStore "bucket" "key" = none ∧
    (AbortMultipartUpload demoEnv emptyStore "bucket" "key" "" none).1 = .ok () ∧
    (CompleteMultipartUpload demoEnv emptyStore "bucket" "key" "" (readerOf []) none).result =
      .ok { Bucket := "bucket", Object := "key", Created := 0, Md5 := "0000", Size := 0 } ∧
    (CompleteMultipartUpload demoEnv emptyStore "bucket" "key" "" (readerOf []) none).events =
      [.Lock, .Unlock, .CreateObject "bucket" "key" "0000" 0 [], .Lock, .Unlock] := by
  decide

/-- What C18 says does hold for every upload id other than the empty one: for a
stored bucket and a key without session, `AbortMultipartUpload` (signature absent or
verified, valid bucket name) and `CompleteMultipartUpload` (valid names) fail with
`InvalidUploadID`, the latter without calling the persistence layer. -/
theorem no_session_rejects_nonempty_uploadID (env : Env) (donut : API)
    (bucket key uploadID : String) (sb : storedBucket)
    (hvb : env.IsValidBucket bucket = true) (hvk : env.IsValidObjectName key = true)
    (hb : donut.storedBuckets bucket = some sb) (hno : sb.multiPartSession key = none)
    (hne : uploadID ≠ "") :
    (∀ sig, checkSignature sig emptySHA256 = none →
      AbortMultipartUpload env donut bucket key uploadID sig =
        (.err (.InvalidUploadID uploadID), donut)) ∧
    (∀ data sig, CompleteMultipartUpload env donut bucket key uploadID data sig =
      { result := .err (.InvalidUploadID uploadID), donut := donut,
        events := [.Lock, .Unlock] }) := by
  have hne2 : ¬ ("" = uploadID) := fun h => hne h.symm
  constructor
  · intro sig hsig
    simp [AbortMultipartUpload, hsig, hvb, hb, sessionAt, hno, hne2]
  · intro data sig
    simp [CompleteMultipartUpload, hvb, hvk, hb, sessionAt, hno, hne2]


/-! ## Error returns leave the tables alone -/

theorem sameTables_of_storedBuckets {a b : API} (h : a.storedBuckets = b.storedBuckets) :
    sameTables a b := by
  intro bucket
  rw [h]

/-- An error return of `createObjectPart` leaves the bucket table as it was. -/
theorem createObjectPart_err_storedBuckets (env : Env) (donut : API)
    (bucket key uploadID : String) (partID : Int) (contentType expectedMD5Sum : String)
    (size : Int) (data : Reader) (signature : Option Signature) (now : Time) (e : Error)
    (h : (createObjectPart env donut bucket key uploadID partID contentType expectedMD5Sum
      size data signature now).1 = .err e) :
    (createObjectPart env donut bucket key uploadID partID contentType expectedMD5Sum
      size data signature now).2.1.storedBuckets = donut.storedBuckets := by
  have hcontent : data.reads.flatten ++ data.last = data.content := rfl
  by_cases hvb : env.IsValidBucket bucket = true
  swap
  · simp [createObjectPart, hvb]
  by_cases hvk : env.IsValidObjectName key = true
  swap
  · simp [createObjectPart, hvb, hvk]
  cases hb : donut.storedBuckets bucket with
  | none => simp [createObjectPart, hvb, hvk, hb]
  | some sb =>
    by_cases hid : (sessionAt sb key).uploadID = uploadID
    swap
    · simp [createObjectPart, hvb, hvk, hb, hid]
    cases hrec : (sb.partMetadata key).bind (fun m => m partID) with
    | some record =>
      rw [createObjectPart_stored env donut bucket key uploadID partID contentType
        expectedMD5Sum size data signature now sb record hvb hvk hb hid hrec]
    | none =>
      cases hex : expectedHex env expectedMD5Sum with
      | none => simp [createObjectPart, hvb, hvk, hb, hid, hrec, hex]
      | some ex =>
        cases hc : donut.multiPartObjects uploadID with
        | none => simp [createObjectPart, hvb, hvk, hb, hid, hrec, hex, hc]
        | some c =>
          by_cases hsz : ((data.content.length : Nat) : Int) = size
          swap
          · simp [createObjectPart, hvb, hvk, hb, hid, hrec, hex, hc, readLoop_spec,
              hcontent, hsz]
          by_cases heof : data.err = .EOF
          swap
          · simp [createObjectPart, hvb, hvk, hb, hid, hrec, hex, hc, readLoop_spec,
              hcontent, hsz, heof]
          by_cases hdg : TrimSpace ex ≠ "" ∧
            (isMD5SumEqual (TrimSpace ex) (EncodeToString (env.md5Sum data.content))).isSome
              = true
          · have h1 := hdg.1
            have h2 := hdg.2
            simp [createObjectPart, hvb, hvk, hb, hid, hrec, hex, hc, readLoop_spec,
              hcontent, hsz, heof, h1, h2]
          have hdg2 : TrimSpace ex = "" ∨
              isMD5SumEqual (TrimSpace ex) (EncodeToString (env.md5Sum data.content))
                = none := by
            by_cases hne : TrimSpace ex = ""
            · exact Or.inl hne
            · right
              cases hq : isMD5SumEqual (TrimSpace ex)
                  (EncodeToString (env.md5Sum data.content)) with
              | none => rfl
              | some e2 => exact absurd ⟨hne, by simp [hq]⟩ hdg
          cases hsg : checkSignature signature
              (EncodeToString (env.sha256Sum data.content)) with
          | some e1 =>
            rcases hdg2 with hd | hd
            · simp [createObjectPart, hvb, hvk, hb, hid, hrec, hex, hc, readLoop_spec,
                hcontent, hsz, heof, hd, hsg]
            · simp [createObjectPart, hvb, hvk, hb, hid, hrec, hex, hc, readLoop_spec,
                hcontent, hsz, heof, hd, hsg]
          | none =>
            cases hparts : sb.partMetadata key with
            | none =>
              rcases hdg2 with hd | hd
              · simp [createObjectPart, hvb, hvk, hb, hid, hrec, hex, hc, readLoop_spec,
                  hcontent, hsz, heof, hd, hsg, hparts]
              · simp [createObjectPart, hvb, hvk, hb, hid, hrec, hex, hc, readLoop_spec,
                  hcontent, hsz, heof, hd, hsg, hparts]
            | some parts =>
              have hrec2 : parts partID = none := by simpa [hparts] using hrec
              rw [createObjectPart_fresh env donut bucket key uploadID partID contentType
                expectedMD5Sum size data signature now sb ex c parts hvb hvk hb hid hparts
                hrec2 hex hc hsz heof hdg hsg] at h
              cases h

/-- Every run of `CompleteMultipartUpload` has one of four shapes: an error before the
part loop, a fault in the loop, an error in the loop (the state untouched in all
three), or the tail `persistObject` entered after a loop of cache fetches. -/
theorem complete_shape (env : Env) (donut : API) (bucket key uploadID : String)
    (data : Reader) (signature : Option Signature) :
    (∃ e, CompleteMultipartUpload env donut bucket key uploadID data signature =
      ⟨.err e, donut, [.Lock, .Unlock]⟩) ∨
    (∃ gets, (∀ ev ∈ gets, ∃ n, ev = Event.Get uploadID n) ∧
      CompleteMultipartUpload env donut bucket key uploadID data signature =
        ⟨.fault, donut, .Lock :: gets⟩) ∨
    (∃ e gets, (∀ ev ∈ gets, ∃ n, ev = Event.Get uploadID n) ∧
      CompleteMultipartUpload env donut bucket key uploadID data signature =
        ⟨.err e, donut, .Lock :: gets ++ [.Unlock]⟩) ∨
    (∃ gets size fullObject, (∀ ev ∈ gets, ∃ n, ev = Event.Get uploadID n) ∧
      CompleteMultipartUpload env donut bucket key uploadID data signature =
        persistObject env donut bucket key uploadID gets size fullObject) := by
  by_cases hvb : env.IsValidBucket bucket = true
  swap
  · exact Or.inl ⟨_, by simp [CompleteMultipartUpload, hvb]; rfl⟩
  by_cases hvk : env.IsValidObjectName key = true
  swap
  · exact Or.inl ⟨_, by simp [CompleteMultipartUpload, hvb, hvk]; rfl⟩
  cases hb : donut.storedBuckets bucket with
  | none => exact Or.inl ⟨_, by simp [CompleteMultipartUpload, hvb, hvk, hb]; rfl⟩
  | some sb =>
    by_cases hid : (sessionAt sb key).uploadID = uploadID
    swap
    · exact Or.inl ⟨_, by simp [CompleteMultipartUpload, hvb, hvk, hb, hid]; rfl⟩
    by_cases heof : data.err = .EOF
    swap
    · exact Or.inl ⟨_, by simp [CompleteMultipartUpload, hvb, hvk, hb, hid, ReadAll, heof]; rfl⟩
    cases hsig : checkSignature signature (EncodeToString (env.sha256Sum data.content)) with
    | some e =>
      exact Or.inl ⟨_, by simp [CompleteMultipartUpload, hvb, hvk, hb, hid, ReadAll, heof, hsig]; rfl⟩
    | none =>
      cases hxml : env.xmlUnmarshal data.content with
      | none =>
        exact Or.inl ⟨_, by
          simp [CompleteMultipartUpload, hvb, hvk, hb, hid, ReadAll, heof, hsig, hxml]; rfl⟩
      | some parts =>
        have hpast := complete_past_checks env donut bucket key uploadID data signature sb
          parts hvb hvk hb hid heof hsig hxml
        cases hs : IsSorted completedParts_Less parts with
        | false => exact Or.inl ⟨_, hpast.1 hs⟩
        | true =>
          obtain ⟨hfault, herr, hok⟩ := hpast.2 hs
          have hev := assembleParts_events env (donut.multiPartObjects uploadID) uploadID
            parts 0 []
          cases ha : assembleParts env (donut.multiPartObjects uploadID) uploadID parts 0 []
            with
          | mk r gets =>
            rw [ha] at hev
            cases r with
            | fault => exact Or.inr (Or.inl ⟨gets, hev, hfault gets ha⟩)
            | err e => exact Or.inr (Or.inr (Or.inl ⟨e, gets, hev, herr e gets ha⟩))
            | ok v =>
              obtain ⟨size, fullObject⟩ := v
              exact Or.inr (Or.inr (Or.inr ⟨gets, size, fullObject, hev,
                hok size fullObject gets ha⟩))

theorem sameTables_refl (a : API) : sameTables a a := fun _ => rfl

/-- An error result of `persistObject` is the error of the persistence layer, and
the state returned is the one the persistence layer returned. -/
theorem persistObject_err (env : Env) (donut : API) (bucket key uploadID : String)
    (gets : List Event) (size : Int) (fullObject : Bytes) (e : Error)
    (h : (persistObject env donut bucket key uploadID gets size fullObject).result = .err e) :
    (env.CreateObject donut bucket key (env.base64StdEncode (env.md5Sum fullObject)) size
      fullObject).1 = .err e ∧
    (persistObject env donut bucket key uploadID gets size fullObject).donut =
      (env.CreateObject donut bucket key (env.base64StdEncode (env.md5Sum fullObject)) size
        fullObject).2 := by
  cases hc : env.CreateObject donut bucket key (env.base64StdEncode (env.md5Sum fullObject))
    size fullObject with
  | mk r donut1 =>
    cases r with
    | fault => simp [persistObject, hc] at h
    | err e1 =>
      simp [persistObject, hc] at h
      subst h
      simp [persistObject, hc]
    | ok m =>
      cases hcl : cleanupMultipartSession donut1 bucket key uploadID with
      | none => simp [persistObject, hc, hcl] at h
      | some d2 => simp [persistObject, hc, hcl] at h

theorem NewMultipartUpload_err_state (env : Env) (donut : API)
    (bucket key contentType : String) (signature : Option Signature) (rand63 : Int)
    (idTime initiated : Time) (e : Error)
    (h : (NewMultipartUpload env donut bucket key contentType signature rand63 idTime
      initiated).1 = .err e) :
    (NewMultipartUpload env donut bucket key contentType signature rand63 idTime
      initiated).2 = donut := by
  cases hsig : checkSignature signature emptySHA256 with
  | some e1 => simp [NewMultipartUpload, hsig]
  | none =>
    by_cases hvb : env.IsValidBucket bucket = true
    swap
    · simp [NewMultipartUpload, hsig, hvb]
    by_cases hvk : env.IsValidObjectName key = true
    swap
    · simp [NewMultipartUpload, hsig, hvb, hvk]
    cases hb : donut.storedBuckets bucket with
    | none => simp [NewMultipartUpload, hsig, hvb, hvk, hb]
    | some sb =>
      by_cases hobj : (sb.objectMetadata (bucket ++ "/" ++ key)).isSome = true
      · simp [NewMultipartUpload, hsig, hvb, hvk, hb, hobj]
      by_cases hlen : (env.base64URLEncode (env.sha512Sum (env.toBytes
          (env.FormatInt rand63 ++ bucket ++ key ++ env.TimeString idTime)))).length < 47
      · simp [NewMultipartUpload, hsig, hvb, hvk, hb, hobj, hlen]
      · simp [NewMultipartUpload, hsig, hvb, hvk, hb, hobj, hlen] at h

theorem Abort_err_state (env : Env) (donut : API) (bucket key uploadID : String)
    (signature : Option Signature) (e : Error)
    (h : (AbortMultipartUpload env donut bucket key uploadID signature).1 = .err e) :
    (AbortMultipartUpload env donut bucket key uploadID signature).2 = donut := by
  cases hsig : checkSignature signature emptySHA256 with
  | some e1 => simp [AbortMultipartUpload, hsig]
  | none =>
    by_cases hvb : env.IsValidBucket bucket = true
    swap
    · simp [AbortMultipartUpload, hsig, hvb]
    cases hb : donut.storedBuckets bucket with
    | none => simp [AbortMultipartUpload, hsig, hvb, hb]
    | some sb =>
      by_cases hid : (sessionAt sb key).uploadID = uploadID
      swap
      · simp [AbortMultipartUpload, hsig, hvb, hb, hid]
      cases hcl : cleanupMultipartSession donut bucket key uploadID with
      | none => simp [AbortMultipartUpload, hsig, hvb, hb, hid, hcl]
      | some d1 => simp [AbortMultipartUpload, hsig, hvb, hb, hid, hcl] at h

theorem complete_err_tables (env : Env)
    (hfail : ∀ d b k m sz p e, (env.CreateObject d b k m sz p).1 = .err e →
      sameTables (env.CreateObject d b k m sz p).2 d)
    (donut : API) (bucket key uploadID : String)
    (data : Reader) (signature : Option Signature) (e : Error)
    (h : (CompleteMultipartUpload env donut bucket key uploadID data signature).result =
      .err e) :
    sameTables (CompleteMultipartUpload env donut bucket key uploadID data signature).donut
      donut := by
  rcases complete_shape env donut bucket key uploadID data signature with
    ⟨e1, h1⟩ | ⟨gets, _, h1⟩ | ⟨e1, gets, _, h1⟩ | ⟨gets, size, fullObject, _, h1⟩
  · rw [h1]; exact sameTables_refl donut
  · rw [h1]; exact sameTables_refl donut
  · rw [h1]; exact sameTables_refl donut
  · rw [h1] at h ⊢
    obtain ⟨hc, hd⟩ := persistObject_err env donut bucket key uploadID gets size fullObject e h
    rw [hd]
    exact hfail _ _ _ _ _ _ e hc

/-- C17: assume a failing call of the persistence layer leaves the session tables and
part-record tables alone.  Then whenever `NewMultipartUpload`, `CreateObjectPart`,
`AbortMultipartUpload` or `CompleteMultipartUpload` returns an error, the session table
and the part-record table of every bucket are what they were before the call.  And a
`CreateObjectPart` call that returns without error either found the part number already
stored (it returns the stored ETag and the state is untouched: the repeated ingestion),
or found no record for the part number and leaves one behind. -/
theorem error_returns_leave_tables_unchanged (env : Env)
    (hfail : ∀ d b k m sz p e, (env.CreateObject d b k m sz p).1 = .err e →
      sameTables (env.CreateObject d b k m sz p).2 d)
    (donut : API) (bucket key uploadID contentType expectedMD5Sum : String)
    (partID size : Int) (part manifest : Reader) (signature : Option Signature)
    (rand63 : Int) (idTime initiated now : Time) :
    (∀ e, (NewMultipartUpload env donut bucket key contentType signature rand63 idTime
        initiated).1 = .err e →
      sameTables (NewMultipartUpload env donut bucket key contentType signature rand63
        idTime initiated).2 donut) ∧
    (∀ e, (CreateObjectPart env donut bucket key uploadID partID contentType expectedMD5Sum
        size part signature now).1 = .err e →
      sameTables (CreateObjectPart env donut bucket key uploadID partID contentType
        expectedMD5Sum size part signature now).2.1 donut) ∧
    (∀ e, (AbortMultipartUpload env donut bucket key uploadID signature).1 = .err e →
      sameTables (AbortMultipartUpload env donut bucket key uploadID signature).2 donut) ∧
    (∀ e, (CompleteMultipartUpload env donut bucket key uploadID manifest signature).result
        = .err e →
      sameTables (CompleteMultipartUpload env donut bucket key uploadID manifest
        signature).donut donut) ∧
    (∀ etag, (CreateObjectPart env donut bucket key uploadID partID contentType
        expectedMD5Sum size part signature now).1 = .ok etag →
      (∃ record, partRecord donut bucket key partID = some record ∧ record.ETag = etag ∧
        (CreateObjectPart env donut bucket key uploadID partID contentType expectedMD5Sum
          size part signature now).2.1 = donut) ∨
      (partRecord donut bucket key partID = none ∧
        ∃ record, partRecord (CreateObjectPart env donut bucket key uploadID partID
          contentType expectedMD5Sum size part signature now).2.1 bucket key partID =
            some record ∧ record.ETag = etag)) := by
  refine ⟨?_, ?_, ?_, ?_, ?_⟩
  · intro e h
    rw [NewMultipartUpload_err_state env donut bucket key contentType signature rand63
      idTime initiated e h]
    exact sameTables_refl donut
  · intro e h
    exact sameTables_of_storedBuckets (createObjectPart_err_storedBuckets env donut bucket
      key uploadID partID "" expectedMD5Sum size part signature now e h)
  · intro e h
    rw [Abort_err_state env donut bucket key uploadID signature e h]
    exact sameTables_refl donut
  · intro e h
    exact complete_err_tables env hfail donut bucket key uploadID manifest signature e h
  · intro etag h
    obtain ⟨hvb, hvk, sb1, record1, hb1, hid1, hrec1, hetag1⟩ :=
      createObjectPart_ok_record env donut bucket key uploadID partID "" expectedMD5Sum
        size part signature now etag h
    cases hb : donut.storedBuckets bucket with
    | none => simp [CreateObjectPart, createObjectPart, hvb, hvk, hb] at h
    | some sb =>
      by_cases hid : (sessionAt sb key).uploadID = uploadID
      swap
      · simp [CreateObjectPart, createObjectPart, hvb, hvk, hb, hid] at h
      cases hrec : (sb.partMetadata key).bind (fun m => m partID) with
      | some record =>
        left
        have hst := createObjectPart_stored env donut bucket key uploadID partID ""
          expectedMD5Sum size part signature now sb record hvb hvk hb hid hrec
        refine ⟨record, ?_, ?_, ?_⟩
        · rw [partRecord_none_iff hb]; exact hrec
        · unfold CreateObjectPart at h
          rw [hst] at h
          simpa using h
        · unfold CreateObjectPart
          rw [hst]
      | none =>
        right
        refine ⟨?_, record1, ?_, hetag1⟩
        · rw [partRecord_none_iff hb]; exact hrec
        · unfold CreateObjectPart
          rw [partRecord_none_iff hb1]; exact hrec1

/-- Witness of C17: the persistence layer of `demoEnvFailing` fails and returns the
state it was given; the calls are made on the session of `demoStore`, whose part 1 is
already stored. -/
theorem error_returns_leave_tables_unchanged_witness :
    (∀ d b k m sz p e, (demoEnvFailing.CreateObject d b k m sz p).1 = .err e →
      sameTables (demoEnvFailing.CreateObject d b k m sz p).2 d) ∧
    (∀ e, (NewMultipartUpload demoEnvFailing demoStore "bucket" "key" "" none 0 0 0).1 =
        .err e →
      sameTables (NewMultipartUpload demoEnvFailing demoStore "bucket" "key" "" none 0 0
        0).2 demoStore) ∧
    (∀ e, (CreateObjectPart demoEnvFailing demoStore "bucket" "key" demoID 1 "" "" 3
        (readerOf [97, 98, 99]) none 0).1 = .err e →
      sameTables (CreateObjectPart demoEnvFailing demoStore "bucket" "key" demoID 1 "" "" 3
        (readerOf [97, 98, 99]) none 0).2.1 demoStore) ∧
    (∀ e, (AbortMultipartUpload demoEnvFailing demoStore "bucket" "key" demoID none).1 =
        .err e →
      sameTables (AbortMultipartUpload demoEnvFailing demoStore "bucket" "key" demoID
        none).2 demoStore) ∧
    (∀ e, (CompleteMultipartUpload demoEnvFailing demoStore "bucket" "key" demoID
        (readerOf [1, 3, 35, 2, 3, 38, 3, 3, 41]) none).result = .err e →
      sameTables (CompleteMultipartUpload demoEnvFailing demoStore "bucket" "key" demoID
        (readerOf [1, 3, 35, 2, 3, 38, 3, 3, 41]) none).donut demoStore) ∧
    (∀ etag, (CreateObjectPart demoEnvFailing demoStore "bucket" "key" demoID 1 "" "" 3
        (readerOf [97, 98, 99]) none 0).1 = .ok etag →
      (∃ record, partRecord demoStore "bucket" "key" 1 = some record ∧
        record.ETag = etag ∧
        (CreateObjectPart demoEnvFailing demoStore "bucket" "key" demoID 1 "" "" 3
          (readerOf [97, 98, 99]) none 0).2.1 = demoStore) ∨
      (partRecord demoStore "bucket" "key" 1 = none ∧
        ∃ record, partRecord (CreateObjectPart demoEnvFailing demoStore "bucket" "key"
          demoID 1 "" "" 3 (readerOf [97, 98, 99]) none 0).2.1 "bucket" "key" 1 =
            some record ∧ record.ETag = etag)) :=
  ⟨fun d b k m sz p e h bucket => rfl,
    error_returns_leave_tables_unchanged demoEnvFailing
      (fun d b k m sz p e h bucket => rfl)
      demoStore "bucket" "key" demoID "" "" 1 3 (readerOf [97, 98, 99])
      (readerOf [1, 3, 35, 2, 3, 38, 3, 3, 41]) none 0 0 0 0⟩


/-! ## Lock discipline of the completion -/

theorem lockAfter_gets (uploadID : String) (tail : List Event) (held : Bool) :
    ∀ gets : List Event, (∀ ev ∈ gets, ∃ n, ev = Event.Get uploadID n) →
      lockAfter held (gets ++ tail) = lockAfter held tail := by
  intro gets
  induction gets with
  | nil => intro _; rfl
  | cons g rest ih =>
    intro h
    obtain ⟨n, hn⟩ := h g (List.mem_cons_self _ _)
    subst hn
    simp only [List.cons_append, lockAfter, lockStep, Option.some_bind]
    exact ih (fun ev hev => h ev (List.mem_cons_of_mem _ hev))

theorem count_gets (uploadID : String) (x : Event) (hx : ∀ n, x ≠ Event.Get uploadID n)
    (gets : List Event) (h : ∀ ev ∈ gets, ∃ n, ev = Event.Get uploadID n) :
    gets.count x = 0 := by
  rw [List.count_eq_zero]
  intro hmem
  obtain ⟨n, hn⟩ := h x hmem
  exact hx n hn

/-- A trace with a single persistence-layer call splits at that call in one way only. -/
theorem split_at_call (c c1 : Event) (l2 post : List Event)
    (hc1 : c1.isCreateObject = true)
    (hl2 : ∀ ev ∈ l2, ev.isCreateObject = false) :
    ∀ (l1 pre : List Event), (∀ ev ∈ l1, ev.isCreateObject = false) →
      l1 ++ c :: l2 = pre ++ c1 :: post → pre = l1 ∧ c1 = c ∧ post = l2 := by
  intro l1
  induction l1 with
  | nil =>
    intro pre _ heq
    cases pre with
    | nil =>
      simp only [List.nil_append, List.cons.injEq] at heq
      exact ⟨rfl, heq.1.symm, heq.2.symm⟩
    | cons x pre1 =>
      simp only [List.nil_append, List.cons_append, List.cons.injEq] at heq
      have hmem : c1 ∈ l2 := by rw [heq.2]; simp
      have := hl2 c1 hmem
      rw [hc1] at this
      cases this
  | cons a l1 ih =>
    intro pre hl1 heq
    cases pre with
    | nil =>
      simp only [List.nil_append, List.cons_append, List.cons.injEq] at heq
      have := hl1 a (List.mem_cons_self _ _)
      rw [heq.1, hc1] at this
      cases this
    | cons x pre1 =>
      simp only [List.cons_append, List.cons.injEq] at heq
      obtain ⟨h1, h2, h3⟩ := ih pre1 (fun ev hev => hl1 ev (List.mem_cons_of_mem _ hev)) heq.2
      exact ⟨by rw [heq.1, h1], h2, h3⟩

theorem no_call_no_split (events pre post : List Event) (c : Event)
    (hc : c.isCreateObject = true) (hev : ∀ ev ∈ events, ev.isCreateObject = false)
    (heq : events = pre ++ c :: post) : False := by
  have := hev c (by rw [heq]; simp)
  rw [hc] at this
  cases this

/-- The lock flag along a trace that reaches the persistence layer: free before the
call, and the trace splits at the call in one way only. -/
theorem persist_trace (uploadID : String) (gets tail : List Event) (call : Event)
    (hgets : ∀ ev ∈ gets, ∃ n, ev = Event.Get uploadID n)
    (hcall : call.isCreateObject = true)
    (htail : ∀ ev ∈ tail, ev.isCreateObject = false) :
    lockAfter false (Event.Lock :: gets ++ Event.Unlock :: call :: tail) =
      (lockStep false call).bind (fun h => lockAfter h tail) ∧
    ∀ pre post c1, c1.isCreateObject = true →
      Event.Lock :: gets ++ Event.Unlock :: call :: tail = pre ++ c1 :: post →
      lockAfter false pre = some false ∧ c1 = call ∧ post = tail := by
  have hpre : ∀ rest, lockAfter false (Event.Lock :: gets ++ Event.Unlock :: rest) =
      lockAfter false rest := by
    intro rest
    simp only [List.cons_append, lockAfter, lockStep, Bool.false_eq_true, if_false,
      Option.some_bind]
    have hg := lockAfter_gets uploadID (Event.Unlock :: rest) true gets hgets
    simp only [lockAfter, lockStep, if_true, Option.some_bind] at hg
    exact hg
  refine ⟨?_, ?_⟩
  · rw [hpre]; rfl
  · intro pre post c1 hc1 heq
    have hsplit := split_at_call call c1 tail post hc1 htail
      (Event.Lock :: gets ++ [Event.Unlock]) pre
      (not_createObject_of_get uploadID hgets [Event.Unlock] (by simp [Event.isCreateObject]))
      (by simpa using heq)
    obtain ⟨h1, h2, h3⟩ := hsplit
    refine ⟨?_, h2, h3⟩
    rw [h1]
    have := hpre []
    simpa [lockAfter] using this

/-- C20: with the process-wide lock as a held/not-held flag replayed over the trace of
`CompleteMultipartUpload` (free at entry): every `Lock` finds the lock free and every
`Unlock` finds it held, and the lock is free at the end of every run that returns
(a result or an error); a run that returns an error took the lock once and released
it once; the persistence layer is called with the lock free; and a `Lock` follows the
call of the persistence layer exactly when that call succeeded. -/
theorem complete_lock_discipline (env : Env) (donut : API) (bucket key uploadID : String)
    (data : Reader) (signature : Option Signature) :
    (∃ held, lockAfter false
        (CompleteMultipartUpload env donut bucket key uploadID data signature).events =
          some held ∧
      ((CompleteMultipartUpload env donut bucket key uploadID data signature).result ≠
        .fault → held = false)) ∧
    (∀ e, (CompleteMultipartUpload env donut bucket key uploadID data signature).result =
        .err e →
      (CompleteMultipartUpload env donut bucket key uploadID data signature).events.count
        Event.Lock = 1 ∧
      (CompleteMultipartUpload env donut bucket key uploadID data signature).events.count
        Event.Unlock = 1) ∧
    (∀ pre post b k m sz p,
      (CompleteMultipartUpload env donut bucket key uploadID data signature).events =
        pre ++ Event.CreateObject b k m sz p :: post →
      lockAfter false pre = some false ∧
      (Event.Lock ∈ post ↔ ∃ om, (env.CreateObject donut b k m sz p).1 = .ok om)) := by
  have hcountL : ∀ gets : List Event, (∀ ev ∈ gets, ∃ n, ev = Event.Get uploadID n) →
      gets.count Event.Lock = 0 := fun gets hg =>
    count_gets uploadID Event.Lock (fun n hn => by cases hn) gets hg
  have hcountU : ∀ gets : List Event, (∀ ev ∈ gets, ∃ n, ev = Event.Get uploadID n) →
      gets.count Event.Unlock = 0 := fun gets hg =>
    count_gets uploadID Event.Unlock (fun n hn => by cases hn) gets hg
  rcases complete_shape env donut bucket key uploadID data signature with
    ⟨e1, h1⟩ | ⟨gets, hgets, h1⟩ | ⟨e1, gets, hgets, h1⟩ | ⟨gets, size, fullObject, hgets, h1⟩
  · rw [h1]
    refine ⟨⟨false, rfl, fun _ => rfl⟩, fun e _ => ⟨rfl, rfl⟩, ?_⟩
    intro pre post b k m sz p heq
    exact (no_call_no_split _ pre post (Event.CreateObject b k m sz p) rfl (by simp [Event.isCreateObject]) heq).elim
  · rw [h1]
    refine ⟨⟨true, ?_, fun h => absurd rfl h⟩, fun e h => by simp at h, ?_⟩
    · have hg := lockAfter_gets uploadID [] true gets hgets
      simp only [List.append_nil] at hg
      simp only [lockAfter, lockStep, Bool.false_eq_true, if_false, Option.some_bind, hg]
    · intro pre post b k m sz p heq
      have hno := not_createObject_of_get uploadID hgets [] (by simp)
      simp only [List.append_nil] at hno
      exact (no_call_no_split _ pre post (Event.CreateObject b k m sz p) rfl hno heq).elim
  · rw [h1]
    refine ⟨⟨false, ?_, fun _ => rfl⟩, fun e _ => ?_, ?_⟩
    · have hg := lockAfter_gets uploadID [Event.Unlock] true gets hgets
      simp only [lockAfter, lockStep, if_true, Option.some_bind] at hg
      simp only [List.cons_append, lockAfter, lockStep, Bool.false_eq_true, if_false,
        Option.some_bind]
      exact hg
    · simp [List.count_cons, List.count_append, hcountL gets hgets, hcountU gets hgets]
    · intro pre post b k m sz p heq
      have hno := not_createObject_of_get uploadID hgets [Event.Unlock]
        (by simp [Event.isCreateObject])
      exact (no_call_no_split _ pre post (Event.CreateObject b k m sz p) rfl hno heq).elim
  · rw [h1]
    have htr := fun tail htail => persist_trace uploadID gets tail
      (Event.CreateObject bucket key (env.base64StdEncode (env.md5Sum fullObject)) size
        fullObject) hgets rfl htail
    cases hc : env.CreateObject donut bucket key (env.base64StdEncode (env.md5Sum fullObject))
      size fullObject with
    | mk r donut1 =>
      have hev : ∀ tail, Event.Lock :: gets ++ Event.Unlock ::
          Event.CreateObject bucket key (env.base64StdEncode (env.md5Sum fullObject)) size
            fullObject :: tail =
          Event.Lock :: (gets ++ Event.Unlock ::
            Event.CreateObject bucket key (env.base64StdEncode (env.md5Sum fullObject)) size
            fullObject :: tail) := fun _ => rfl
      have hsplit : ∀ tail, (∀ ev ∈ tail, ev.isCreateObject = false) →
          ∀ pre post b k m sz p,
            Event.Lock :: (gets ++ Event.Unlock ::
              Event.CreateObject bucket key (env.base64StdEncode (env.md5Sum fullObject))
                size fullObject :: tail) = pre ++ Event.CreateObject b k m sz p :: post →
            lockAfter false pre = some false ∧ post = tail ∧
              (env.CreateObject donut b k m sz p).1 = r := by
        intro tail htail pre post b k m sz p heq
        obtain ⟨hp, hcall, hpost⟩ := (htr tail htail).2 pre post (Event.CreateObject b k m sz p) rfl heq
        injection hcall with hb hk hm hsz hpl
        subst hb hk hm hsz hpl
        exact ⟨hp, hpost, by rw [hc]⟩
      cases r with
      | fault =>
        have hpo : persistObject env donut bucket key uploadID gets size fullObject =
            ⟨.fault, donut1, Event.Lock :: (gets ++ [Event.Unlock,
              Event.CreateObject bucket key (env.base64StdEncode (env.md5Sum fullObject))
                size fullObject])⟩ := by
          simp [persistObject, hc]
        rw [hpo]
        refine ⟨⟨false, ?_, fun _ => rfl⟩, fun e h => by simp at h, ?_⟩
        · exact (htr [] (by simp)).1
        · intro pre post b k m sz p heq
          obtain ⟨hp, hpost, hres⟩ := hsplit [] (by simp) pre post b k m sz p heq
          refine ⟨hp, ?_⟩
          rw [hpost, hres]
          simp
      | err e2 =>
        have hpo : persistObject env donut bucket key uploadID gets size fullObject =
            ⟨.err e2, donut1, Event.Lock :: (gets ++ [Event.Unlock,
              Event.CreateObject bucket key (env.base64StdEncode (env.md5Sum fullObject))
                size fullObject])⟩ := by
          simp [persistObject, hc]
        rw [hpo]
        refine ⟨⟨false, ?_, fun _ => rfl⟩, fun e _ => ?_, ?_⟩
        · exact (htr [] (by simp)).1
        · simp [List.count_cons, List.count_append, hcountL gets hgets, hcountU gets hgets]
        · intro pre post b k m sz p heq
          obtain ⟨hp, hpost, hres⟩ := hsplit [] (by simp) pre post b k m sz p heq
          refine ⟨hp, ?_⟩
          rw [hpost, hres]
          simp
      | ok om =>
        cases hcl : cleanupMultipartSession donut1 bucket key uploadID with
        | none =>
          have hpo : persistObject env donut bucket key uploadID gets size fullObject =
              ⟨.fault, donut1, Event.Lock :: (gets ++ [Event.Unlock,
                Event.CreateObject bucket key (env.base64StdEncode (env.md5Sum fullObject))
                  size fullObject, Event.Lock])⟩ := by
            simp [persistObject, hc, hcl]
          rw [hpo]
          refine ⟨⟨true, ?_, fun h => absurd rfl h⟩, fun e h => by simp at h, ?_⟩
          · exact (htr [Event.Lock] (by simp [Event.isCreateObject])).1
          · intro pre post b k m sz p heq
            obtain ⟨hp, hpost, hres⟩ := hsplit [Event.Lock] (by simp [Event.isCreateObject])
              pre post b k m sz p heq
            refine ⟨hp, ?_⟩
            rw [hpost, hres]
            simp
        | some donut2 =>
          have hpo : persistObject env donut bucket key uploadID gets size fullObject =
              ⟨.ok om, donut2, Event.Lock :: (gets ++ [Event.Unlock,
                Event.CreateObject bucket key (env.base64StdEncode (env.md5Sum fullObject))
                  size fullObject, Event.Lock, Event.Unlock])⟩ := by
            simp [persistObject, hc, hcl]
          rw [hpo]
          refine ⟨⟨false, ?_, fun _ => rfl⟩, fun e h => by simp at h, ?_⟩
          · exact (htr [Event.Lock, Event.Unlock] (by simp [Event.isCreateObject])).1
          · intro pre post b k m sz p heq
            obtain ⟨hp, hpost, hres⟩ := hsplit [Event.Lock, Event.Unlock]
              (by simp [Event.isCreateObject]) pre post b k m sz p heq
            refine ⟨hp, ?_⟩
            rw [hpost, hres]
            simp


/-! ## Reachable states: the part cache -/

theorem emptyStore_noSessions : noSessions emptyStore := by
  refine ⟨?_, fun _ => rfl⟩
  intro bucket sb hb key
  by_cases h : bucket = "bucket"
  · subst h
    simp [emptyStore] at hb
    subst hb
    exact ⟨rfl, rfl⟩
  · simp [emptyStore, h] at hb

theorem demoSession_reachable : Reachable demoEnv demoSession :=
  Reachable.newUpload emptyStore "bucket" "key" "" none 0 0 0
    (Reachable.start emptyStore emptyStore_noSessions)

/-- A state whose record of part 1 has size 3 while five bytes are cached for it does
not satisfy `cacheAgrees`. -/
theorem not_cacheAgrees_of_residue (env : Env) (donut : API) (sess : MultiPartSession)
    (record : PartMetadata) (bytes : Bytes)
    (hsess : sessionOf donut "bucket" "key" = some sess)
    (hrec : partRecord donut "bucket" "key" 1 = some record)
    (hcache : cachedPart donut sess.uploadID 1 = some bytes)
    (hlen : (bytes.length : Int) ≠ record.Size) : ¬ cacheAgrees env donut := by
  intro h
  obtain ⟨b, hb, _, hl⟩ := h "bucket" "key" sess 1 record hsess hrec
  rw [hcache] at hb
  cases hb
  exact hlen hl

/-- C21 at its failing inputs: on the fresh session of `demoSession`, a first attempt
for part 1 with the two bytes "xx" fails with `BadDigest`, with `SignatureDoesNotMatch`
or with a read error; the retry with the bytes "abc" succeeds.  The state reached has
an active session and a record for part 1 with the ETag of "abc" and size 3, but the
cache of the session holds the five bytes "xxabc" for part 1: the invariant
`cacheAgrees` does not hold in a reachable state. -/
theorem retry_after_failed_attempt_breaks_cache_invariant :
    badDigestAttempt.1 = .err .BadDigest ∧
    badSignatureAttempt.1 = .err .SignatureDoesNotMatch ∧
    readErrorAttempt.1 = .err (.other "connection reset") ∧
    ∀ first, first = badDigestAttempt ∨ first = badSignatureAttempt ∨
        first = readErrorAttempt →
      Reachable demoEnv (retryAfter first).2.1 ∧
      (retryAfter first).1 = .ok "0326" ∧
      sessionOf (retryAfter first).2.1 "bucket" "key" =
        some { uploadID := demoID, initiated := 0, totalParts := 1 } ∧
      partRecord (retryAfter first).2.1 "bucket" "key" 1 =
        some { PartNumber := 1, LastModified := 0, ETag := "0326", Size := 3 } ∧
      cachedPart (retryAfter first).2.1 demoID 1 = some [120, 120, 97, 98, 99] ∧
      EncodeToString (demoEnv.md5Sum [120, 120, 97, 98, 99]) ≠ "0326" ∧
      ¬ cacheAgrees demoEnv (retryAfter first).2.1 := by
  refine ⟨by decide, by decide, by decide, ?_⟩
  intro first hfirst
  have hreach : Reachable demoEnv (retryAfter first).2.1 := by
    rcases hfirst with h | h | h
    · subst h
      exact Reachable.part _ "bucket" "key" demoID 1 "" "" 3 (readerOf [97, 98, 99]) none 0
        (Reachable.part demoSession "bucket" "key" demoID 1 "" "0000" 2
          (readerOf [120, 120]) none 0 demoSession_reachable)
    · subst h
      exact Reachable.part _ "bucket" "key" demoID 1 "" "" 3 (readerOf [97, 98, 99]) none 0
        (Reachable.part demoSession "bucket" "key" demoID 1 "" "" 2
          (readerOf [120, 120]) (some rejectingSignature) 0 demoSession_reachable)
    · subst h
      exact Reachable.part _ "bucket" "key" demoID 1 "" "" 3 (readerOf [97, 98, 99]) none 0
        (Reachable.part demoSession "bucket" "key" demoID 1 "" "" 2
          { reads := [[120, 120]], last := [], err := .other "connection reset" } none 0
          demoSession_reachable)
  have hfacts : (retryAfter first).1 = .ok "0326" ∧
      sessionOf (retryAfter first).2.1 "bucket" "key" =
        some { uploadID := demoID, initiated := 0, totalParts := 1 } ∧
      partRecord (retryAfter first).2.1 "bucket" "key" 1 =
        some { PartNumber := 1, LastModified := 0, ETag := "0326", Size := 3 } ∧
      cachedPart (retryAfter first).2.1 demoID 1 = some [120, 120, 97, 98, 99] := by
    rcases hfirst with h | h | h <;> subst h <;> decide
  obtain ⟨hres, hsess, hrec, hcache⟩ := hfacts
  exact ⟨hreach, hres, hsess, hrec, hcache, by decide,
    not_cacheAgrees_of_residue demoEnv _ _ _ _ hsess hrec hcache (by decide)⟩


/-! ## Reachable states: session entries and part records -/

theorem recordsCounted_empty : recordsCounted (fun _ => none) 0 :=
  ⟨∅, fun n => by simp, by simp⟩

theorem recordsCounted_insert (parts : Int → Option PartMetadata) (totalParts : Int)
    (n : Int) (record : PartMetadata) (h : recordsCounted parts totalParts)
    (hn : parts n = none) : recordsCounted (mapSet parts n record) (totalParts + 1) := by
  obtain ⟨S, hS, hcard⟩ := h
  have hnot : n ∉ S := by
    intro hmem
    have := (hS n).1 hmem
    rw [hn] at this
    cases this
  refine ⟨insert n S, ?_, ?_⟩
  · intro m
    by_cases hm : m = n
    · subst hm
      simp [mapSet]
    · simp [mapSet, hm, hS m]
  · rw [Finset.card_insert_of_not_mem hnot]
    push_cast
    omega

theorem bucketAgrees_set (multiPartSession : String → Option MultiPartSession)
    (partMetadata : String → Option (Int → Option PartMetadata)) (key : String)
    (sess : MultiPartSession) (parts : Int → Option PartMetadata)
    (h : bucketAgrees multiPartSession partMetadata)
    (hc : recordsCounted parts sess.totalParts) :
    bucketAgrees (mapSet multiPartSession key sess) (mapSet partMetadata key parts) := by
  intro k
  by_cases hk : k = key
  · subst hk
    refine ⟨by simp [mapSet], ?_⟩
    intro sess1 parts1 h1 h2
    simp only [mapSet, if_true, Option.some.injEq] at h1 h2
    subst h1 h2
    exact hc
  · simpa [mapSet, hk] using h k

theorem bucketAgrees_delete (multiPartSession : String → Option MultiPartSession)
    (partMetadata : String → Option (Int → Option PartMetadata)) (key : String)
    (h : bucketAgrees multiPartSession partMetadata) :
    bucketAgrees (mapDelete multiPartSession key) (mapDelete partMetadata key) := by
  intro k
  by_cases hk : k = key
  · subst hk
    refine ⟨by simp [mapDelete], ?_⟩
    intro sess1 parts1 h1
    simp [mapDelete] at h1
  · simpa [mapDelete, hk] using h k

theorem tablesAgree_update (donut donut1 : API) (bucket : String) (sb1 : storedBucket)
    (h : tablesAgree donut)
    (hst : donut1.storedBuckets = mapSet donut.storedBuckets bucket sb1)
    (hsb : bucketAgrees sb1.multiPartSession sb1.partMetadata) : tablesAgree donut1 := by
  intro b sb hb
  rw [hst] at hb
  by_cases hbk : b = bucket
  · subst hbk
    simp only [mapSet, if_true, Option.some.injEq] at hb
    subst hb
    exact hsb
  · simp only [mapSet, hbk, if_false] at hb
    exact h b sb hb

theorem tablesAgree_of_storedBuckets (donut donut1 : API) (h : tablesAgree donut)
    (hst : donut1.storedBuckets = donut.storedBuckets) : tablesAgree donut1 := by
  intro b sb hb
  rw [hst] at hb
  exact h b sb hb

theorem tablesAgree_of_sameTables (donut donut1 : API) (h : tablesAgree donut)
    (hst : sameTables donut1 donut) : tablesAgree donut1 := by
  intro b sb1 hb1
  have hs := hst b
  rw [hb1] at hs
  cases hb : donut.storedBuckets b with
  | none => rw [hb] at hs; simp at hs
  | some sb =>
    rw [hb] at hs
    simp only [Option.map_some', Option.some.injEq, Prod.mk.injEq] at hs
    rw [hs.1, hs.2]
    exact h b sb hb

theorem noSessions_tablesAgree (donut : API) (h : noSessions donut) : tablesAgree donut := by
  intro b sb hb key
  obtain ⟨h1, h2⟩ := h.1 b sb hb key
  refine ⟨by simp [h1, h2], ?_⟩
  intro sess parts hs
  rw [h1] at hs
  cases hs

/-- The bucket table after `NewMultipartUpload`: as before, or with the session entry
of the key set to a session without parts and its part-record table to an empty one. -/
theorem NewMultipartUpload_tables (env : Env) (donut : API)
    (bucket key contentType : String) (signature : Option Signature) (rand63 : Int)
    (idTime initiated : Time) :
    (NewMultipartUpload env donut bucket key contentType signature rand63 idTime
      initiated).2 = donut ∨
    ∃ sb uploadID, donut.storedBuckets bucket = some sb ∧
      (NewMultipartUpload env donut bucket key contentType signature rand63 idTime
        initiated).2.storedBuckets = mapSet donut.storedBuckets bucket
          { objectMetadata := sb.objectMetadata
            multiPartSession := mapSet sb.multiPartSession key
              { uploadID := uploadID, initiated := initiated, totalParts := 0 }
            partMetadata := mapSet sb.partMetadata key (fun _ => none) } := by
  cases hsig : checkSignature signature emptySHA256 with
  | some e1 => left; simp [NewMultipartUpload, hsig]
  | none =>
    by_cases hvb : env.IsValidBucket bucket = true
    swap
    · left; simp [NewMultipartUpload, hsig, hvb]
    by_cases hvk : env.IsValidObjectName key = true
    swap
    · left; simp [NewMultipartUpload, hsig, hvb, hvk]
    cases hb : donut.storedBuckets bucket with
    | none => left; simp [NewMultipartUpload, hsig, hvb, hvk, hb]
    | some sb =>
      cases hobj : sb.objectMetadata (bucket ++ "/" ++ key) with
      | some m => left; simp [NewMultipartUpload, hsig, hvb, hvk, hb, hobj]
      | none =>
        by_cases hlen : (env.base64URLEncode (env.sha512Sum (env.toBytes
            (env.FormatInt rand63 ++ bucket ++ key ++ env.TimeString idTime)))).length < 47
        · left; simp [NewMultipartUpload, hsig, hvb, hvk, hb, hobj, hlen]
        · right
          rw [NewMultipartUpload_created env donut bucket key contentType signature rand63
            idTime initiated sb hsig hvb hvk hb hobj (by omega)]
          exact ⟨sb, _, rfl, rfl⟩

/-- The bucket table after `createObjectPart`: as before, or with one record added
under a part number that had none and `totalParts` of the session raised by one. -/
theorem createObjectPart_tables (env : Env) (donut : API)
    (bucket key uploadID : String) (partID : Int) (contentType expectedMD5Sum : String)
    (size : Int) (data : Reader) (signature : Option Signature) (now : Time) :
    (createObjectPart env donut bucket key uploadID partID contentType expectedMD5Sum
      size data signature now).2.1.storedBuckets = donut.storedBuckets ∨
    ∃ sb parts record, donut.storedBuckets bucket = some sb ∧
      sb.partMetadata key = some parts ∧ parts partID = none ∧
      (createObjectPart env donut bucket key uploadID partID contentType expectedMD5Sum
        size data signature now).2.1.storedBuckets = mapSet donut.storedBuckets bucket
          { objectMetadata := sb.objectMetadata
            multiPartSession := mapSet sb.multiPartSession key
              { uploadID := (sessionAt sb key).uploadID
                initiated := (sessionAt sb key).initiated
                totalParts := (sessionAt sb key).totalParts + 1 }
            partMetadata := mapSet sb.partMetadata key (mapSet parts partID record) } := by
  have hcontent : data.reads.flatten ++ data.last = data.content := rfl
  by_cases hvb : env.IsValidBucket bucket = true
  swap
  · left; simp [createObjectPart, hvb]
  by_cases hvk : env.IsValidObjectName key = true
  swap
  · left; simp [createObjectPart, hvb, hvk]
  cases hb : donut.storedBuckets bucket with
  | none => left; simp [createObjectPart, hvb, hvk, hb]
  | some sb =>
    by_cases hid : (sessionAt sb key).uploadID = uploadID
    swap
    · left; simp [createObjectPart, hvb, hvk, hb, hid]
    cases hrec : (sb.partMetadata key).bind (fun m => m partID) with
    | some record =>
      left
      rw [createObjectPart_stored env donut bucket key uploadID partID contentType
        expectedMD5Sum size data signature now sb record hvb hvk hb hid hrec]
    | none =>
      cases hex : expectedHex env expectedMD5Sum with
      | none => left; simp [createObjectPart, hvb, hvk, hb, hid, hrec, hex]
      | some ex =>
        cases hc : donut.multiPartObjects uploadID with
        | none => left; simp [createObjectPart, hvb, hvk, hb, hid, hrec, hex, hc]
        | some c =>
          by_cases hsz : ((data.content.length : Nat) : Int) = size
          swap
          · left
            simp [createObjectPart, hvb, hvk, hb, hid, hrec, hex, hc, readLoop_spec,
              hcontent, hsz]
          by_cases heof : data.err = .EOF
          swap
          · left
            simp [createObjectPart, hvb, hvk, hb, hid, hrec, hex, hc, readLoop_spec,
              hcontent, hsz, heof]
          by_cases hdg : TrimSpace ex ≠ "" ∧
            (isMD5SumEqual (TrimSpace ex) (EncodeToString (env.md5Sum data.content))).isSome
              = true
          · have h1 := hdg.1
            have h2 := hdg.2
            left
            simp [createObjectPart, hvb, hvk, hb, hid, hrec, hex, hc, readLoop_spec,
              hcontent, hsz, heof, h1, h2]
          have hdg2 : TrimSpace ex = "" ∨
              isMD5SumEqual (TrimSpace ex) (EncodeToString (env.md5Sum data.content))
                = none := by
            by_cases hne : TrimSpace ex = ""
            · exact Or.inl hne
            · right
              cases hq : isMD5SumEqual (TrimSpace ex)
                  (EncodeToString (env.md5Sum data.content)) with
              | none => rfl
              | some e2 => exact absurd ⟨hne, by simp [hq]⟩ hdg
          cases hsg : checkSignature signature
              (EncodeToString (env.sha256Sum data.content)) with
          | some e1 =>
            left
            rcases hdg2 with hd | hd
            · simp [createObjectPart, hvb, hvk, hb, hid, hrec, hex, hc, readLoop_spec,
                hcontent, hsz, heof, hd, hsg]
            · simp [createObjectPart, hvb, hvk, hb, hid, hrec, hex, hc, readLoop_spec,
                hcontent, hsz, heof, hd, hsg]
          | none =>
            cases hparts : sb.partMetadata key with
            | none =>
              left
              rcases hdg2 with hd | hd
              · simp [createObjectPart, hvb, hvk, hb, hid, hrec, hex, hc, readLoop_spec,
                  hcontent, hsz, heof, hd, hsg, hparts]
              · simp [createObjectPart, hvb, hvk, hb, hid, hrec, hex, hc, readLoop_spec,
                  hcontent, hsz, heof, hd, hsg, hparts]
            | some parts =>
              have hrec2 : parts partID = none := by simpa [hparts] using hrec
              right
              rw [createObjectPart_fresh env donut bucket key uploadID partID contentType
                expectedMD5Sum size data signature now sb ex c parts hvb hvk hb hid hparts
                hrec2 hex hc hsz heof hdg hsg]
              exact ⟨sb, parts, _, rfl, hparts, hrec2, rfl⟩

/-- The state after `AbortMultipartUpload`: as before, or the session cleanup. -/
theorem Abort_state (env : Env) (donut : API) (bucket key uploadID : String)
    (signature : Option Signature) :
    (AbortMultipartUpload env donut bucket key uploadID signature).2 = donut ∨
    cleanupMultipartSession donut bucket key uploadID =
      some (AbortMultipartUpload env donut bucket key uploadID signature).2 := by
  cases hsig : checkSignature signature emptySHA256 with
  | some e1 => left; simp [AbortMultipartUpload, hsig]
  | none =>
    by_cases hvb : env.IsValidBucket bucket = true
    swap
    · left; simp [AbortMultipartUpload, hsig, hvb]
    cases hb : donut.storedBuckets bucket with
    | none => left; simp [AbortMultipartUpload, hsig, hvb, hb]
    | some sb =>
      by_cases hid : (sessionAt sb key).uploadID = uploadID
      swap
      · left; simp [AbortMultipartUpload, hsig, hvb, hb, hid]
      cases hcl : cleanupMultipartSession donut bucket key uploadID with
      | none => left; simp [AbortMultipartUpload, hsig, hvb, hb, hid, hcl]
      | some d1 => right; simp [AbortMultipartUpload, hsig, hvb, hb, hid, hcl]

/-- The state after `persistObject`: the one the persistence layer returned, or the
session cleanup applied to it. -/
theorem persistObject_state (env : Env) (donut : API) (bucket key uploadID : String)
    (gets : List Event) (size : Int) (fullObject : Bytes) :
    (persistObject env donut bucket key uploadID gets size fullObject).donut =
      (env.CreateObject donut bucket key (env.base64StdEncode (env.md5Sum fullObject)) size
        fullObject).2 ∨
    cleanupMultipartSession
      (env.CreateObject donut bucket key (env.base64StdEncode (env.md5Sum fullObject)) size
        fullObject).2 bucket key uploadID =
      some (persistObject env donut bucket key uploadID gets size fullObject).donut := by
  cases hc : env.CreateObject donut bucket key (env.base64StdEncode (env.md5Sum fullObject))
    size fullObject with
  | mk r donut1 =>
    cases r with
    | fault => left; simp [persistObject, hc]
    | err e1 => left; simp [persistObject, hc]
    | ok m =>
      cases hcl : cleanupMultipartSession donut1 bucket key uploadID with
      | none => left; simp [persistObject, hc, hcl]
      | some d2 => right; simp [persistObject, hc, hcl]

theorem cleanup_tablesAgree (donut donut1 : API) (bucket key uploadID : String)
    (h : tablesAgree donut)
    (hcl : cleanupMultipartSession donut bucket key uploadID = some donut1) :
    tablesAgree donut1 := by
  obtain ⟨sb, hb, hst, _⟩ := cleanup_some donut donut1 bucket key uploadID hcl
  exact tablesAgree_update donut donut1 bucket _ h hst
    (bucketAgrees_delete _ _ key (h bucket sb hb))

theorem demoCreateObject_sameTables (d : API) (b k m : String) (sz : Int) (p : Bytes) :
    sameTables (demoEnv.CreateObject d b k m sz p).2 d := by
  intro bucket
  cases hd : d.storedBuckets b with
  | none => simp [demoEnv, demoCreateObject, hd]
  | some sb =>
    by_cases hbk : bucket = b
    · subst hbk
      simp [demoEnv, demoCreateObject, hd, mapSet]
    · simp [demoEnv, demoCreateObject, hd, mapSet, hbk]

theorem onlyPartFive_reachable : Reachable demoEnv onlyPartFive :=
  Reachable.part demoSession "bucket" "key" demoID 5 "" "" 3 (readerOf [97, 98, 99]) none 0
    demoSession_reachable

/-- C22: assume the persistence layer leaves the session tables and part-record tables
alone.  In every state reached from a state without sessions by calls of
`NewMultipartUpload`, `CreateObjectPart`, `AbortMultipartUpload` and
`CompleteMultipartUpload`, in every bucket a key has a part-record table if and only if
it has a session entry, and the `totalParts` of every session is the number of part
numbers that have a record under its key. -/
theorem reachable_sessions_count_their_records (env : Env)
    (hpersist : ∀ d b k m sz p, sameTables (env.CreateObject d b k m sz p).2 d)
    (donut : API) (hreach : Reachable env donut) :
    ∀ bucket sb, donut.storedBuckets bucket = some sb → ∀ key,
      ((sb.partMetadata key).isSome = true ↔ (sb.multiPartSession key).isSome = true) ∧
      ∀ sess parts, sb.multiPartSession key = some sess → sb.partMetadata key = some parts →
        ∃ S : Finset Int, (∀ n, n ∈ S ↔ (parts n).isSome = true) ∧
          (S.card : Int) = sess.totalParts := by
  show tablesAgree donut
  induction hreach with
  | start donut h => exact noSessions_tablesAgree donut h
  | newUpload donut bucket key contentType signature rand63 idTime initiated _ ih =>
    rcases NewMultipartUpload_tables env donut bucket key contentType signature rand63
      idTime initiated with h | ⟨sb, uploadID, hb, hst⟩
    · rw [h]; exact ih
    · exact tablesAgree_update donut _ bucket _ ih hst
        (bucketAgrees_set _ _ key _ _ (ih bucket sb hb) recordsCounted_empty)
  | part donut bucket key uploadID partID contentType expectedMD5Sum size data signature
      now _ ih =>
    rcases createObjectPart_tables env donut bucket key uploadID partID ""
      expectedMD5Sum size data signature now with h | ⟨sb, parts, record, hb, hparts, hn, hst⟩
    · exact tablesAgree_of_storedBuckets donut _ ih h
    · have hkey := ih bucket sb hb key
      have hsome : (sb.multiPartSession key).isSome = true := hkey.1.1 (by simp [hparts])
      obtain ⟨sess, hsess⟩ := Option.isSome_iff_exists.1 hsome
      have hat : sessionAt sb key = sess := by simp [sessionAt, hsess]
      refine tablesAgree_update donut _ bucket _ ih hst
        (bucketAgrees_set _ _ key _ _ (ih bucket sb hb) ?_)
      rw [hat]
      exact recordsCounted_insert parts sess.totalParts partID record
        (hkey.2 sess parts hsess hparts) hn
  | abort donut bucket key uploadID signature _ ih =>
    rcases Abort_state env donut bucket key uploadID signature with h | h
    · rw [h]; exact ih
    · exact cleanup_tablesAgree donut _ bucket key uploadID ih h
  | complete donut bucket key uploadID data signature _ ih =>
    rcases complete_shape env donut bucket key uploadID data signature with
      ⟨e1, h1⟩ | ⟨gets, _, h1⟩ | ⟨e1, gets, _, h1⟩ | ⟨gets, size, fullObject, _, h1⟩
    · rw [h1]; exact ih
    · rw [h1]; exact ih
    · rw [h1]; exact ih
    · rw [h1]
      have hper := tablesAgree_of_sameTables donut _ ih
        (hpersist donut bucket key (env.base64StdEncode (env.md5Sum fullObject)) size
          fullObject)
      rcases persistObject_state env donut bucket key uploadID gets size fullObject with
        h | h
      · rw [h]; exact hper
      · exact cleanup_tablesAgree _ _ bucket key uploadID hper h

/-- Witness of C22: the persistence layer of `demoEnv` stores the object metadata and
nothing else; `onlyPartFive` is the state after a session was initiated and part 5
ingested. -/
theorem reachable_sessions_count_their_records_witness :
    (∀ d b k m sz p, sameTables (demoEnv.CreateObject d b k m sz p).2 d) ∧
    Reachable demoEnv onlyPartFive ∧
    ∀ bucket sb, onlyPartFive.storedBuckets bucket = some sb → ∀ key,
      ((sb.partMetadata key).isSome = true ↔ (sb.multiPartSession key).isSome = true) ∧
      ∀ sess parts, sb.multiPartSession key = some sess → sb.partMetadata key = some parts →
        ∃ S : Finset Int, (∀ n, n ∈ S ↔ (parts n).isSome = true) ∧
          (S.card : Int) = sess.totalParts :=
  ⟨demoCreateObject_sameTables, onlyPartFive_reachable,
    reachable_sessions_count_their_records demoEnv demoCreateObject_sameTables onlyPartFive
      onlyPartFive_reachable⟩

end Donut
